import Mathlib

set_option autoImplicit false

/-!
# Keyspace recovery service

A shallow embedding of the codec (`signatures/account_serialization.go`), of the
secp256k1 adapter (`signatures/secp256k1.go`), of the SHA-256
padding of the WebAuthn adapter (`signatures/webauthn.go`), of the proving pipeline
(`proving/prove.go`, `proving/loader_client.go`), of the circuit cache
(`proving/loader.go`, `proving/load.go`) and of the circuit metadata
(`circuits/metadata.go`, `circuits/config.go`), followed by the properties proved about
them.

Go runtime faults (panics) of index and slice expressions are values of `RuntimeFault`
returned in `Except`; in the proving pipeline and in the secp256k1 adapter, which calls
it, a call ends as a `Run`.  Concurrent calls of the cache are interleavings of the
statements of `load`, one goroutine at a time, on a loader whose mutexes are part of the
state.

Conventions.  A byte is a natural number below 256 and a byte string is a `List Nat`;
every function that produces bytes reduces them modulo 256.  A `uint64` is a natural
number below `2 ^ 64`.  A field element (`fr.Element`, `fp.Element`) is modelled by the
integer it holds in regular (non-Montgomery) form, the integer printed by `Bytes` and
`BigInt`; it is reduced when that integer is below the field modulus.  Fallible
functions return `Except`.
-/

namespace signatures

/-! ## Bytes, integers and field elements (library functions) -/

/-- Big-endian encoding of the low `w` bytes of `v`, most significant byte first:
`binary.BigEndian.AppendUint64` for `w = 8`, `Element.Bytes` for `w = 32` and `w = 48`. -/
def bigEndian : Nat → Nat → List Nat
  | 0, _ => []
  | w + 1, v => bigEndian w (v / 256) ++ [v % 256]

/-- Value of a byte string read as a big-endian integer: `big.Int.SetBytes`,
`binary.BigEndian.Uint64`. -/
def fromBigEndian (b : List Nat) : Nat :=
  b.foldl (fun acc x => acc * 256 + x) 0

/-- Go slice expression `b[lo:hi]` (within bounds). -/
def slice {α : Type} (b : List α) (lo hi : Nat) : List α :=
  (b.drop lo).take (hi - lo)

/-- A Go runtime fault (panic) of an index expression or a slice expression. -/
inductive RuntimeFault where
  | indexOutOfRange
  | sliceBoundsOutOfRange
deriving DecidableEq, Repr

deriving instance DecidableEq for Except

/-- Every element of the list is a byte. -/
def IsBytes (b : List Nat) : Prop := ∀ x ∈ b, x < 256

instance (b : List Nat) : Decidable (IsBytes b) :=
  inferInstanceAs (Decidable (∀ x ∈ b, x < 256))

/-- Modulus of the BLS12-377 scalar field (`fr`). -/
def frModulus : Nat :=
  8444461749428370424248824938781546531375899335154063827935233455917409239041

/-- Modulus of the BLS12-377 base field (`fp`), which is also the BW6-761 scalar field. -/
def fpModulus : Nat :=
  258664426012969094010652733694893533536393512754914660539884262666720468348340822774968888139573360124440321458177

/-- Result of `binary.BigEndian.AppendUint64(b, v)`. -/
def AppendUint64 (b : List Nat) (v : Nat) : List Nat := b ++ bigEndian 8 v

/-- Result of `binary.BigEndian.Uint64(b)`: the first eight bytes, big-endian. -/
def Uint64 (b : List Nat) : Nat := fromBigEndian (b.take 8)

/-- Result of `fr.Element.Bytes`: 32 bytes, big-endian. -/
def frBytes (v : Nat) : List Nat := bigEndian 32 v

/-- Result of `fp.Element.Bytes`: 48 bytes, big-endian. -/
def fpBytes (v : Nat) : List Nat := bigEndian 48 v

/-- Result of `fr.Element.SetBytes`: the big-endian integer, reduced modulo `fr`. -/
def frSetBytes (b : List Nat) : Nat := fromBigEndian b % frModulus

/-- Result of `fp.Element.SetBytes`: the big-endian integer, reduced modulo `fp`. -/
def fpSetBytes (b : List Nat) : Nat := fromBigEndian b % fpModulus

/-- Result of `emulated.ValueOf[T]` for an emulated field of modulus `q`: the constant is
reduced modulo `q` unless it equals `q`. -/
def emulatedValueOf (q v : Nat) : Nat := if v = q then v else v % q

/-- Result of `emulated.ValueOf[sw_bw6761.ScalarField]`; the BW6-761 scalar field is the
BLS12-377 base field. -/
def ValueOf (v : Nat) : Nat := emulatedValueOf fpModulus v

/-! ## Data model -/

/-- Go array of two elements. -/
structure Arr2 (α : Type) where
  e0 : α
  e1 : α
deriving DecidableEq, Repr

/-- Go array of three elements. -/
structure Arr3 (α : Type) where
  e0 : α
  e1 : α
  e2 : α
deriving DecidableEq, Repr

/-- Elements of a three-element array in index order (the order of `range`). -/
def Arr3.toList {α : Type} (a : Arr3 α) : List α := [a.e0, a.e1, a.e2]

/-- Point `bls12377.G1Affine`: two base-field elements. -/
structure G1Affine where
  X : Nat
  Y : Nat
deriving DecidableEq, Repr

/-- Quadratic extension element `E2`. -/
structure E2 where
  A0 : Nat
  A1 : Nat
deriving DecidableEq, Repr

/-- Point `bls12377.G2Affine`: two extension-field elements. -/
structure G2Affine where
  X : E2
  Y : E2
deriving DecidableEq, Repr

/-- KZG verifying key `kzg.VerifyingKey`; `L` is the type of one table of precomputed lines. -/
structure KzgVerifyingKey (L : Type) where
  G2 : Arr2 G2Affine
  G1 : G1Affine
  Lines : Arr2 L
deriving DecidableEq, Repr

/-- PLONK verifying key `pbls12377.VerifyingKey`. -/
structure VerifyingKey (L : Type) where
  Size : Nat
  SizeInv : Nat
  Generator : Nat
  NbPublicVariables : Nat
  Kzg : KzgVerifyingKey L
  CosetShift : Nat
  S : Arr3 G1Affine
  Ql : G1Affine
  Qr : G1Affine
  Qm : G1Affine
  Qo : G1Affine
  Qk : G1Affine
  Qcp : List G1Affine
  CommitmentConstraintIndexes : List Nat
deriving DecidableEq, Repr

/-- KZG opening proof `kzg.OpeningProof`. -/
structure OpeningProof where
  H : G1Affine
  ClaimedValue : Nat
deriving DecidableEq, Repr

/-- KZG batch opening proof `kzg.BatchOpeningProof`. -/
structure BatchOpeningProof where
  H : G1Affine
  ClaimedValues : List Nat
deriving DecidableEq, Repr

/-- PLONK proof `pbls12377.Proof`. -/
structure Proof where
  LRO : Arr3 G1Affine
  Z : G1Affine
  H : Arr3 G1Affine
  Bsb22Commitments : List G1Affine
  BatchedProof : BatchOpeningProof
  ZShiftedOpening : OpeningProof
deriving DecidableEq, Repr

/-- The typed errors of the codec. -/
inductive CodecError where
  | ErrInvalidVk
  | ErrInvalidProof
  | ErrInvalidData
deriving DecidableEq, Repr

/-! ### Reduced form -/

/-- Both coordinates are reduced base-field elements. -/
def G1Affine.Reduced (p : G1Affine) : Prop := p.X < fpModulus ∧ p.Y < fpModulus

instance (p : G1Affine) : Decidable p.Reduced :=
  inferInstanceAs (Decidable (p.X < fpModulus ∧ p.Y < fpModulus))

/-- All four coordinates are reduced base-field elements. -/
def G2Affine.Reduced (p : G2Affine) : Prop :=
  p.X.A0 < fpModulus ∧ p.X.A1 < fpModulus ∧ p.Y.A0 < fpModulus ∧ p.Y.A1 < fpModulus

instance (p : G2Affine) : Decidable p.Reduced :=
  inferInstanceAs (Decidable
    (p.X.A0 < fpModulus ∧ p.X.A1 < fpModulus ∧ p.Y.A0 < fpModulus ∧ p.Y.A1 < fpModulus))

/-- The three points of the array are reduced. -/
def Arr3.Reduced (a : Arr3 G1Affine) : Prop := a.e0.Reduced ∧ a.e1.Reduced ∧ a.e2.Reduced

instance (a : Arr3 G1Affine) : Decidable a.Reduced :=
  inferInstanceAs (Decidable (a.e0.Reduced ∧ a.e1.Reduced ∧ a.e2.Reduced))

/-- The key is a value of its Go type with every field element in reduced form: the
`uint64` fields are below `2 ^ 64`, the scalars below the `fr` modulus and the
coordinates below the `fp` modulus. -/
def VerifyingKey.Reduced {L : Type} (vk : VerifyingKey L) : Prop :=
  vk.Size < 2 ^ 64 ∧ (∀ c ∈ vk.CommitmentConstraintIndexes, c < 2 ^ 64) ∧
  vk.SizeInv < frModulus ∧ vk.Generator < frModulus ∧ vk.CosetShift < frModulus ∧
  vk.Kzg.G2.e0.Reduced ∧ vk.Kzg.G2.e1.Reduced ∧ vk.Kzg.G1.Reduced ∧ vk.S.Reduced ∧
  vk.Ql.Reduced ∧ vk.Qr.Reduced ∧ vk.Qm.Reduced ∧ vk.Qo.Reduced ∧ vk.Qk.Reduced ∧
  (∀ q ∈ vk.Qcp, q.Reduced)

instance {L : Type} (vk : VerifyingKey L) : Decidable vk.Reduced :=
  inferInstanceAs (Decidable
    (vk.Size < 2 ^ 64 ∧ (∀ c ∈ vk.CommitmentConstraintIndexes, c < 2 ^ 64) ∧
     vk.SizeInv < frModulus ∧ vk.Generator < frModulus ∧ vk.CosetShift < frModulus ∧
     vk.Kzg.G2.e0.Reduced ∧ vk.Kzg.G2.e1.Reduced ∧ vk.Kzg.G1.Reduced ∧ vk.S.Reduced ∧
     vk.Ql.Reduced ∧ vk.Qr.Reduced ∧ vk.Qm.Reduced ∧ vk.Qo.Reduced ∧ vk.Qk.Reduced ∧
     (∀ q ∈ vk.Qcp, q.Reduced)))

/-- Every field element of the proof is in reduced form. -/
def Proof.Reduced (p : Proof) : Prop :=
  p.LRO.Reduced ∧ p.Z.Reduced ∧ p.H.Reduced ∧ (∀ c ∈ p.Bsb22Commitments, c.Reduced) ∧
  p.BatchedProof.H.Reduced ∧ p.ZShiftedOpening.H.Reduced ∧
  (∀ v ∈ p.BatchedProof.ClaimedValues, v < frModulus) ∧
  p.ZShiftedOpening.ClaimedValue < frModulus

instance (p : Proof) : Decidable p.Reduced :=
  inferInstanceAs (Decidable
    (p.LRO.Reduced ∧ p.Z.Reduced ∧ p.H.Reduced ∧ (∀ c ∈ p.Bsb22Commitments, c.Reduced) ∧
     p.BatchedProof.H.Reduced ∧ p.ZShiftedOpening.H.Reduced ∧
     (∀ v ∈ p.BatchedProof.ClaimedValues, v < frModulus) ∧
     p.ZShiftedOpening.ClaimedValue < frModulus))

/-! ## `account_serialization.go` -/

/-- Size of the raw data payload. -/
def RawDataSize : Nat := 256

/-- Size of the chunked data payload. -/
def DataSize : Nat := 288

/-- Appends the 32 bytes `v` to `b`. -/
def appendBytes32 (b : List Nat) (v : List Nat) : List Nat := b ++ v

/-- Appends the 48 bytes `v` to `b`. -/
def appendBytes48 (b : List Nat) (v : List Nat) : List Nat := b ++ v

/-- Appends the two coordinates of a G1 point, 48 bytes each. -/
def appendG1Bytes (b : List Nat) (v : G1Affine) : List Nat :=
  let b := appendBytes48 b (fpBytes v.X)
  appendBytes48 b (fpBytes v.Y)

/-- Appends the four coordinates of a G2 point, 48 bytes each. -/
def appendG2Bytes (b : List Nat) (v : G2Affine) : List Nat :=
  let b := appendBytes48 b (fpBytes v.X.A0)
  let b := appendBytes48 b (fpBytes v.X.A1)
  let b := appendBytes48 b (fpBytes v.Y.A0)
  appendBytes48 b (fpBytes v.Y.A1)

/-- Appends the two coordinates of a G1 point as integers. -/
def appendG1BigInts (i : List Nat) (g : G1Affine) : List Nat :=
  let i := i ++ [g.X]
  i ++ [g.Y]

/-- Appends the four coordinates of a G2 point as integers. -/
def appendG2BigInts (i : List Nat) (g : G2Affine) : List Nat :=
  let i := i ++ [g.X.A0]
  let i := i ++ [g.X.A1]
  let i := i ++ [g.Y.A0]
  i ++ [g.Y.A1]

/-- Serialises a verifying key to its on-chain byte layout. -/
def VkToBytes {L : Type} (vk : VerifyingKey L) : Except CodecError (List Nat) :=
  if vk.NbPublicVariables ≠ 10 ∨ vk.CommitmentConstraintIndexes.length ≠ 3 ∨ vk.Qcp.length ≠ 3 then
    .error .ErrInvalidVk
  else
    let b : List Nat := []
    let b := AppendUint64 b vk.Size
    let b := appendBytes32 b (frBytes vk.SizeInv)
    let b := appendBytes32 b (frBytes vk.Generator)
    let b := appendBytes32 b (frBytes vk.CosetShift)
    let b := vk.CommitmentConstraintIndexes.foldl AppendUint64 b
    let b := appendG2Bytes b vk.Kzg.G2.e0
    let b := appendG2Bytes b vk.Kzg.G2.e1
    let b := appendG1Bytes b vk.Kzg.G1
    let b := vk.S.toList.foldl appendG1Bytes b
    let b := appendG1Bytes b vk.Ql
    let b := appendG1Bytes b vk.Qr
    let b := appendG1Bytes b vk.Qm
    let b := appendG1Bytes b vk.Qo
    let b := appendG1Bytes b vk.Qk
    let b := vk.Qcp.foldl appendG1Bytes b
    .ok b

/-- Deserialises a verifying key from its on-chain byte layout; `PrecomputeLines` is
`bls12377.PrecomputeLines`. -/
def BytesToVk {L : Type} (PrecomputeLines : G2Affine → L) (b : List Nat) :
    Except CodecError (VerifyingKey L) :=
  if b.length ≠ 1664 then
    .error .ErrInvalidVk
  else
    let g20 : G2Affine :=
      { X := { A0 := fpSetBytes (slice b 128 176), A1 := fpSetBytes (slice b 176 224) }
        Y := { A0 := fpSetBytes (slice b 224 272), A1 := fpSetBytes (slice b 272 320) } }
    let g21 : G2Affine :=
      { X := { A0 := fpSetBytes (slice b 320 368), A1 := fpSetBytes (slice b 368 416) }
        Y := { A0 := fpSetBytes (slice b 416 464), A1 := fpSetBytes (slice b 464 512) } }
    .ok
      { NbPublicVariables := 10
        Size := Uint64 b
        SizeInv := frSetBytes (slice b 8 40)
        Generator := frSetBytes (slice b 40 72)
        CosetShift := frSetBytes (slice b 72 104)
        CommitmentConstraintIndexes :=
          (([] ++ [Uint64 (slice b 104 112)]) ++ [Uint64 (slice b 112 120)]) ++
            [Uint64 (slice b 120 128)]
        Kzg :=
          { G2 := { e0 := g20, e1 := g21 }
            G1 := { X := fpSetBytes (slice b 512 560), Y := fpSetBytes (slice b 560 608) }
            Lines := { e0 := PrecomputeLines g20, e1 := PrecomputeLines g21 } }
        S :=
          { e0 := { X := fpSetBytes (slice b 608 656), Y := fpSetBytes (slice b 656 704) }
            e1 := { X := fpSetBytes (slice b 704 752), Y := fpSetBytes (slice b 752 800) }
            e2 := { X := fpSetBytes (slice b 800 848), Y := fpSetBytes (slice b 848 896) } }
        Ql := { X := fpSetBytes (slice b 896 944), Y := fpSetBytes (slice b 944 992) }
        Qr := { X := fpSetBytes (slice b 992 1040), Y := fpSetBytes (slice b 1040 1088) }
        Qm := { X := fpSetBytes (slice b 1088 1136), Y := fpSetBytes (slice b 1136 1184) }
        Qo := { X := fpSetBytes (slice b 1184 1232), Y := fpSetBytes (slice b 1232 1280) }
        Qk := { X := fpSetBytes (slice b 1280 1328), Y := fpSetBytes (slice b 1328 1376) }
        Qcp :=
          [ { X := fpSetBytes (slice b 1376 1424), Y := fpSetBytes (slice b 1424 1472) },
            { X := fpSetBytes (slice b 1472 1520), Y := fpSetBytes (slice b 1520 1568) },
            { X := fpSetBytes (slice b 1568 1616), Y := fpSetBytes (slice b 1616 1664) } ] }

/-- Serialises a proof to its on-chain byte layout. -/
def ProofToBytes (proof : Proof) : Except CodecError (List Nat) :=
  if proof.Bsb22Commitments.length ≠ 3 ∨ proof.BatchedProof.ClaimedValues.length ≠ 10 then
    .error .ErrInvalidProof
  else
    let b : List Nat := []
    let b := proof.LRO.toList.foldl appendG1Bytes b
    let b := appendG1Bytes b proof.Z
    let b := proof.H.toList.foldl appendG1Bytes b
    let b := proof.Bsb22Commitments.foldl appendG1Bytes b
    let b := appendG1Bytes b proof.BatchedProof.H
    let b := appendG1Bytes b proof.ZShiftedOpening.H
    let b := proof.BatchedProof.ClaimedValues.foldl (fun b v => appendBytes32 b (frBytes v)) b
    let b := appendBytes32 b (frBytes proof.ZShiftedOpening.ClaimedValue)
    .ok b

/-- Deserialises a proof from its on-chain byte layout. -/
def BytesToProof (b : List Nat) : Except CodecError Proof :=
  if b.length ≠ 1504 then
    .error .ErrInvalidProof
  else
    .ok
      { LRO :=
          { e0 := { X := fpSetBytes (slice b 0 48), Y := fpSetBytes (slice b 48 96) }
            e1 := { X := fpSetBytes (slice b 96 144), Y := fpSetBytes (slice b 144 192) }
            e2 := { X := fpSetBytes (slice b 192 240), Y := fpSetBytes (slice b 240 288) } }
        Z := { X := fpSetBytes (slice b 288 336), Y := fpSetBytes (slice b 336 384) }
        H :=
          { e0 := { X := fpSetBytes (slice b 384 432), Y := fpSetBytes (slice b 432 480) }
            e1 := { X := fpSetBytes (slice b 480 528), Y := fpSetBytes (slice b 528 576) }
            e2 := { X := fpSetBytes (slice b 576 624), Y := fpSetBytes (slice b 624 672) } }
        Bsb22Commitments :=
          [ { X := fpSetBytes (slice b 672 720), Y := fpSetBytes (slice b 720 768) },
            { X := fpSetBytes (slice b 768 816), Y := fpSetBytes (slice b 816 864) },
            { X := fpSetBytes (slice b 864 912), Y := fpSetBytes (slice b 912 960) } ]
        BatchedProof :=
          { H := { X := fpSetBytes (slice b 960 1008), Y := fpSetBytes (slice b 1008 1056) }
            ClaimedValues :=
              [ frSetBytes (slice b 1152 1184), frSetBytes (slice b 1184 1216),
                frSetBytes (slice b 1216 1248), frSetBytes (slice b 1248 1280),
                frSetBytes (slice b 1280 1312), frSetBytes (slice b 1312 1344),
                frSetBytes (slice b 1344 1376), frSetBytes (slice b 1376 1408),
                frSetBytes (slice b 1408 1440), frSetBytes (slice b 1440 1472) ] }
        ZShiftedOpening :=
          { H := { X := fpSetBytes (slice b 1056 1104), Y := fpSetBytes (slice b 1104 1152) }
            ClaimedValue := frSetBytes (slice b 1472 1504) } }

/-- Converts a proof to its 35 integers and the 35 emulated elements holding them. -/
def ProofToBigInts (proof : Proof) : Except CodecError (List Nat × List Nat) :=
  if proof.Bsb22Commitments.length ≠ 3 ∨ proof.BatchedProof.ClaimedValues.length ≠ 10 then
    .error .ErrInvalidProof
  else
    let i : List Nat := []
    let i := proof.LRO.toList.foldl appendG1BigInts i
    let i := appendG1BigInts i proof.Z
    let i := proof.H.toList.foldl appendG1BigInts i
    let i := proof.Bsb22Commitments.foldl appendG1BigInts i
    let i := appendG1BigInts i proof.BatchedProof.H
    let i := appendG1BigInts i proof.ZShiftedOpening.H
    let i := proof.BatchedProof.ClaimedValues.foldl (fun i v => i ++ [v]) i
    let i := i ++ [proof.ZShiftedOpening.ClaimedValue]
    if i.length ≠ 35 then
      .error .ErrInvalidVk
    else
      let e := (List.range 35).map (fun j => ValueOf (i.getD j 0))
      .ok (i, e)

/-! ### Opaque data payload -/

/-- Bits of `v`, least significant first, `n` of them: `field.ToBits` on an element
holding `v` returns such a list (`n` being the limb capacity of the emulated field). -/
def ToBits : Nat → Nat → List Nat
  | 0, _ => []
  | n + 1, v => v % 2 :: ToBits n (v / 2)

/-- Result of `api.FromBinary`: the integer whose bits, least significant first, are given. -/
def FromBinary (bits : List Nat) : Nat :=
  bits.foldr (fun b acc => b + 2 * acc) 0

/-- Result of `binaryField.ByteValueOf`: the same value, constrained to eight bits. -/
def ByteValueOf (v : Nat) : Nat := v

/-- Go `copy(dst[off:], src)`: overwrites `dst` from `off` on with as much of `src` as fits. -/
def copyAt (dst : List Nat) (off : Nat) (src : List Nat) : List Nat :=
  let n := min (dst.length - off) src.length
  dst.take off ++ src.take n ++ dst.drop (off + n)

/-- The four arrays built by `DataToBytes31Chunks`: the buffer `b`, the integers `i`,
the circuit variables `v` and the emulated elements `e`. -/
structure Chunks where
  b : List Nat
  i : List Nat
  v : List Nat
  e : List Nat
deriving DecidableEq, Repr

/-- Body of the chunking loop for index `j`. -/
def chunkStep (a : List Nat) (st : Chunks) (j : Nat) : Chunks :=
  let b := copyAt st.b (j * 32 + 1) (slice a (j * 31) ((j + 1) * 31))
  let i := st.i.set j (fromBigEndian (slice a (j * 31) ((j + 1) * 31)))
  let e := st.e.set j (ValueOf (i.getD j 0))
  let v := st.v.set j (i.getD j 0)
  { b := b, i := i, v := v, e := e }

/-- Splits a 256-byte payload into 9 chunks of at most 31 bytes. -/
def DataToBytes31Chunks (a : List Nat) : Except CodecError Chunks :=
  if a.length ≠ RawDataSize then
    .error .ErrInvalidData
  else
    let l := DataSize / 32
    let st : Chunks :=
      { b := List.replicate DataSize 0, i := List.replicate l 0,
        v := List.replicate l 0, e := List.replicate l 0 }
    let st := (List.range (l - 1)).foldl (chunkStep a) st
    let b := copyAt st.b ((l - 1) * 32 + 1) (a.drop ((l - 1) * 31))
    let i := st.i.set (l - 1) (fromBigEndian (a.drop ((l - 1) * 31)))
    let e := st.e.set (l - 1) (ValueOf (i.getD (l - 1) 0))
    let v := st.v.set (l - 1) (i.getD (l - 1) 0)
    .ok { b := b, i := i, v := v, e := e }

/-- Re-assembles the payload bytes from the 9 emulated elements `array`; `nbBits` is the
number of bits `field.ToBits` returns for the emulated field. -/
def DataToUints8 (nbBits : Nat) (array : List Nat) : List Nat :=
  let size := RawDataSize
  let elementSize := 31
  let len := DataSize / 32
  let last := ((size - 1) % elementSize + 1) * 8
  let bits := (ToBits nbBits (array.getD (len - 1) 0)).take last
  let bits := (List.range (len - 1)).reverse.foldl
    (fun bits i => bits ++ (ToBits nbBits (array.getD i 0)).take (elementSize * 8)) bits
  (List.range size).reverse.map
    (fun i => ByteValueOf (FromBinary (slice bits (i * 8) ((i + 1) * 8))))

/-! ## `secp256k1.go` and `utils.go` -/

/-- Order of the secp256k1 group (modulus of `emulated.Secp256k1Fr`). -/
def secp256k1Order : Nat :=
  115792089237316195423570985008687907852837564279074904382605163141518161494337

/-- Bytes of a natural number, big-endian, without leading zeros (none for 0); `fuel`
bounds the number of bytes. -/
def natBytes : Nat → Nat → List Nat
  | 0, _ => []
  | fuel + 1, n => if n = 0 then [] else natBytes fuel (n / 256) ++ [n % 256]

/-- Result of `big.Int.Bytes`: the absolute value, big-endian, of minimal length. -/
def bigIntBytes (x : Int) : List Nat := natBytes x.natAbs x.natAbs

/-- Public key `ecdsa.PublicKey` (affine coordinates). -/
structure PublicKey where
  X : Nat
  Y : Nat
deriving DecidableEq, Repr

/-- Assignment of the `EcdsaAccount` circuit over secp256k1. -/
structure EcdsaAccount where
  CurrentData : List Nat
  NewKey : Int
  SigR : Nat
  SigS : Nat
deriving DecidableEq, Repr

/-- Response of the signature adapters. -/
structure ProveSignatureResponse where
  Proof : List Nat
  CurrentVk : List Nat
  CurrentData : List Nat
deriving DecidableEq, Repr

/-- Errors returned by the secp256k1 adapter: the ones it creates itself, the codec's
typed errors, and errors returned by callees outside this package. -/
inductive SigError (E : Type) where
  | invalidSignatureLength
  | invalidRecoveryId
  | invalidProof
  | invalidVk
  | codec (e : CodecError)
  | external (e : E)
deriving DecidableEq, Repr

/-- The 256-byte payload of a public key: `X` and `Y` on 32 bytes each (`FillBytes`; the
coordinates of a curve point are below `2 ^ 256`), then zeros. -/
def ecdsaPublicKeyToData (publicKey : PublicKey) : List Nat :=
  let publicKeyData := List.replicate 256 0
  let publicKeyData := copyAt publicKeyData 0 (bigEndian 32 publicKey.X)
  copyAt publicKeyData 32 (bigEndian 32 publicKey.Y)

/-- Splits a 65-byte signature into `r` and `s`. -/
def splitSignature {E : Type} (signature : List Nat) : Except (SigError E) (Nat × Nat) :=
  if signature.length ≠ 65 then
    .error .invalidSignatureLength
  else
    .ok (fromBigEndian (slice signature 0 32), fromBigEndian (slice signature 32 64))

/-- The payload of a public key and its chunked circuit input. -/
def publicKeyToCircuitData (publicKey : PublicKey) : Except CodecError (List Nat × List Nat) :=
  let currentData := ecdsaPublicKeyToData publicKey
  match DataToBytes31Chunks currentData with
  | .error err => .error err
  | .ok r => .ok (currentData, r.v)

/-- Serialises the verifying key of a compiled circuit, which must be a BLS12-377 key. -/
def getVkBytes {E L : Type} (vk : Option (VerifyingKey L)) : Except (SigError E) (List Nat) :=
  match vk with
  | none => .error .invalidVk
  | some bls12377vk =>
    match VkToBytes bls12377vk with
    | .error err => .error (.codec err)
    | .ok b => .ok b

/-! ### Integers and emulated bytes of a verifying key -/

/-- Converts a verifying key to its 39 integers and the 39 emulated elements holding
them. -/
def VkToBigInts {L : Type} (vk : VerifyingKey L) : Except CodecError (List Nat × List Nat) :=
  if vk.NbPublicVariables ≠ 10 ∨ vk.CommitmentConstraintIndexes.length ≠ 3 ∨ vk.Qcp.length ≠ 3 then
    .error .ErrInvalidVk
  else
    let i : List Nat := []
    let i := i ++ [vk.Size]
    let i := i ++ [vk.SizeInv]
    let i := i ++ [vk.Generator]
    let i := i ++ [vk.CosetShift]
    let i := vk.CommitmentConstraintIndexes.foldl (fun i c => i ++ [c]) i
    let i := appendG2BigInts i vk.Kzg.G2.e0
    let i := appendG2BigInts i vk.Kzg.G2.e1
    let i := appendG1BigInts i vk.Kzg.G1
    let i := vk.S.toList.foldl appendG1BigInts i
    let i := appendG1BigInts i vk.Ql
    let i := appendG1BigInts i vk.Qr
    let i := appendG1BigInts i vk.Qm
    let i := appendG1BigInts i vk.Qo
    let i := appendG1BigInts i vk.Qk
    let i := vk.Qcp.foldl appendG1BigInts i
    if i.length ≠ 39 then
      .error .ErrInvalidVk
    else
      let e := (List.range 39).map (fun j => ValueOf (i.getD j 0))
      .ok (i, e)

/-- Appends the low `length` bytes of the emulated element `e`, most significant first;
`nbBits` is the number of bits `bwField.ToBits` returns. -/
def appendElementAsUints8 (nbBits : Nat) (i : List Nat) (e : Nat) (length : Nat) : List Nat :=
  let bits := ToBits nbBits e
  (List.range length).reverse.foldl
    (fun i j => i ++ [ByteValueOf (FromBinary (slice bits (j * 8) (j * 8 + 8)))]) i

/-- Converts the 39 emulated elements of a verifying key to bytes. -/
def EmulatedVkToUints8 (nbBits : Nat) (e : List Nat) : List Nat :=
  let b : List Nat := []
  let b := appendElementAsUints8 nbBits b (e.getD 0 0) 8
  let b := appendElementAsUints8 nbBits b (e.getD 1 0) 32
  let b := appendElementAsUints8 nbBits b (e.getD 2 0) 32
  let b := appendElementAsUints8 nbBits b (e.getD 3 0) 32
  let b := (List.range' 4 (7 - 4)).foldl
    (fun b i => appendElementAsUints8 nbBits b (e.getD i 0) 8) b
  let b := (List.range' 7 (39 - 7)).foldl
    (fun b i => appendElementAsUints8 nbBits b (e.getD i 0) 48) b
  b

/-- The byte widths the specification gives for the 39 integers of a verifying key. -/
def specVkWidths : List Nat := [8, 32, 32, 32, 8, 8, 8] ++ List.replicate 32 48

/-- The specification's reading of the integers as bytes: each integer written big-endian
at its width, the strings concatenated. -/
def specWriteBigEndian (widths ints : List Nat) : List Nat :=
  (List.zipWith bigEndian widths ints).foldr (fun x acc => x ++ acc) []

/-- Every field-element slot of a 1664-byte key buffer holds a canonical value: the three
32-byte scalars are below the `fr` modulus and the 32 coordinates of 48 bytes are below the
`fp` modulus. -/
def CanonicalVkBytes (b : List Nat) : Prop :=
  (∀ k < 3, fromBigEndian (slice b (8 + 32 * k) (40 + 32 * k)) < frModulus) ∧
  (∀ k < 32, fromBigEndian (slice b (128 + 48 * k) (176 + 48 * k)) < fpModulus)

instance (b : List Nat) : Decidable (CanonicalVkBytes b) :=
  inferInstanceAs (Decidable
    ((∀ k < 3, fromBigEndian (slice b (8 + 32 * k) (40 + 32 * k)) < frModulus) ∧
     (∀ k < 32, fromBigEndian (slice b (128 + 48 * k) (176 + 48 * k)) < fpModulus)))

/-! ## `webauthn.go` -/

/-- The loop `for lenPosition > 64 { lenPosition -= 64; count-- }` on a `byte` counter;
`fuel` bounds the number of iterations. -/
def padLoop : Nat → Int → Nat → Int × Nat
  | 0, lenPosition, count => (lenPosition, count)
  | fuel + 1, lenPosition, count =>
    if lenPosition > 64 then padLoop fuel (lenPosition - 64) ((count + 256 - 1) % 256)
    else (lenPosition, count)

/-- Pads the client-data suffix for SHA-256 in a 241-byte buffer and counts the 64-byte
blocks of the message.  A fault is the runtime fault the Go code stops with. -/
def PaddedClientDataSuffix (buf : List Nat) : Except RuntimeFault (List Nat × Nat) :=
  let bytesLen : Int := buf.length
  let zeroPadLen : Int := 241 - bytesLen
  let loop := padLoop zeroPadLen.toNat zeroPadLen 5
  let lenPosition := loop.1
  let count := loop.2
  if bytesLen > 241 then
    .error .indexOutOfRange
  else
    let res := copyAt (List.replicate 241 0) 0 buf
    let padding := List.replicate zeroPadLen.toNat 0
    if padding.length = 0 then
      .error .indexOutOfRange
    else
      let padding := padding.set 0 0x80
      if lenPosition - 8 < 0 ∨ lenPosition - 8 > padding.length then
        .error .sliceBoundsOutOfRange
      else if padding.length - (lenPosition - 8).toNat < 8 then
        .error .indexOutOfRange
      else
        let padding := copyAt padding (lenPosition - 8).toNat
          (bigEndian 8 (8 * (36 + 43 + buf.length)))
        let res := copyAt res buf.length padding
        .ok (res, count)

/-- Result of go-ethereum's `common.BytesToHash(b).Bytes()`: the last 32 bytes of `b` when
it is longer, copied to the end of a 32-byte array of zeros. -/
def BytesToHash (b : List Nat) : List Nat :=
  let b := if b.length > 32 then b.drop (b.length - 32) else b
  copyAt (List.replicate 32 0) (32 - b.length) b

/-- The bytes that `ProveSignatureWebAuthn` encodes in base64url as the challenge,
`common.BytesToHash(newKey254.Bytes()).Bytes()`. -/
def challengeBytes (newKey254 : Int) : List Nat := BytesToHash (bigIntBytes newKey254)

/-! ## Example inputs -/

/-- A stand-in for `bls12377.PrecomputeLines` in the examples. -/
def exampleLines (g : G2Affine) : Nat := g.X.A0 + 2 * g.Y.A1

/-- A verifying key of the right shape, with reduced field elements. -/
def exampleVk : VerifyingKey Nat :=
  { Size := 1048576
    SizeInv := 8444461749428370424248824938781546531375899335154063827935233455917409239040
    Generator := 12345678901234567890
    NbPublicVariables := 10
    Kzg :=
      { G2 :=
          { e0 := { X := { A0 := 11, A1 := 12 }, Y := { A0 := 13, A1 := 14 } }
            e1 := { X := { A0 := 15, A1 := 16 }, Y := { A0 := 17, A1 := 18 } } }
        G1 := { X := 19, Y := 20 }
        Lines := { e0 := 39, e1 := 51 } }
    CosetShift := 7
    S := { e0 := { X := 21, Y := 22 }, e1 := { X := 23, Y := 24 }, e2 := { X := 25, Y := 26 } }
    Ql := { X := 27, Y := 28 }
    Qr := { X := 29, Y := 30 }
    Qm := { X := 31, Y := 32 }
    Qo := { X := 33, Y := 34 }
    Qk :=
      { X := 258664426012969094010652733694893533536393512754914660539884262666720468348340822774968888139573360124440321458176
        Y := 36 }
    Qcp := [{ X := 37, Y := 38 }, { X := 39, Y := 40 }, { X := 41, Y := 42 }]
    CommitmentConstraintIndexes := [100, 200, 18446744073709551615] }

/-- A proof of the right shape, with reduced field elements. -/
def exampleProof : Proof :=
  { LRO := { e0 := { X := 1, Y := 2 }, e1 := { X := 3, Y := 4 }, e2 := { X := 5, Y := 6 } }
    Z := { X := 7, Y := 8 }
    H := { e0 := { X := 9, Y := 10 }, e1 := { X := 11, Y := 12 }, e2 := { X := 13, Y := 14 } }
    Bsb22Commitments := [{ X := 15, Y := 16 }, { X := 17, Y := 18 }, { X := 19, Y := 20 }]
    BatchedProof :=
      { H :=
          { X := 21
            Y := 258664426012969094010652733694893533536393512754914660539884262666720468348340822774968888139573360124440321458176 }
        ClaimedValues := [101, 102, 103, 104, 105, 106, 107, 108, 109,
          8444461749428370424248824938781546531375899335154063827935233455917409239040] }
    ZShiftedOpening := { H := { X := 23, Y := 24 }, ClaimedValue := 111 } }

/-- A 1664-byte buffer whose size-inverse slot holds the `fr` modulus itself, a value that
is not canonical; every other byte is zero. -/
def nonCanonicalVkBytes : List Nat :=
  List.replicate 8 0 ++ bigEndian 32 frModulus ++ List.replicate 1624 0

/-- The key the all-zero buffer decodes to (with the lines of `exampleLines`). -/
def zeroVk : VerifyingKey Nat :=
  { Size := 0
    SizeInv := 0
    Generator := 0
    NbPublicVariables := 10
    Kzg :=
      { G2 :=
          { e0 := { X := { A0 := 0, A1 := 0 }, Y := { A0 := 0, A1 := 0 } }
            e1 := { X := { A0 := 0, A1 := 0 }, Y := { A0 := 0, A1 := 0 } } }
        G1 := { X := 0, Y := 0 }
        Lines := { e0 := 0, e1 := 0 } }
    CosetShift := 0
    S := { e0 := { X := 0, Y := 0 }, e1 := { X := 0, Y := 0 }, e2 := { X := 0, Y := 0 } }
    Ql := { X := 0, Y := 0 }
    Qr := { X := 0, Y := 0 }
    Qm := { X := 0, Y := 0 }
    Qo := { X := 0, Y := 0 }
    Qk := { X := 0, Y := 0 }
    Qcp := [{ X := 0, Y := 0 }, { X := 0, Y := 0 }, { X := 0, Y := 0 }]
    CommitmentConstraintIndexes := [0, 0, 0] }

end signatures

namespace proving

/-! ## `prove.go` -/

/-- Compiled circuit `CompiledCircuit`: constraint system, proving key, verifying key. -/
structure CompiledCircuit (Ccs Pk Vk : Type) where
  Ccs : Ccs
  Pk : Pk
  Vk : Vk
deriving DecidableEq, Repr

/-- The gnark operations used by the proving pipeline: `witness.New`,
`Witness.UnmarshalBinary`, `Witness.Public`, `plonk.Prove`, `plonk.Verify` (`none` is a
nil error), `Proof.WriteTo`, and the recursion options of `rplonk`. -/
structure Backend (E Ccs Pk Vk W PW P PO VO : Type) where
  NewWitness : Int → Except E W
  UnmarshalBinary : W → List Nat → Except E W
  Public : W → Except E PW
  Prove : Ccs → Pk → W → List PO → Except E P
  Verify : P → Vk → PW → List VO → Option E
  WriteTo : P → Except E (List Nat)
  GetNativeProverOptions : Int → Int → PO
  GetNativeVerifierOptions : Int → Int → VO

section ProveDefs

variable {E Ccs Pk Vk W PW P PO VO : Type}

/-- Prover options chosen by `Prove`: recursion-aware when the outer field differs. -/
def proverOptions (bk : Backend E Ccs Pk Vk W PW P PO VO) (field outer : Int) : List PO :=
  if outer ≠ field then [] ++ [bk.GetNativeProverOptions outer field] else []

/-- Verifier options chosen by `Prove`: recursion-aware when the outer field differs. -/
def verifierOptions (bk : Backend E Ccs Pk Vk W PW P PO VO) (field outer : Int) : List VO :=
  if outer ≠ field then [] ++ [bk.GetNativeVerifierOptions outer field] else []

/-- Produces a proof and verifies it before returning it. -/
def Prove (bk : Backend E Ccs Pk Vk W PW P PO VO) (c : CompiledCircuit Ccs Pk Vk) (wit : W)
    (field outer : Int) : Except E P :=
  let pOpts := proverOptions bk field outer
  let vOpts := verifierOptions bk field outer
  match bk.Public wit with
  | .error err => .error err
  | .ok publicWitness =>
    match bk.Prove c.Ccs c.Pk wit pOpts with
    | .error err => .error err
    | .ok proof =>
      match bk.Verify proof c.Vk publicWitness vOpts with
      | some err => .error err
      | none => .ok proof

end ProveDefs

/-! ## `load.go` and `loader.go` -/

/-- Modulus of the BN254 scalar field. -/
def bn254ScalarField : Int :=
  21888242871839275222246405745257275088548364400416034343698204186575808495617

/-- Modulus of the BLS12-377 scalar field. -/
def bls12377ScalarField : Int := signatures.frModulus

/-- Modulus of the BW6-761 scalar field. -/
def bw6761ScalarField : Int := signatures.fpModulus

/-- The curves whose artifacts `Load` can decode. -/
inductive Curve where
  | BLS12_377
  | BN254
  | BW6_761
deriving DecidableEq, Repr

/-- Errors of a load: the one `Load` creates, and errors of the store and the decoders. -/
inductive LoadError (E : Type) where
  | unsupportedField
  | external (e : E)
deriving DecidableEq, Repr

/-- An `io.ReadCloser`, by what it does when used: `contents` is the outcome of reading
it to the end and `closeResult` the outcome of `Close` (`none` is a nil error). -/
structure ReadCloser (E : Type) where
  contents : Except E (List Nat)
  closeResult : Option E

/-- The blob store with its state `store`, and the keys requested from it so far, oldest
first. -/
structure World (σ : Type) where
  store : σ
  reads : List String

/-- What a load depends on outside this package: `store.Reader` on the store's state, the
empty artifacts of a curve, and their `ReadFrom` decoders. -/
structure LoadEnv (σ E Ccs Pk Vk : Type) where
  Reader : String → σ → Except E (ReadCloser E) × σ
  emptyVk : Curve → Vk
  emptyPk : Curve → Pk
  emptyCcs : Curve → Ccs
  vkReadFrom : Curve → ReadCloser E → Except E Vk
  pkReadFrom : Curve → ReadCloser E → Except E Pk
  ccsReadFrom : Curve → ReadCloser E → Except E Ccs

section LoadDefs

variable {σ E Ccs Pk Vk : Type}

/-- Call of `store.Reader(key)`, recorded in the list of reads. -/
def storeReader (env : LoadEnv σ E Ccs Pk Vk) (key : String) (w : World σ) :
    Except E (ReadCloser E) × World σ :=
  let r := env.Reader key w.store
  (r.1, { store := r.2, reads := w.reads ++ [key] })

/-- Body of the loop of `Load` for one artifact: opens `key`, buffers the blob first when
`buffer` is set, decodes it with `readFrom` and closes the reader. -/
def loadArtifact {T : Type} (env : LoadEnv σ E Ccs Pk Vk) (key : String) (buffer : Bool)
    (readFrom : ReadCloser E → Except E T) (w : World σ) :
    Except (LoadError E) T × World σ :=
  match storeReader env key w with
  | (.error err, w) => (.error (.external err), w)
  | (.ok reader, w) =>
    if buffer then
      match reader.contents with
      | .error err => (.error (.external err), w)
      | .ok contents =>
        match reader.closeResult with
        | some err => (.error (.external err), w)
        | none =>
          let reader : ReadCloser E := { contents := .ok contents, closeResult := none }
          match readFrom reader with
          | .error err => (.error (.external err), w)
          | .ok t =>
            match reader.closeResult with
            | some err => (.error (.external err), w)
            | none => (.ok t, w)
    else
      match readFrom reader with
      | .error err => (.error (.external err), w)
      | .ok t =>
        match reader.closeResult with
        | some err => (.error (.external err), w)
        | none => (.ok t, w)

/-- The curve whose scalar field is `field`, if it is one of the three supported. -/
def curveOf (field : Int) : Option Curve :=
  if field = bls12377ScalarField then some .BLS12_377
  else if field = bn254ScalarField then some .BN254
  else if field = bw6761ScalarField then some .BW6_761
  else none

/-- Loads the artifacts `filename.vk`, `filename.pk`, `filename.ccs` (only the first when
`onlyVk`) and returns constraint system, proving key and verifying key. -/
def Load (env : LoadEnv σ E Ccs Pk Vk) (filename : String) (field : Int) (onlyVk : Bool)
    (w : World σ) : Except (LoadError E) (Ccs × Pk × Vk) × World σ :=
  match curveOf field with
  | none => (.error .unsupportedField, w)
  | some curve =>
    match loadArtifact env (filename ++ "." ++ "vk") false (env.vkReadFrom curve) w with
    | (.error err, w) => (.error err, w)
    | (.ok vk, w) =>
      if onlyVk then
        (.ok (env.emptyCcs curve, env.emptyPk curve, vk), w)
      else
        match loadArtifact env (filename ++ "." ++ "pk") false (env.pkReadFrom curve) w with
        | (.error err, w) => (.error err, w)
        | (.ok pk, w) =>
          match loadArtifact env (filename ++ "." ++ "ccs") true (env.ccsReadFrom curve) w with
          | (.error err, w) => (.error err, w)
          | (.ok ccs, w) => (.ok (ccs, pk, vk), w)

/-- State of a `LockingCircuitLoader`: the store, the cache `loaded` and the set of names
that have a lock (no lock is held between two calls of a sequential run). -/
structure LockingCircuitLoader (σ Ccs Pk Vk : Type) where
  store : World σ
  loaded : String → Option (CompiledCircuit Ccs Pk Vk)
  locks : String → Bool

/-- A new loader on a store: empty cache, no locks. -/
def NewLockingCircuitLoader (store : World σ) : LockingCircuitLoader σ Ccs Pk Vk :=
  { store := store, loaded := fun _ => none, locks := fun _ => false }

/-- Loads a circuit through the cache (`LockingCircuitLoader.load`). -/
def LockingCircuitLoader.load (env : LoadEnv σ E Ccs Pk Vk)
    (p : LockingCircuitLoader σ Ccs Pk Vk) (filename : String) (field : Int) :
    Except (LoadError E) (CompiledCircuit Ccs Pk Vk) × LockingCircuitLoader σ Ccs Pk Vk :=
  let p : LockingCircuitLoader σ Ccs Pk Vk :=
    if p.locks filename = false then
      { p with locks := fun n => if n = filename then true else p.locks n }
    else p
  match p.loaded filename with
  | some c => (.ok c, p)
  | none =>
    match Load env filename field false p.store with
    | (.error err, w) => (.error err, { p with store := w })
    | (.ok (ccs, pk, vk), w) =>
      let c : CompiledCircuit Ccs Pk Vk := { Ccs := ccs, Pk := pk, Vk := vk }
      (.ok c, { p with store := w, loaded := fun n => if n = filename then some c else p.loaded n })

/-- Outcome `LoadCircuitResult` of a load, delivered on the result channel. -/
structure LoadCircuitResult (E Ccs Pk Vk : Type) where
  Circuit : Option (CompiledCircuit Ccs Pk Vk)
  Err : Option (LoadError E)

/-- Outcome `ProveResult` of a proof, delivered on the result channel. -/
structure ProveResult (E : Type) where
  Data : Option (List Nat)
  Err : Option (LoadError E)

/-- Method `LockingCircuitLoader.Load`, run to completion: the result it delivers and the
state it leaves. -/
def LockingCircuitLoader.Load (env : LoadEnv σ E Ccs Pk Vk)
    (p : LockingCircuitLoader σ Ccs Pk Vk) (filename : String) (field : Int) :
    LoadCircuitResult E Ccs Pk Vk × LockingCircuitLoader σ Ccs Pk Vk :=
  match LockingCircuitLoader.load env p filename field with
  | (.error err, p) => ({ Circuit := none, Err := some err }, p)
  | (.ok compiled, p) =>
    ({ Circuit := some { Ccs := compiled.Ccs, Pk := compiled.Pk, Vk := compiled.Vk },
       Err := none }, p)

variable {W PW P PO VO : Type}

/-- Method `LockingCircuitLoader.LoadAndProve`, run to completion: the result it delivers
and the state it leaves. -/
def LockingCircuitLoader.LoadAndProve (env : LoadEnv σ E Ccs Pk Vk)
    (bk : Backend E Ccs Pk Vk W PW P PO VO) (p : LockingCircuitLoader σ Ccs Pk Vk)
    (filename : String) (field outer : Int) (wit : List Nat) :
    ProveResult E × LockingCircuitLoader σ Ccs Pk Vk :=
  match bk.NewWitness field with
  | .error err => ({ Data := none, Err := some (.external err) }, p)
  | .ok w =>
    match bk.UnmarshalBinary w wit with
    | .error err => ({ Data := none, Err := some (.external err) }, p)
    | .ok w =>
      match LockingCircuitLoader.load env p filename field with
      | (.error err, p) => ({ Data := none, Err := some err }, p)
      | (.ok compiled, p) =>
        match Prove bk compiled w field outer with
        | .error err => ({ Data := none, Err := some (.external err) }, p)
        | .ok pr =>
          match bk.WriteTo pr with
          | .error err => ({ Data := none, Err := some (.external err) }, p)
          | .ok buf => ({ Data := some buf, Err := none }, p)

/-- A call made to the loader. -/
inductive Request where
  | Load (filename : String) (field : Int)
  | LoadAndProve (filename : String) (field outer : Int) (wit : List Nat)
deriving DecidableEq, Repr

/-- State of the loader after one call has run to completion. -/
def step (env : LoadEnv σ E Ccs Pk Vk) (bk : Backend E Ccs Pk Vk W PW P PO VO)
    (p : LockingCircuitLoader σ Ccs Pk Vk) : Request → LockingCircuitLoader σ Ccs Pk Vk
  | .Load filename field => (LockingCircuitLoader.Load env p filename field).2
  | .LoadAndProve filename field outer wit =>
    (LockingCircuitLoader.LoadAndProve env bk p filename field outer wit).2

/-- State of the loader after a sequential run: the calls of `reqs`, one after the other. -/
def run (env : LoadEnv σ E Ccs Pk Vk) (bk : Backend E Ccs Pk Vk W PW P PO VO)
    (p : LockingCircuitLoader σ Ccs Pk Vk) (reqs : List Request) :
    LockingCircuitLoader σ Ccs Pk Vk :=
  reqs.foldl (step env bk) p

end LoadDefs

end proving

namespace circuits

/-! ## `metadata.go` and `config.go` -/

/-- Metadata of a circuit family. -/
structure Metadata where
  Id : String
  Field : Int
  Outer : Int
  Commitments : Int
  MultiTx : Bool
  Solidity : Bool
  Filenames : List String
deriving DecidableEq, Repr

/-- Go index expression `l[i]`: a runtime fault when `i` is outside `0 .. len(l) - 1`. -/
def index {α : Type} (l : List α) (i : Int) : Except signatures.RuntimeFault α :=
  if i < 0 then .error .indexOutOfRange
  else
    match l.get? i.toNat with
    | some a => .ok a
    | none => .error .indexOutOfRange

/-- The artifact filename for a transaction count. -/
def Metadata.Filename (c : Metadata) (txCount : Int) : Except signatures.RuntimeFault String :=
  let txCount := if !c.MultiTx then 1 else txCount
  index c.Filenames (txCount - 1)

/-- The curve of the empty proof `EmptyProof` returns, `none` for its unsupported-field
error. -/
def Metadata.EmptyProof (c : Metadata) : Option proving.Curve :=
  if c.Field = proving.bls12377ScalarField then some .BLS12_377
  else if c.Field = proving.bn254ScalarField then some .BN254
  else if c.Field = proving.bw6761ScalarField then some .BW6_761
  else none

/-- Metadata of the secp256k1 account circuit. -/
def Secp256k1AccountMetadata : Metadata :=
  { Id := "Secp256k1Account"
    Field := proving.bls12377ScalarField
    Outer := proving.bw6761ScalarField
    Commitments := 3
    MultiTx := false
    Solidity := false
    Filenames := [] }

/-- Metadata of the WebAuthn account circuit. -/
def WebauthnAccountMetadata : Metadata :=
  { Id := "WebauthnAccount"
    Field := proving.bls12377ScalarField
    Outer := proving.bw6761ScalarField
    Commitments := 3
    MultiTx := false
    Solidity := false
    Filenames := [] }

/-- A multi-variant family with three filenames, for the examples. -/
def exampleMultiMetadata : Metadata :=
  { Id := "Example"
    Field := proving.bls12377ScalarField
    Outer := proving.bw6761ScalarField
    Commitments := 3
    MultiTx := true
    Solidity := false
    Filenames := ["tx1", "tx2", "tx3"] }

end circuits

namespace proving

/-! ## Runtime faults in the proving pipeline (`prove.go`, `loader.go`, `loader_client.go`) -/

/-- The value a Go `panic` carries: a runtime error of an index or slice expression, or a
value raised inside the proving backend. -/
inductive PanicValue (F : Type) where
  | runtime (f : signatures.RuntimeFault)
  | backend (v : F)
deriving DecidableEq, Repr

/-- How a call ends: it returns; or it panics in the goroutine that made the call
(`panicked`), where a deferred `recover` of a caller can still stop the panic; or a panic
reached the top of the stack of another goroutine without being recovered, and the Go
runtime ends the program (`crashed`). -/
inductive Run (F α : Type) where
  | returned (a : α)
  | panicked (v : PanicValue F)
  | crashed (v : PanicValue F)
deriving DecidableEq, Repr

/-- Runtime faults of the backend: the value `plonk.Prove` and `plonk.Verify` panic with
on an input, `none` where they return. -/
structure BackendFaults (F Ccs Pk Vk W PW P PO VO : Type) where
  ProveFault : Ccs → Pk → W → List PO → Option F
  VerifyFault : P → Vk → PW → List VO → Option F

/-- The operations of `frontend` and of the proof type used around a proof job:
`frontend.NewWitness`, `Witness.MarshalBinary`, `Proof.ReadFrom` on the empty proof of a
curve, and the text of `debug.Stack()`. -/
structure Frontend (E A W P : Type) where
  NewWitness : A → Int → Except E W
  MarshalBinary : W → Except E (List Nat)
  ReadFrom : Curve → List Nat → Except E P
  Stack : String

/-- Errors returned by `ProveAssignment` and `CircuitLoaderClient.LoadAndProve`: an error
of the job, the unsupported-field error of `EmptyProof`, and the error built from a
recovered panic, `fmt.Errorf("panic: %v, stack: %s", r, debug.Stack())`. -/
inductive EntryError (E F : Type) where
  | job (e : LoadError E)
  | emptyProof
  | recovered (v : PanicValue F) (stack : String)
deriving DecidableEq, Repr

section FaultDefs

variable {σ E F A Ccs Pk Vk W PW P PO VO : Type}

/-- The function `Prove` on a backend that can panic: as `Prove`, with the panics of
`plonk.Prove` and `plonk.Verify`. -/
def ProveRun (bk : Backend E Ccs Pk Vk W PW P PO VO)
    (bf : BackendFaults F Ccs Pk Vk W PW P PO VO) (c : CompiledCircuit Ccs Pk Vk) (wit : W)
    (field outer : Int) : Run F (Except E P) :=
  let pOpts := proverOptions bk field outer
  let vOpts := verifierOptions bk field outer
  match bk.Public wit with
  | .error err => .returned (.error err)
  | .ok publicWitness =>
    match bf.ProveFault c.Ccs c.Pk wit pOpts with
    | some v => .panicked (.backend v)
    | none =>
      match bk.Prove c.Ccs c.Pk wit pOpts with
      | .error err => .returned (.error err)
      | .ok proof =>
        match bf.VerifyFault proof c.Vk publicWitness vOpts with
        | some v => .panicked (.backend v)
        | none =>
          match bk.Verify proof c.Vk publicWitness vOpts with
          | some err => .returned (.error err)
          | none => .returned (.ok proof)

/-- Statement `go f()` followed by a receive from the channel `f` sends its result on, as
seen by the goroutine that receives: the value sent, or the end of the program when `f`
panics, since no function of the new goroutine recovers. -/
def goroutine {α : Type} (body : Run F α) : Run F α :=
  match body with
  | .returned a => .returned a
  | .panicked v => .crashed v
  | .crashed v => .crashed v

/-- Body of the goroutine that `ProveAsync` starts. -/
def proveAsyncBody (bk : Backend E Ccs Pk Vk W PW P PO VO)
    (bf : BackendFaults F Ccs Pk Vk W PW P PO VO) (compiled : CompiledCircuit Ccs Pk Vk)
    (field outer : Int) (wit : List Nat) : Run F (ProveResult E) :=
  match bk.NewWitness field with
  | .error err => .returned { Data := none, Err := some (.external err) }
  | .ok w =>
    match bk.UnmarshalBinary w wit with
    | .error err => .returned { Data := none, Err := some (.external err) }
    | .ok w =>
      match ProveRun bk bf compiled w field outer with
      | .panicked v => .panicked v
      | .crashed v => .crashed v
      | .returned (.error err) => .returned { Data := none, Err := some (.external err) }
      | .returned (.ok pr) =>
        match bk.WriteTo pr with
        | .error err => .returned { Data := none, Err := some (.external err) }
        | .ok buf => .returned { Data := some buf, Err := none }

/-- The function `ProveAsync` together with the receive `<-result` of its caller. -/
def ProveAsync (bk : Backend E Ccs Pk Vk W PW P PO VO)
    (bf : BackendFaults F Ccs Pk Vk W PW P PO VO) (compiled : CompiledCircuit Ccs Pk Vk)
    (field outer : Int) (wit : List Nat) : Run F (ProveResult E) :=
  goroutine (proveAsyncBody bk bf compiled field outer wit)

/-- What `proveAssignment` and `loadAndProve` do with the result received: an error of the
job is returned, otherwise the proof bytes are read into the empty proof of the field. -/
def readResult (fe : Frontend E A W P) (cm : circuits.Metadata) (r : ProveResult E) :
    Except (EntryError E F) P :=
  match r.Err with
  | some err => .error (.job err)
  | none =>
    match cm.EmptyProof with
    | none => .error .emptyProof
    | some curve =>
      match fe.ReadFrom curve (r.Data.getD []) with
      | .error err => .error (.job (.external err))
      | .ok proof => .ok proof

/-- The function `proveAssignment`: builds the witness, starts the proof job and waits for
its result. -/
def proveAssignment (fe : Frontend E A W P) (bk : Backend E Ccs Pk Vk W PW P PO VO)
    (bf : BackendFaults F Ccs Pk Vk W PW P PO VO) (cm : circuits.Metadata)
    (compiled : CompiledCircuit Ccs Pk Vk) (assignment : A) :
    Run F (Except (EntryError E F) P) :=
  match fe.NewWitness assignment cm.Field with
  | .error err => .returned (.error (.job (.external err)))
  | .ok w =>
    match fe.MarshalBinary w with
    | .error err => .returned (.error (.job (.external err)))
    | .ok wit =>
      match ProveAsync bk bf compiled cm.Field cm.Outer wit with
      | .panicked v => .panicked v
      | .crashed v => .crashed v
      | .returned r => .returned (readResult fe cm r)

/-- The deferred function of the two entry points: `recover()` stops a panic of the
goroutine it runs in and sets the error result; it does nothing for another goroutine. -/
def recoverToError {α : Type} (stack : String) (r : Run F (Except (EntryError E F) α)) :
    Run F (Except (EntryError E F) α) :=
  match r with
  | .returned a => .returned a
  | .panicked v => .returned (.error (.recovered v stack))
  | .crashed v => .crashed v

/-- The function `ProveAssignment`. -/
def ProveAssignment (fe : Frontend E A W P) (bk : Backend E Ccs Pk Vk W PW P PO VO)
    (bf : BackendFaults F Ccs Pk Vk W PW P PO VO) (cm : circuits.Metadata)
    (compiled : CompiledCircuit Ccs Pk Vk) (assignment : A) :
    Run F (Except (EntryError E F) P) :=
  recoverToError fe.Stack (proveAssignment fe bk bf cm compiled assignment)

/-- Body of the goroutine that `LockingCircuitLoader.LoadAndProve` starts, with the state
of the loader it leaves. -/
def LockingCircuitLoader.loadAndProveBody (env : LoadEnv σ E Ccs Pk Vk)
    (bk : Backend E Ccs Pk Vk W PW P PO VO) (bf : BackendFaults F Ccs Pk Vk W PW P PO VO)
    (p : LockingCircuitLoader σ Ccs Pk Vk) (filename : String) (field outer : Int)
    (wit : List Nat) : Run F (ProveResult E) × LockingCircuitLoader σ Ccs Pk Vk :=
  match bk.NewWitness field with
  | .error err => (.returned { Data := none, Err := some (.external err) }, p)
  | .ok w =>
    match bk.UnmarshalBinary w wit with
    | .error err => (.returned { Data := none, Err := some (.external err) }, p)
    | .ok w =>
      match LockingCircuitLoader.load env p filename field with
      | (.error err, p) => (.returned { Data := none, Err := some err }, p)
      | (.ok compiled, p) =>
        match ProveRun bk bf compiled w field outer with
        | .panicked v => (.panicked v, p)
        | .crashed v => (.crashed v, p)
        | .returned (.error err) => (.returned { Data := none, Err := some (.external err) }, p)
        | .returned (.ok pr) =>
          match bk.WriteTo pr with
          | .error err => (.returned { Data := none, Err := some (.external err) }, p)
          | .ok buf => (.returned { Data := some buf, Err := none }, p)

/-- The method `CircuitLoaderClient.loadAndProve` on a `LockingCircuitLoader`: the
filename is `cm.Filename(txCount-1)`, an index fault of which is a panic of the caller. -/
def CircuitLoaderClient.loadAndProve (fe : Frontend E A W P) (env : LoadEnv σ E Ccs Pk Vk)
    (bk : Backend E Ccs Pk Vk W PW P PO VO) (bf : BackendFaults F Ccs Pk Vk W PW P PO VO)
    (p : LockingCircuitLoader σ Ccs Pk Vk) (cm : circuits.Metadata) (txCount : Int)
    (assignment : A) :
    Run F (Except (EntryError E F) P) × LockingCircuitLoader σ Ccs Pk Vk :=
  let txCount := if !cm.MultiTx then 1 else txCount
  match fe.NewWitness assignment cm.Field with
  | .error err => (.returned (.error (.job (.external err))), p)
  | .ok w =>
    match fe.MarshalBinary w with
    | .error err => (.returned (.error (.job (.external err))), p)
    | .ok wit =>
      match cm.Filename (txCount - 1) with
      | .error fault => (.panicked (.runtime fault), p)
      | .ok filename =>
        match LockingCircuitLoader.loadAndProveBody env bk bf p filename cm.Field cm.Outer
          wit with
        | (body, p) =>
          match goroutine body with
          | .panicked v => (.panicked v, p)
          | .crashed v => (.crashed v, p)
          | .returned r => (.returned (readResult fe cm r), p)

/-- The method `CircuitLoaderClient.LoadAndProve` on a `LockingCircuitLoader`. -/
def CircuitLoaderClient.LoadAndProve (fe : Frontend E A W P) (env : LoadEnv σ E Ccs Pk Vk)
    (bk : Backend E Ccs Pk Vk W PW P PO VO) (bf : BackendFaults F Ccs Pk Vk W PW P PO VO)
    (p : LockingCircuitLoader σ Ccs Pk Vk) (cm : circuits.Metadata) (txCount : Int)
    (assignment : A) :
    Run F (Except (EntryError E F) P) × LockingCircuitLoader σ Ccs Pk Vk :=
  let r := CircuitLoaderClient.loadAndProve fe env bk bf p cm txCount assignment
  (recoverToError fe.Stack r.1, r.2)

/-- The method `CircuitLoaderClient.Load` on a `LockingCircuitLoader`: asks the loader for
`cm.Filename(txCount)`, an index fault of which is a panic of the caller, and returns the
circuit or the error received.  `F` is the type of the values a backend panics with, none
of which occurs here. -/
def CircuitLoaderClient.Load (F : Type) (env : LoadEnv σ E Ccs Pk Vk)
    (p : LockingCircuitLoader σ Ccs Pk Vk) (cm : circuits.Metadata) (txCount : Int) :
    Run F (Except (LoadError E) (Option (CompiledCircuit Ccs Pk Vk))) ×
      LockingCircuitLoader σ Ccs Pk Vk :=
  match cm.Filename txCount with
  | .error fault => (.panicked (.runtime fault), p)
  | .ok filename =>
    match LockingCircuitLoader.Load env p filename cm.Field with
    | (r, p) =>
      match r.Err with
      | some err => (.returned (.error err), p)
      | none => (.returned (.ok r.Circuit), p)

end FaultDefs

/-! ## Concurrent calls of `LockingCircuitLoader.load` -/

section ConcurrentDefs

variable {σ E Ccs Pk Vk : Type}

/-- First critical section of `load`, under `p.lock`: creates the lock of the name when
there is none. -/
def LockingCircuitLoader.ensureLock (p : LockingCircuitLoader σ Ccs Pk Vk)
    (filename : String) : LockingCircuitLoader σ Ccs Pk Vk :=
  if p.locks filename = false then
    { p with locks := fun n => if n = filename then true else p.locks n }
  else p

/-- Second critical section of `load`, under the lock of the name: the cache lookup, the
`Load` of the artifacts on a miss, and the cache write. -/
def LockingCircuitLoader.loadLocked (env : LoadEnv σ E Ccs Pk Vk)
    (p : LockingCircuitLoader σ Ccs Pk Vk) (filename : String) (field : Int) :
    Except (LoadError E) (CompiledCircuit Ccs Pk Vk) × LockingCircuitLoader σ Ccs Pk Vk :=
  match p.loaded filename with
  | some c => (.ok c, p)
  | none =>
    match proving.Load env filename field false p.store with
    | (.error err, w) => (.error err, { p with store := w })
    | (.ok (ccs, pk, vk), w) =>
      let c : CompiledCircuit Ccs Pk Vk := { Ccs := ccs, Pk := pk, Vk := vk }
      (.ok c, { p with store := w, loaded := fun n => if n = filename then some c else p.loaded n })

/-- The loader as its goroutines share it: the store, the cache `loaded`, the mutex `lock`
(`true` while a goroutine holds it) and the table `locks`, which has for a name no mutex
(`none`, the nil pointer of a missing map entry) or a mutex, held (`some true`) or free
(`some false`). -/
structure SharedLoader (σ Ccs Pk Vk : Type) where
  store : World σ
  loaded : String → Option (CompiledCircuit Ccs Pk Vk)
  lock : Bool
  locks : String → Option Bool

/-- The shared loader when no call is under way: no mutex is held. -/
def LockingCircuitLoader.shared (p : LockingCircuitLoader σ Ccs Pk Vk) :
    SharedLoader σ Ccs Pk Vk :=
  { store := p.store
    loaded := p.loaded
    lock := false
    locks := fun n => if p.locks n then some false else none }

/-- The loader state of a shared loader: the names that have a mutex. -/
def SharedLoader.atRest (l : SharedLoader σ Ccs Pk Vk) : LockingCircuitLoader σ Ccs Pk Vk :=
  { store := l.store, loaded := l.loaded, locks := fun n => (l.locks n).isSome }

/-- A fault of a mutex operation: `Lock` through a nil pointer, or `Unlock` of a mutex that
is not locked. -/
inductive MutexFault where
  | nilDereference
  | unlockOfUnlocked
deriving DecidableEq, Repr

/-- Where a goroutine is in its call of `load`, named by the statement it executes next,
with the values of its local variables: `p.lock.Lock()`; the creation of the mutex of the
name when the table has none; `p.lock.Unlock()`; `p.locks[filename].Lock()`; the cache
lookup together with the choice of the curve in `Load`; the three iterations of the loop of
`Load`, for the verifying key, the proving key and the constraint system; the cache write;
the deferred `p.locks[filename].Unlock()` on the way out with result `r`; returned with
`r`; stopped by a mutex fault. -/
inductive Pc (E Ccs Pk Vk : Type) where
  | lockGlobal
  | ensure
  | unlockGlobal
  | lockName
  | lookup
  | readVk (curve : Curve)
  | readPk (curve : Curve) (vk : Vk)
  | readCcs (curve : Curve) (vk : Vk) (pk : Pk)
  | cacheWrite (ccs : Ccs) (pk : Pk) (vk : Vk)
  | unlockName (r : Except (LoadError E) (CompiledCircuit Ccs Pk Vk))
  | done (r : Except (LoadError E) (CompiledCircuit Ccs Pk Vk))
  | panicked (f : MutexFault)
deriving DecidableEq

/-- The goroutine is between `p.lock.Lock()` and `p.lock.Unlock()`. -/
def Pc.holdsGlobal : Pc E Ccs Pk Vk → Bool
  | .ensure => true
  | .unlockGlobal => true
  | _ => false

/-- The goroutine is between `p.locks[filename].Lock()` and the deferred `Unlock`. -/
def Pc.holdsName : Pc E Ccs Pk Vk → Bool
  | .lookup => true
  | .readVk _ => true
  | .readPk _ _ => true
  | .readCcs _ _ _ => true
  | .cacheWrite _ _ _ => true
  | .unlockName _ => true
  | _ => false

/-- The goroutine is past the statement that creates the mutex of the name. -/
def Pc.pastEnsure : Pc E Ccs Pk Vk → Bool
  | .lockGlobal => false
  | .ensure => false
  | .panicked _ => false
  | _ => true

/-- Number of statements the goroutine has still to execute at most. -/
def Pc.rank : Pc E Ccs Pk Vk → Nat
  | .lockGlobal => 10
  | .ensure => 9
  | .unlockGlobal => 8
  | .lockName => 7
  | .lookup => 6
  | .readVk _ => 5
  | .readPk _ _ => 4
  | .readCcs _ _ _ => 3
  | .cacheWrite _ _ _ => 2
  | .unlockName _ => 1
  | .done _ => 0
  | .panicked _ => 0

/-- State of concurrent calls of `load` with one name: the shared loader and where each
goroutine is. -/
structure Concurrent (σ E Ccs Pk Vk : Type) where
  loader : SharedLoader σ Ccs Pk Vk
  pcs : Nat → Pc E Ccs Pk Vk

/-- The statement at `pc` of a goroutine in `load`, executed on the shared loader `l`: the
shared loader it leaves and where the goroutine goes on.  `Lock` on a mutex that is held
makes no progress, on a nil pointer it is a fault; `Unlock` of a mutex that is not held is
a fault; every other statement reads and writes the shared loader as it is when the
statement executes.  A goroutine that has returned or stopped does nothing. -/
def Pc.next (env : LoadEnv σ E Ccs Pk Vk) (filename : String) (field : Int)
    (l : SharedLoader σ Ccs Pk Vk) : Pc E Ccs Pk Vk → SharedLoader σ Ccs Pk Vk × Pc E Ccs Pk Vk
  | .lockGlobal =>
    if l.lock then (l, .lockGlobal)
    else ({ l with lock := true }, .ensure)
  | .ensure =>
    match l.locks filename with
    | none =>
      ({ l with locks := fun n => if n = filename then some false else l.locks n },
        .unlockGlobal)
    | some _ => (l, .unlockGlobal)
  | .unlockGlobal =>
    if l.lock then ({ l with lock := false }, .lockName)
    else (l, .panicked .unlockOfUnlocked)
  | .lockName =>
    match l.locks filename with
    | none => (l, .panicked .nilDereference)
    | some true => (l, .lockName)
    | some false =>
      ({ l with locks := fun n => if n = filename then some true else l.locks n }, .lookup)
  | .lookup =>
    match l.loaded filename with
    | some c => (l, .unlockName (.ok c))
    | none =>
      match curveOf field with
      | none => (l, .unlockName (.error .unsupportedField))
      | some curve => (l, .readVk curve)
  | .readVk curve =>
    match loadArtifact env (filename ++ "." ++ "vk") false (env.vkReadFrom curve) l.store with
    | (.error err, w) => ({ l with store := w }, .unlockName (.error err))
    | (.ok vk, w) => ({ l with store := w }, .readPk curve vk)
  | .readPk curve vk =>
    match loadArtifact env (filename ++ "." ++ "pk") false (env.pkReadFrom curve) l.store with
    | (.error err, w) => ({ l with store := w }, .unlockName (.error err))
    | (.ok pk, w) => ({ l with store := w }, .readCcs curve vk pk)
  | .readCcs curve vk pk =>
    match loadArtifact env (filename ++ "." ++ "ccs") true (env.ccsReadFrom curve) l.store with
    | (.error err, w) => ({ l with store := w }, .unlockName (.error err))
    | (.ok ccs, w) => ({ l with store := w }, .cacheWrite ccs pk vk)
  | .cacheWrite ccs pk vk =>
    let c : CompiledCircuit Ccs Pk Vk := { Ccs := ccs, Pk := pk, Vk := vk }
    ({ l with loaded := fun n => if n = filename then some c else l.loaded n },
      .unlockName (.ok c))
  | .unlockName r =>
    match l.locks filename with
    | some true =>
      ({ l with locks := fun n => if n = filename then some false else l.locks n }, .done r)
    | some false => (l, .panicked .unlockOfUnlocked)
    | none => (l, .panicked .nilDereference)
  | .done r => (l, .done r)
  | .panicked f => (l, .panicked f)

/-- The next `k` statements of a goroutine when no other goroutine executes a statement
between them. -/
def Pc.nexts (env : LoadEnv σ E Ccs Pk Vk) (filename : String) (field : Int) :
    Nat → SharedLoader σ Ccs Pk Vk × Pc E Ccs Pk Vk → SharedLoader σ Ccs Pk Vk × Pc E Ccs Pk Vk
  | 0, x => x
  | k + 1, x => Pc.nexts env filename field k (Pc.next env filename field x.1 x.2)

/-- Goroutine `i` goes on at `pc`, leaving the shared loader `l`. -/
def Concurrent.move (s : Concurrent σ E Ccs Pk Vk) (i : Nat) (l : SharedLoader σ Ccs Pk Vk)
    (pc : Pc E Ccs Pk Vk) : Concurrent σ E Ccs Pk Vk :=
  { loader := l, pcs := Function.update s.pcs i pc }

/-- One step of the scheduler: goroutine `i` executes its next statement on the shared
loader as the goroutines before it have left it.  Any `i ≥ n` does nothing. -/
def Concurrent.step (env : LoadEnv σ E Ccs Pk Vk) (filename : String) (field : Int) (n : Nat)
    (s : Concurrent σ E Ccs Pk Vk) (i : Nat) : Concurrent σ E Ccs Pk Vk :=
  if i < n then
    s.move i (Pc.next env filename field s.loader (s.pcs i)).1
      (Pc.next env filename field s.loader (s.pcs i)).2
  else s

/-- State after the statements of a schedule, a list of goroutine numbers. -/
def Concurrent.run (env : LoadEnv σ E Ccs Pk Vk) (filename : String) (field : Int) (n : Nat)
    (s : Concurrent σ E Ccs Pk Vk) (schedule : List Nat) : Concurrent σ E Ccs Pk Vk :=
  schedule.foldl (Concurrent.step env filename field n) s

/-- What the shared data allow of a goroutine at `pc` when the three artifact loads of
`Load` from the first store `w0` succeed with `vk`, `pk`, `ccs` on curve `curve` and leave
the stores `wa`, `wb`, `w1`: the lookup sees the first store and no cache entry or the last
store and the circuit; the loop iterations see no cache entry, the store left by the
iteration before and the values that iteration returned; the goroutine leaves with the
circuit, which is cached; no goroutine has stopped. -/
def Pc.Allowed (w0 wa wb w1 : World σ) (curve : Curve) (ccs : Ccs) (pk : Pk) (vk : Vk)
    (store : World σ) (cached : Option (CompiledCircuit Ccs Pk Vk)) :
    Pc E Ccs Pk Vk → Prop
  | .lockGlobal => True
  | .ensure => True
  | .unlockGlobal => True
  | .lockName => True
  | .lookup =>
    (cached = none ∧ store = w0) ∨
      (cached = some { Ccs := ccs, Pk := pk, Vk := vk } ∧ store = w1)
  | .readVk cv => cv = curve ∧ cached = none ∧ store = w0
  | .readPk cv v => cv = curve ∧ v = vk ∧ cached = none ∧ store = wa
  | .readCcs cv v k => cv = curve ∧ v = vk ∧ k = pk ∧ cached = none ∧ store = wb
  | .cacheWrite a k v => a = ccs ∧ k = pk ∧ v = vk ∧ cached = none ∧ store = w1
  | .unlockName r =>
    r = .ok { Ccs := ccs, Pk := pk, Vk := vk } ∧
      cached = some { Ccs := ccs, Pk := pk, Vk := vk } ∧ store = w1
  | .done r =>
    r = .ok { Ccs := ccs, Pk := pk, Vk := vk } ∧
      cached = some { Ccs := ccs, Pk := pk, Vk := vk } ∧ store = w1
  | .panicked _ => False

/-- What holds of every state the goroutines reach: the numbers from `n` on have not
started; a mutex is held exactly when a goroutine is between its `Lock` and its `Unlock`,
and at most one goroutine is; the name has a mutex once a goroutine is past its creation;
the shared data allow where every goroutine is; and while the mutex of the name is free,
the store and the cache are as at first or as the load has left them. -/
structure Concurrent.Inv (filename : String) (n : Nat) (w0 wa wb w1 : World σ)
    (curve : Curve) (ccs : Ccs) (pk : Pk) (vk : Vk) (s : Concurrent σ E Ccs Pk Vk) :
    Prop where
  outside : ∀ i, n ≤ i → s.pcs i = .lockGlobal
  global : s.loader.lock = true ↔ ∃ i, (s.pcs i).holdsGlobal = true
  globalUnique : ∀ i j, (s.pcs i).holdsGlobal = true → (s.pcs j).holdsGlobal = true → i = j
  name : s.loader.locks filename = some true ↔ ∃ i, (s.pcs i).holdsName = true
  nameUnique : ∀ i j, (s.pcs i).holdsName = true → (s.pcs j).holdsName = true → i = j
  created : ∀ i, (s.pcs i).pastEnsure = true → s.loader.locks filename ≠ none
  allowed : ∀ i, (s.pcs i).Allowed w0 wa wb w1 curve ccs pk vk s.loader.store
    (s.loader.loaded filename)
  free : s.loader.locks filename ≠ some true →
    (s.loader.loaded filename = none ∧ s.loader.store = w0) ∨
      (s.loader.loaded filename = some { Ccs := ccs, Pk := pk, Vk := vk } ∧
        s.loader.store = w1)

end ConcurrentDefs

/-! ## Example inputs -/

/-- A backend on natural numbers: the proof is the sum of constraint system, proving key
and witness, and verification succeeds on even proofs. -/
def exampleBackend : Backend String Nat Nat Nat Nat Nat Nat Nat Nat :=
  { NewWitness := fun _ => .ok 0
    UnmarshalBinary := fun _ wit => .ok wit.length
    Public := fun w => .ok (w % 2)
    Prove := fun ccs pk w _ => .ok (ccs + pk + w)
    Verify := fun p _ _ _ => if p % 2 = 0 then none else some "verification failed"
    WriteTo := fun p => .ok [p % 256]
    GetNativeProverOptions := fun _ _ => 1
    GetNativeVerifierOptions := fun _ _ => 1 }

/-- A store that serves every key with a one-byte blob and counts its reads, with
decoders that return the first byte of the blob. -/
def exampleLoadEnv : LoadEnv Nat String Nat Nat Nat :=
  { Reader := fun key n => (.ok { contents := .ok [key.length], closeResult := none }, n + 1)
    emptyVk := fun _ => 0
    emptyPk := fun _ => 0
    emptyCcs := fun _ => 0
    vkReadFrom := fun _ r => r.contents.map (fun b => b.getD 0 0)
    pkReadFrom := fun _ r => r.contents.map (fun b => b.getD 0 0 + 100)
    ccsReadFrom := fun _ r => r.contents.map (fun b => b.getD 0 0 + 200) }

/-- A store whose second read fails and whose other reads serve a one-byte blob, with the
decoders of `exampleLoadEnv`. -/
def failingLoadEnv : LoadEnv Nat String Nat Nat Nat :=
  { exampleLoadEnv with
    Reader := fun key n =>
      (if n = 1 then .error "read failed"
       else .ok { contents := .ok [key.length], closeResult := none }, n + 1) }

/-- A new loader on the example store. -/
def exampleLoader : LockingCircuitLoader Nat Nat Nat Nat :=
  NewLockingCircuitLoader { store := 0, reads := [] }

/-- The example loader after a first load of `circuitA`. -/
def exampleLoader1 : LockingCircuitLoader Nat Nat Nat Nat :=
  (LockingCircuitLoader.load exampleLoadEnv exampleLoader "circuitA" bls12377ScalarField).2

/-- Calls made to the example loader after its first load. -/
def exampleRequests : List Request :=
  [.Load "circuitB" bn254ScalarField, .LoadAndProve "circuitA" bw6761ScalarField 5 [1, 2],
   .Load "circuitC" 5]

/-- Frontend operations for the examples: the witness of an assignment is its number, a
proof is read from its first byte. -/
def exampleFrontend : Frontend String Nat Nat Nat :=
  { NewWitness := fun a _ => .ok a
    MarshalBinary := fun w => .ok (List.replicate w 0)
    ReadFrom := fun _ b => .ok (b.getD 0 0)
    Stack := "goroutine 1 [running]" }

/-- A backend that never panics. -/
def noFaults : BackendFaults String Nat Nat Nat Nat Nat Nat Nat Nat :=
  { ProveFault := fun _ _ _ _ => none
    VerifyFault := fun _ _ _ _ => none }

/-- A backend whose prover panics on witnesses of more than three bytes. -/
def exampleFaults : BackendFaults String Nat Nat Nat Nat Nat Nat Nat Nat :=
  { ProveFault := fun _ _ w _ => if w > 3 then some "slice bounds out of range" else none
    VerifyFault := fun _ _ _ _ => none }

/-- The circuit that `exampleLoadEnv` serves under `circuitA`. -/
def exampleCircuit : CompiledCircuit Nat Nat Nat := { Ccs := 212, Pk := 111, Vk := 11 }

/-- A single-variant family with one filename, for the examples. -/
def exampleSingleMetadata : circuits.Metadata :=
  { Id := "Example"
    Field := bls12377ScalarField
    Outer := bw6761ScalarField
    Commitments := 3
    MultiTx := false
    Solidity := false
    Filenames := ["circuitA"] }

end proving

namespace signatures

/-! ## The secp256k1 adapter (`secp256k1.go`) -/

/-- The operations the adapter calls outside the packages embedded here, on a world state
`σ`: `crypto.SigToPub`; the method `Load` of the `proving.CircuitLoader` passed in, with
the receive of its result, as `(r.Circuit, r.Err)`; `proving.ProveAssignment`, which
returns, panics or ends the program; and the two type assertions to the BLS12-377 proof
and verifying key. -/
structure AdapterEnv (σ E F CC PP L : Type) where
  SigToPub : List Nat → List Nat → Except E PublicKey
  Load : String → Int → σ → Except E CC × σ
  ProveAssignment : circuits.Metadata → CC → EcdsaAccount → σ →
    proving.Run F (Except E PP) × σ
  asBls12377Proof : PP → Option Proof
  asBls12377Vk : CC → Option (VerifyingKey L)

/-- The call `clc.Load(cm, txCount)` on the loader of the environment
(`CircuitLoaderClient.Load`): the filename is `cm.Filename(txCount)`, an index fault of
which is a panic of the caller. -/
def clientLoad {σ E F CC PP L : Type} (env : AdapterEnv σ E F CC PP L)
    (cm : circuits.Metadata) (txCount : Int) (w : σ) : proving.Run F (Except E CC) × σ :=
  match cm.Filename txCount with
  | .error fault => (.panicked (.runtime fault), w)
  | .ok filename =>
    match env.Load filename cm.Field w with
    | (r, w) => (.returned r, w)

/-- The adapter from public-key recovery on (`secp256k1.go`, lines 27 to 76), on the
signature whose recovery byte has been normalised.  Nothing on the way recovers a panic. -/
def proveRecovered {σ E F CC PP L : Type} (env : AdapterEnv σ E F CC PP L) (newKey254 : Int)
    (signature : List Nat) (w : σ) :
    proving.Run F (Except (SigError E) ProveSignatureResponse) × σ :=
  match env.SigToPub (bigIntBytes newKey254) signature with
  | .error err => (.returned (.error (.external err)), w)
  | .ok currentPublicKey =>
    match publicKeyToCircuitData currentPublicKey with
    | .error err => (.returned (.error (.codec err)), w)
    | .ok (currentData, currentDataInput) =>
      match splitSignature signature with
      | .error err => (.returned (.error err), w)
      | .ok (signatureR, signatureS) =>
        match clientLoad env circuits.Secp256k1AccountMetadata 0 w with
        | (.panicked v, w) => (.panicked v, w)
        | (.crashed v, w) => (.crashed v, w)
        | (.returned (.error err), w) => (.returned (.error (.external err)), w)
        | (.returned (.ok cc), w) =>
          match env.ProveAssignment circuits.Secp256k1AccountMetadata cc
              { CurrentData := currentDataInput, NewKey := newKey254,
                SigR := emulatedValueOf secp256k1Order signatureR,
                SigS := emulatedValueOf secp256k1Order signatureS } w with
          | (.panicked v, w) => (.panicked v, w)
          | (.crashed v, w) => (.crashed v, w)
          | (.returned (.error err), w) => (.returned (.error (.external err)), w)
          | (.returned (.ok proof), w) =>
            match env.asBls12377Proof proof with
            | none => (.returned (.error .invalidProof), w)
            | some bls12377AccountProof =>
              match ProofToBytes bls12377AccountProof with
              | .error err => (.returned (.error (.codec err)), w)
              | .ok proofBytes =>
                match getVkBytes (env.asBls12377Vk cc) with
                | .error err => (.returned (.error err), w)
                | .ok vkBytes =>
                  (.returned (.ok { Proof := proofBytes, CurrentVk := vkBytes,
                                    CurrentData := currentData }), w)

set_option linter.unusedVariables false in
/-- Proves a secp256k1 signature: validates the signature, normalises its recovery byte
in place (`signature[64] -= 27` on a byte) and runs the rest of the adapter.  The
arguments `key` and `signatureType` are not used by the body. -/
def ProveSignatureSecp256k1 {σ E F CC PP L : Type} (env : AdapterEnv σ E F CC PP L)
    (key newKey254 : Int) (signature : List Nat) (signatureType : String) (w : σ) :
    proving.Run F (Except (SigError E) ProveSignatureResponse) × σ :=
  if signature.length ≠ 65 then
    (.returned (.error .invalidSignatureLength), w)
  else if signature.getD 64 0 ≠ 27 ∧ signature.getD 64 0 ≠ 28 then
    (.returned (.error .invalidRecoveryId), w)
  else
    let signature := signature.set 64 ((signature.getD 64 0 + 256 - 27) % 256)
    proveRecovered env newKey254 signature w

/-! ## Example inputs of the adapter -/

/-- Operations for the adapter examples: recovery returns a fixed key, loading and
proving succeed and count their calls in the world state. -/
def exampleAdapterEnv : AdapterEnv Nat String String Unit Unit Nat :=
  { SigToPub := fun _ _ => .ok { X := 1, Y := 2 }
    Load := fun _ _ w => (.ok (), w + 1)
    ProveAssignment := fun _ _ _ w => (.returned (.ok ()), w + 1)
    asBls12377Proof := fun _ => some exampleProof
    asBls12377Vk := fun _ => some exampleVk }

/-- The operations of `exampleAdapterEnv`, with a public-key recovery that rejects every
message that is not 32 bytes long and reports its length. -/
def strictAdapterEnv : AdapterEnv Nat (String × Nat) String Unit Unit Nat :=
  { SigToPub := fun msg _ =>
      if msg.length ≠ 32 then .error ("invalid message length", msg.length)
      else .ok { X := 1, Y := 2 }
    Load := fun _ _ w => (.ok (), w + 1)
    ProveAssignment := fun _ _ _ w => (.returned (.ok ()), w + 1)
    asBls12377Proof := fun _ => some exampleProof
    asBls12377Vk := fun _ => some exampleVk }

end signatures

namespace signatures

/-! ## Lemmas on bytes and slices -/

theorem bigEndian_length (w v : Nat) : (bigEndian w v).length = w := by
  induction w generalizing v with
  | zero => rfl
  | succ w ih => simp [bigEndian, ih]

theorem isBytes_bigEndian (w v : Nat) : IsBytes (bigEndian w v) := by
  induction w generalizing v with
  | zero => intro x hx; simp [bigEndian] at hx
  | succ w ih =>
    intro x hx
    simp only [bigEndian, List.mem_append, List.mem_singleton] at hx
    rcases hx with hx | rfl
    · exact ih _ x hx
    · exact Nat.mod_lt _ (by decide)

theorem fromBigEndian_append (xs ys : List Nat) :
    fromBigEndian (xs ++ ys) = fromBigEndian xs * 256 ^ ys.length + fromBigEndian ys := by
  induction ys using List.reverseRecOn generalizing xs with
  | nil => simp [fromBigEndian]
  | append_singleton ys y ih =>
    have h1 : fromBigEndian (xs ++ (ys ++ [y])) = fromBigEndian (xs ++ ys) * 256 + y := by
      simp [fromBigEndian, List.foldl_append]
    have h2 : fromBigEndian (ys ++ [y]) = fromBigEndian ys * 256 + y := by
      simp [fromBigEndian, List.foldl_append]
    rw [h1, h2, ih]
    simp only [List.length_append, List.length_singleton, pow_succ]
    ring

theorem fromBigEndian_bigEndian (w v : Nat) : fromBigEndian (bigEndian w v) = v % 256 ^ w := by
  induction w generalizing v with
  | zero => simp [bigEndian, fromBigEndian, Nat.mod_one]
  | succ w ih =>
    rw [bigEndian, fromBigEndian_append, ih]
    simp only [List.length_singleton, pow_one]
    have h : fromBigEndian [v % 256] = v % 256 := by simp [fromBigEndian]
    rw [h, pow_succ, mul_comm (256 ^ w) 256, Nat.mod_mul, mul_comm]
    omega

theorem fromBigEndian_lt (b : List Nat) (hb : IsBytes b) : fromBigEndian b < 256 ^ b.length := by
  induction b using List.reverseRecOn with
  | nil => simp [fromBigEndian]
  | append_singleton ys y ih =>
    rw [fromBigEndian_append]
    have hy : y < 256 := hb y (by simp)
    have hys : fromBigEndian ys < 256 ^ ys.length :=
      ih (fun x hx => hb x (by simp [hx]))
    have h : fromBigEndian [y] = y := by simp [fromBigEndian]
    simp only [List.length_append, List.length_singleton, pow_one, h, pow_succ]
    nlinarith

theorem bigEndian_fromBigEndian (b : List Nat) (hb : IsBytes b) :
    bigEndian b.length (fromBigEndian b) = b := by
  induction b using List.reverseRecOn with
  | nil => rfl
  | append_singleton ys y ih =>
    have hy : y < 256 := hb y (by simp)
    have hys : bigEndian ys.length (fromBigEndian ys) = ys :=
      ih (fun x hx => hb x (by simp [hx]))
    have h : fromBigEndian (ys ++ [y]) = fromBigEndian ys * 256 + y := by
      simp [fromBigEndian, List.foldl_append]
    rw [List.length_append, List.length_singleton, bigEndian, h]
    have h1 : (fromBigEndian ys * 256 + y) / 256 = fromBigEndian ys := by omega
    have h2 : (fromBigEndian ys * 256 + y) % 256 = y := by omega
    rw [h1, h2, hys]

theorem slice_append_skip {α : Type} (xs ys : List α) (lo hi : Nat) (h : xs.length ≤ lo) :
    slice (xs ++ ys) lo hi = slice ys (lo - xs.length) (hi - xs.length) := by
  unfold slice
  rw [List.drop_append_eq_append_drop, List.drop_of_length_le h, List.nil_append]
  congr 1
  omega

theorem slice_append_here {α : Type} (xs ys : List α) (hi : Nat) (h : hi = xs.length) :
    slice (xs ++ ys) 0 hi = xs := by
  subst h
  simp [slice]

theorem slice_all {α : Type} (xs : List α) (hi : Nat) (h : hi = xs.length) :
    slice xs 0 hi = xs := by
  subst h
  simp [slice]

theorem Uint64_append (xs ys : List Nat) (h : xs.length = 8) :
    Uint64 (xs ++ ys) = fromBigEndian xs := by
  unfold Uint64
  rw [List.take_append_of_le_length (by omega), List.take_of_length_le (by omega)]

theorem Uint64_bigEndian (v : Nat) (h : v < 2 ^ 64) : Uint64 (bigEndian 8 v) = v := by
  unfold Uint64
  rw [List.take_of_length_le (by rw [bigEndian_length]), fromBigEndian_bigEndian]
  exact Nat.mod_eq_of_lt (by norm_num at h ⊢; exact h)

theorem fromBigEndian_bigEndian_of_lt (w v : Nat) (h : v < 256 ^ w) :
    fromBigEndian (bigEndian w v) = v := by
  rw [fromBigEndian_bigEndian]
  exact Nat.mod_eq_of_lt h

theorem frModulus_lt : frModulus < 256 ^ 32 := by
  unfold frModulus
  norm_num

theorem fpModulus_lt : fpModulus < 256 ^ 48 := by
  unfold fpModulus
  norm_num

theorem frSetBytes_bigEndian (v : Nat) (h : v < frModulus) : frSetBytes (bigEndian 32 v) = v := by
  unfold frSetBytes
  rw [fromBigEndian_bigEndian_of_lt 32 v (lt_trans h frModulus_lt)]
  exact Nat.mod_eq_of_lt h

theorem fpSetBytes_bigEndian (v : Nat) (h : v < fpModulus) : fpSetBytes (bigEndian 48 v) = v := by
  unfold fpSetBytes
  rw [fromBigEndian_bigEndian_of_lt 48 v (lt_trans h fpModulus_lt)]
  exact Nat.mod_eq_of_lt h

theorem isBytes_append (xs ys : List Nat) : IsBytes (xs ++ ys) ↔ IsBytes xs ∧ IsBytes ys := by
  unfold IsBytes
  simp only [List.mem_append]
  constructor
  · intro h
    exact ⟨fun x hx => h x (Or.inl hx), fun x hx => h x (Or.inr hx)⟩
  · rintro ⟨h1, h2⟩ x (hx | hx)
    · exact h1 x hx
    · exact h2 x hx

/-- The byte string written by `VkToBytes` on a key of the right shape, field by field. -/
theorem VkToBytes_eq {L : Type} (vk : VerifyingKey L) (c0 c1 c2 : Nat) (q0 q1 q2 : G1Affine)
    (h10 : vk.NbPublicVariables = 10) (hc : vk.CommitmentConstraintIndexes = [c0, c1, c2])
    (hq : vk.Qcp = [q0, q1, q2]) :
    VkToBytes vk = .ok
      (bigEndian 8 vk.Size ++ (bigEndian 32 vk.SizeInv ++ (bigEndian 32 vk.Generator ++
      (bigEndian 32 vk.CosetShift ++ (bigEndian 8 c0 ++ (bigEndian 8 c1 ++ (bigEndian 8 c2 ++
      (bigEndian 48 vk.Kzg.G2.e0.X.A0 ++ (bigEndian 48 vk.Kzg.G2.e0.X.A1 ++
      (bigEndian 48 vk.Kzg.G2.e0.Y.A0 ++ (bigEndian 48 vk.Kzg.G2.e0.Y.A1 ++
      (bigEndian 48 vk.Kzg.G2.e1.X.A0 ++ (bigEndian 48 vk.Kzg.G2.e1.X.A1 ++
      (bigEndian 48 vk.Kzg.G2.e1.Y.A0 ++ (bigEndian 48 vk.Kzg.G2.e1.Y.A1 ++
      (bigEndian 48 vk.Kzg.G1.X ++ (bigEndian 48 vk.Kzg.G1.Y ++
      (bigEndian 48 vk.S.e0.X ++ (bigEndian 48 vk.S.e0.Y ++
      (bigEndian 48 vk.S.e1.X ++ (bigEndian 48 vk.S.e1.Y ++
      (bigEndian 48 vk.S.e2.X ++ (bigEndian 48 vk.S.e2.Y ++
      (bigEndian 48 vk.Ql.X ++ (bigEndian 48 vk.Ql.Y ++
      (bigEndian 48 vk.Qr.X ++ (bigEndian 48 vk.Qr.Y ++
      (bigEndian 48 vk.Qm.X ++ (bigEndian 48 vk.Qm.Y ++
      (bigEndian 48 vk.Qo.X ++ (bigEndian 48 vk.Qo.Y ++
      (bigEndian 48 vk.Qk.X ++ (bigEndian 48 vk.Qk.Y ++
      (bigEndian 48 q0.X ++ (bigEndian 48 q0.Y ++
      (bigEndian 48 q1.X ++ (bigEndian 48 q1.Y ++
      (bigEndian 48 q2.X ++ bigEndian 48 q2.Y)))))))))))))))))))))))))))))))))))))) := by
  simp [VkToBytes, h10, hc, hq, AppendUint64, appendBytes32, appendG2Bytes, appendG1Bytes,
    appendBytes48, frBytes, fpBytes, Arr3.toList, List.append_assoc]

/-- The byte string written by `ProofToBytes` on a proof of the right shape, field by
field. -/
theorem ProofToBytes_eq (proof : Proof) (c0 c1 c2 : G1Affine)
    (v0 v1 v2 v3 v4 v5 v6 v7 v8 v9 : Nat) (hc : proof.Bsb22Commitments = [c0, c1, c2])
    (hv : proof.BatchedProof.ClaimedValues = [v0, v1, v2, v3, v4, v5, v6, v7, v8, v9]) :
    ProofToBytes proof = .ok
      (bigEndian 48 proof.LRO.e0.X ++ (bigEndian 48 proof.LRO.e0.Y ++
      (bigEndian 48 proof.LRO.e1.X ++ (bigEndian 48 proof.LRO.e1.Y ++
      (bigEndian 48 proof.LRO.e2.X ++ (bigEndian 48 proof.LRO.e2.Y ++
      (bigEndian 48 proof.Z.X ++ (bigEndian 48 proof.Z.Y ++
      (bigEndian 48 proof.H.e0.X ++ (bigEndian 48 proof.H.e0.Y ++
      (bigEndian 48 proof.H.e1.X ++ (bigEndian 48 proof.H.e1.Y ++
      (bigEndian 48 proof.H.e2.X ++ (bigEndian 48 proof.H.e2.Y ++
      (bigEndian 48 c0.X ++ (bigEndian 48 c0.Y ++
      (bigEndian 48 c1.X ++ (bigEndian 48 c1.Y ++
      (bigEndian 48 c2.X ++ (bigEndian 48 c2.Y ++
      (bigEndian 48 proof.BatchedProof.H.X ++ (bigEndian 48 proof.BatchedProof.H.Y ++
      (bigEndian 48 proof.ZShiftedOpening.H.X ++ (bigEndian 48 proof.ZShiftedOpening.H.Y ++
      (bigEndian 32 v0 ++ (bigEndian 32 v1 ++ (bigEndian 32 v2 ++ (bigEndian 32 v3 ++
      (bigEndian 32 v4 ++ (bigEndian 32 v5 ++ (bigEndian 32 v6 ++ (bigEndian 32 v7 ++
      (bigEndian 32 v8 ++ (bigEndian 32 v9 ++
      bigEndian 32 proof.ZShiftedOpening.ClaimedValue)))))))))))))))))))))))))))))))))) := by
  simp [ProofToBytes, hc, hv, appendBytes32, appendG1Bytes, appendBytes48, frBytes, fpBytes,
    Arr3.toList, List.append_assoc]

theorem list_length_ten {α : Type} (l : List α) (h : l.length = 10) :
    ∃ a0 a1 a2 a3 a4 a5 a6 a7 a8 a9, l = [a0, a1, a2, a3, a4, a5, a6, a7, a8, a9] := by
  rcases l with _ | ⟨a0, _ | ⟨a1, _ | ⟨a2, _ | ⟨a3, _ | ⟨a4, _ | ⟨a5, _ | ⟨a6, _ | ⟨a7,
    _ | ⟨a8, _ | ⟨a9, _ | ⟨a10, l⟩⟩⟩⟩⟩⟩⟩⟩⟩⟩⟩ <;> simp at h
  exact ⟨a0, a1, a2, a3, a4, a5, a6, a7, a8, a9, rfl⟩

/-! ## Length checks and shape checks -/

theorem foldl_appendG1Bytes_length (l : List G1Affine) (b : List Nat) :
    (l.foldl appendG1Bytes b).length = b.length + 96 * l.length := by
  induction l generalizing b with
  | nil => simp
  | cons x xs ih =>
    simp only [List.foldl_cons, ih, List.length_cons]
    simp only [appendG1Bytes, appendBytes48, fpBytes, List.length_append, bigEndian_length]
    omega

theorem foldl_appendG1BigInts_length (l : List G1Affine) (i : List Nat) :
    (l.foldl appendG1BigInts i).length = i.length + 2 * l.length := by
  induction l generalizing i with
  | nil => simp
  | cons x xs ih =>
    simp only [List.foldl_cons, ih, List.length_cons]
    simp only [appendG1BigInts, List.length_append, List.length_singleton]
    omega

theorem foldl_snoc_length (l : List Nat) (i : List Nat) :
    (l.foldl (fun i v => i ++ [v]) i).length = i.length + l.length := by
  induction l generalizing i with
  | nil => simp
  | cons x xs ih =>
    simp only [List.foldl_cons, ih, List.length_cons, List.length_append, List.length_nil]
    omega

/-- The integer list built by `ProofToBigInts` on a proof of the right shape has 35
entries, so its second check never fails. -/
theorem proofBigInts_length (proof : Proof) (h3 : proof.Bsb22Commitments.length = 3)
    (h10 : proof.BatchedProof.ClaimedValues.length = 10) :
    ((proof.BatchedProof.ClaimedValues.foldl (fun i v => i ++ [v])
      (appendG1BigInts (appendG1BigInts (proof.Bsb22Commitments.foldl appendG1BigInts
        (proof.H.toList.foldl appendG1BigInts (appendG1BigInts
          (proof.LRO.toList.foldl appendG1BigInts []) proof.Z))) proof.BatchedProof.H)
        proof.ZShiftedOpening.H)) ++ [proof.ZShiftedOpening.ClaimedValue]).length = 35 := by
  simp only [List.length_append, List.length_singleton, foldl_snoc_length, appendG1BigInts,
    foldl_appendG1BigInts_length, Arr3.toList, List.length_cons, List.length_nil, h3, h10]

/-- C6. A wrong byte length is rejected with the operation's own typed error whatever the
content, and the exact length is accepted: `BytesToVk` returns invalid-verifying-key
exactly when the length is not 1664 and a key otherwise, `BytesToProof` returns
invalid-proof exactly when the length is not 1504 and a proof otherwise, and
`DataToBytes31Chunks` returns invalid-data exactly when the length is not 256 and its
chunks otherwise. -/
theorem length_checks {L : Type} (PrecomputeLines : G2Affine → L) (b : List Nat) :
    (BytesToVk PrecomputeLines b = .error .ErrInvalidVk ↔ b.length ≠ 1664) ∧
    ((∃ vk, BytesToVk PrecomputeLines b = .ok vk) ↔ b.length = 1664) ∧
    (BytesToProof b = .error .ErrInvalidProof ↔ b.length ≠ 1504) ∧
    ((∃ p, BytesToProof b = .ok p) ↔ b.length = 1504) ∧
    (DataToBytes31Chunks b = .error .ErrInvalidData ↔ b.length ≠ 256) ∧
    ((∃ r, DataToBytes31Chunks b = .ok r) ↔ b.length = 256) := by
  refine ⟨?_, ?_, ?_, ?_, ?_, ?_⟩
  · by_cases h : b.length = 1664 <;> simp [BytesToVk, h]
  · by_cases h : b.length = 1664 <;> simp [BytesToVk, h]
  · by_cases h : b.length = 1504 <;> simp [BytesToProof, h]
  · by_cases h : b.length = 1504 <;> simp [BytesToProof, h]
  · by_cases h : b.length = 256 <;> simp [DataToBytes31Chunks, RawDataSize, h]
  · by_cases h : b.length = 256 <;> simp [DataToBytes31Chunks, RawDataSize, h]

/-- C7. Every encoder rejects a wrong shape with its own typed error and no other:
`VkToBytes` fails exactly when the public-variable count is not 10 or the
commitment-index count is not 3 or the `Qcp` count is not 3, and then with
invalid-verifying-key; `ProofToBytes` and `ProofToBigInts` fail exactly when the
commitment count is not 3 or the claimed-value count is not 10, and every error they
return is invalid-proof. -/
theorem shape_checks {L : Type} (vk : VerifyingKey L) (proof : Proof) :
    ((∃ e, VkToBytes vk = .error e) ↔
      (vk.NbPublicVariables ≠ 10 ∨ vk.CommitmentConstraintIndexes.length ≠ 3 ∨
        vk.Qcp.length ≠ 3)) ∧
    (∀ e, VkToBytes vk = .error e → e = .ErrInvalidVk) ∧
    ((∃ e, ProofToBytes proof = .error e) ↔
      (proof.Bsb22Commitments.length ≠ 3 ∨ proof.BatchedProof.ClaimedValues.length ≠ 10)) ∧
    (∀ e, ProofToBytes proof = .error e → e = .ErrInvalidProof) ∧
    ((∃ e, ProofToBigInts proof = .error e) ↔
      (proof.Bsb22Commitments.length ≠ 3 ∨ proof.BatchedProof.ClaimedValues.length ≠ 10)) ∧
    (∀ e, ProofToBigInts proof = .error e → e = .ErrInvalidProof) := by
  have hbig : ∀ e, ProofToBigInts proof = .error e →
      e = .ErrInvalidProof ∧
      (proof.Bsb22Commitments.length ≠ 3 ∨ proof.BatchedProof.ClaimedValues.length ≠ 10) := by
    intro e he
    unfold ProofToBigInts at he
    split at he
    · rename_i hs
      injection he with he
      exact ⟨he.symm, hs⟩
    · rename_i hs
      have h3 : proof.Bsb22Commitments.length = 3 := by
        by_contra hc; exact hs (Or.inl hc)
      have h10 : proof.BatchedProof.ClaimedValues.length = 10 := by
        by_contra hc; exact hs (Or.inr hc)
      simp only [proofBigInts_length proof h3 h10] at he
      simp at he
  refine ⟨?_, ?_, ?_, ?_, ?_, ?_⟩
  · unfold VkToBytes
    split <;> rename_i hs
    · simpa using hs
    · simp only [hs, iff_false]
      rintro ⟨e, he⟩
      cases he
  · intro e he
    unfold VkToBytes at he
    split at he
    · injection he with he
      exact he.symm
    · cases he
  · unfold ProofToBytes
    split <;> rename_i hs
    · simpa using hs
    · simp only [hs, iff_false]
      rintro ⟨e, he⟩
      cases he
  · intro e he
    unfold ProofToBytes at he
    split at he
    · injection he with he
      exact he.symm
    · cases he
  · constructor
    · rintro ⟨e, he⟩
      exact (hbig e he).2
    · intro hs
      exact ⟨.ErrInvalidProof, by simp [ProofToBigInts, hs]⟩
  · intro e he
    exact (hbig e he).1

end signatures

namespace signatures

/-! ## Byte layouts -/

/-- C4. On a verifying key with 10 public variables, commitment-constraint indexes
`c0, c1, c2` and `Qcp` points `q0, q1, q2`, `VkToBytes` returns 1664 bytes in which every
field stands big-endian at its fixed offset (`bigEndian w v` being the string of `w`
bytes whose big-endian value is `v` modulo `256 ^ w`): size at [0,8), size-inverse at [8,40),
generator at [40,72), coset-shift at [72,104), the indexes at [104,128), the two G2 points
(`X.A0, X.A1, Y.A0, Y.A1`, 48 bytes each) at [128,512), the KZG G1 point at [512,608),
`S[0..2]` at [608,896), `Ql, Qr, Qm, Qo, Qk` at [896,1376) and `Qcp[0..2]` at
[1376,1664). -/
theorem VkToBytes_layout {L : Type} (vk : VerifyingKey L) (c0 c1 c2 : Nat)
    (q0 q1 q2 : G1Affine) (h10 : vk.NbPublicVariables = 10)
    (hc : vk.CommitmentConstraintIndexes = [c0, c1, c2]) (hq : vk.Qcp = [q0, q1, q2]) :
    ∃ b, VkToBytes vk = .ok b ∧ b.length = 1664 ∧ IsBytes b ∧
      (∀ w v, (bigEndian w v).length = w ∧ fromBigEndian (bigEndian w v) = v % 256 ^ w) ∧
    slice b 0 8 = bigEndian 8 vk.Size ∧
    slice b 8 40 = bigEndian 32 vk.SizeInv ∧
    slice b 40 72 = bigEndian 32 vk.Generator ∧
    slice b 72 104 = bigEndian 32 vk.CosetShift ∧
    slice b 104 112 = bigEndian 8 c0 ∧
    slice b 112 120 = bigEndian 8 c1 ∧
    slice b 120 128 = bigEndian 8 c2 ∧
    slice b 128 176 = bigEndian 48 vk.Kzg.G2.e0.X.A0 ∧
    slice b 176 224 = bigEndian 48 vk.Kzg.G2.e0.X.A1 ∧
    slice b 224 272 = bigEndian 48 vk.Kzg.G2.e0.Y.A0 ∧
    slice b 272 320 = bigEndian 48 vk.Kzg.G2.e0.Y.A1 ∧
    slice b 320 368 = bigEndian 48 vk.Kzg.G2.e1.X.A0 ∧
    slice b 368 416 = bigEndian 48 vk.Kzg.G2.e1.X.A1 ∧
    slice b 416 464 = bigEndian 48 vk.Kzg.G2.e1.Y.A0 ∧
    slice b 464 512 = bigEndian 48 vk.Kzg.G2.e1.Y.A1 ∧
    slice b 512 560 = bigEndian 48 vk.Kzg.G1.X ∧
    slice b 560 608 = bigEndian 48 vk.Kzg.G1.Y ∧
    slice b 608 656 = bigEndian 48 vk.S.e0.X ∧
    slice b 656 704 = bigEndian 48 vk.S.e0.Y ∧
    slice b 704 752 = bigEndian 48 vk.S.e1.X ∧
    slice b 752 800 = bigEndian 48 vk.S.e1.Y ∧
    slice b 800 848 = bigEndian 48 vk.S.e2.X ∧
    slice b 848 896 = bigEndian 48 vk.S.e2.Y ∧
    slice b 896 944 = bigEndian 48 vk.Ql.X ∧
    slice b 944 992 = bigEndian 48 vk.Ql.Y ∧
    slice b 992 1040 = bigEndian 48 vk.Qr.X ∧
    slice b 1040 1088 = bigEndian 48 vk.Qr.Y ∧
    slice b 1088 1136 = bigEndian 48 vk.Qm.X ∧
    slice b 1136 1184 = bigEndian 48 vk.Qm.Y ∧
    slice b 1184 1232 = bigEndian 48 vk.Qo.X ∧
    slice b 1232 1280 = bigEndian 48 vk.Qo.Y ∧
    slice b 1280 1328 = bigEndian 48 vk.Qk.X ∧
    slice b 1328 1376 = bigEndian 48 vk.Qk.Y ∧
    slice b 1376 1424 = bigEndian 48 q0.X ∧
    slice b 1424 1472 = bigEndian 48 q0.Y ∧
    slice b 1472 1520 = bigEndian 48 q1.X ∧
    slice b 1520 1568 = bigEndian 48 q1.Y ∧
    slice b 1568 1616 = bigEndian 48 q2.X ∧
    slice b 1616 1664 = bigEndian 48 q2.Y := by
  refine ⟨_, VkToBytes_eq vk c0 c1 c2 q0 q1 q2 h10 hc hq, ?_⟩
  simp [slice_append_skip, slice_append_here, slice_all, bigEndian_length, isBytes_append,
    isBytes_bigEndian, fromBigEndian_bigEndian]

/-- C5. On a proof with Bsb22 commitments `c0, c1, c2` and batched claimed values
`v0, ..., v9`, `ProofToBytes` returns 1504 bytes in which every field stands big-endian at
its fixed offset (`bigEndian w v` being the string of `w` bytes whose big-endian value is
`v` modulo `256 ^ w`): `LRO[0..2]` at [0,288), `Z` at [288,384), `H[0..2]` at [384,672), the
commitments at [672,960), the batched-opening point at [960,1056), the shifted-opening
point at [1056,1152), the ten claimed values (32 bytes each) at [1152,1472) and the
shifted-opening claimed value at [1472,1504). -/
theorem ProofToBytes_layout (proof : Proof) (c0 c1 c2 : G1Affine)
    (v0 v1 v2 v3 v4 v5 v6 v7 v8 v9 : Nat) (hc : proof.Bsb22Commitments = [c0, c1, c2])
    (hv : proof.BatchedProof.ClaimedValues = [v0, v1, v2, v3, v4, v5, v6, v7, v8, v9]) :
    ∃ b, ProofToBytes proof = .ok b ∧ b.length = 1504 ∧ IsBytes b ∧
      (∀ w v, (bigEndian w v).length = w ∧ fromBigEndian (bigEndian w v) = v % 256 ^ w) ∧
    slice b 0 48 = bigEndian 48 proof.LRO.e0.X ∧
    slice b 48 96 = bigEndian 48 proof.LRO.e0.Y ∧
    slice b 96 144 = bigEndian 48 proof.LRO.e1.X ∧
    slice b 144 192 = bigEndian 48 proof.LRO.e1.Y ∧
    slice b 192 240 = bigEndian 48 proof.LRO.e2.X ∧
    slice b 240 288 = bigEndian 48 proof.LRO.e2.Y ∧
    slice b 288 336 = bigEndian 48 proof.Z.X ∧
    slice b 336 384 = bigEndian 48 proof.Z.Y ∧
    slice b 384 432 = bigEndian 48 proof.H.e0.X ∧
    slice b 432 480 = bigEndian 48 proof.H.e0.Y ∧
    slice b 480 528 = bigEndian 48 proof.H.e1.X ∧
    slice b 528 576 = bigEndian 48 proof.H.e1.Y ∧
    slice b 576 624 = bigEndian 48 proof.H.e2.X ∧
    slice b 624 672 = bigEndian 48 proof.H.e2.Y ∧
    slice b 672 720 = bigEndian 48 c0.X ∧
    slice b 720 768 = bigEndian 48 c0.Y ∧
    slice b 768 816 = bigEndian 48 c1.X ∧
    slice b 816 864 = bigEndian 48 c1.Y ∧
    slice b 864 912 = bigEndian 48 c2.X ∧
    slice b 912 960 = bigEndian 48 c2.Y ∧
    slice b 960 1008 = bigEndian 48 proof.BatchedProof.H.X ∧
    slice b 1008 1056 = bigEndian 48 proof.BatchedProof.H.Y ∧
    slice b 1056 1104 = bigEndian 48 proof.ZShiftedOpening.H.X ∧
    slice b 1104 1152 = bigEndian 48 proof.ZShiftedOpening.H.Y ∧
    slice b 1152 1184 = bigEndian 32 v0 ∧
    slice b 1184 1216 = bigEndian 32 v1 ∧
    slice b 1216 1248 = bigEndian 32 v2 ∧
    slice b 1248 1280 = bigEndian 32 v3 ∧
    slice b 1280 1312 = bigEndian 32 v4 ∧
    slice b 1312 1344 = bigEndian 32 v5 ∧
    slice b 1344 1376 = bigEndian 32 v6 ∧
    slice b 1376 1408 = bigEndian 32 v7 ∧
    slice b 1408 1440 = bigEndian 32 v8 ∧
    slice b 1440 1472 = bigEndian 32 v9 ∧
    slice b 1472 1504 = bigEndian 32 proof.ZShiftedOpening.ClaimedValue := by
  refine ⟨_, ProofToBytes_eq proof c0 c1 c2 v0 v1 v2 v3 v4 v5 v6 v7 v8 v9 hc hv, ?_⟩
  simp [slice_append_skip, slice_append_here, slice_all, bigEndian_length, isBytes_append,
    isBytes_bigEndian, fromBigEndian_bigEndian]

/-! ## Round trips -/

/-- C1. For every verifying key with `NbPublicVariables = 10`, exactly 3
commitment-constraint indexes and exactly 3 `Qcp` points, whose field elements are in
reduced form and whose KZG lines are the ones precomputed from its two G2 points,
`VkToBytes` succeeds and `BytesToVk` of its bytes succeeds and returns the key itself. -/
theorem vk_roundtrip {L : Type} (PrecomputeLines : G2Affine → L) (vk : VerifyingKey L)
    (h10 : vk.NbPublicVariables = 10) (hc : vk.CommitmentConstraintIndexes.length = 3)
    (hq : vk.Qcp.length = 3) (hred : vk.Reduced)
    (hlines : vk.Kzg.Lines =
      { e0 := PrecomputeLines vk.Kzg.G2.e0, e1 := PrecomputeLines vk.Kzg.G2.e1 }) :
    ∃ b, VkToBytes vk = .ok b ∧ BytesToVk PrecomputeLines b = .ok vk := by
  obtain ⟨c0, c1, c2, hc3⟩ := List.length_eq_three.mp hc
  obtain ⟨q0, q1, q2, hq3⟩ := List.length_eq_three.mp hq
  refine ⟨_, VkToBytes_eq vk c0 c1 c2 q0 q1 q2 h10 hc3 hq3, ?_⟩
  clear hc hq
  obtain ⟨Size, SizeInv, Generator, Nb, ⟨⟨⟨⟨a0, a1⟩, ⟨a2, a3⟩⟩, ⟨⟨a4, a5⟩, ⟨a6, a7⟩⟩⟩, ⟨g1x, g1y⟩,
    lines⟩, CosetShift, ⟨⟨s0x, s0y⟩, ⟨s1x, s1y⟩, ⟨s2x, s2y⟩⟩, ⟨qlx, qly⟩, ⟨qrx, qry⟩,
    ⟨qmx, qmy⟩, ⟨qox, qoy⟩, ⟨qkx, qky⟩, Qcp, CCI⟩ := vk
  obtain ⟨q0x, q0y⟩ := q0
  obtain ⟨q1x, q1y⟩ := q1
  obtain ⟨q2x, q2y⟩ := q2
  simp only at h10 hc3 hq3 hlines
  subst h10 hc3 hq3 hlines
  simp only [VerifyingKey.Reduced, G1Affine.Reduced, G2Affine.Reduced, Arr3.Reduced,
    List.mem_cons, List.mem_singleton, List.not_mem_nil, or_false, forall_eq_or_imp,
    forall_eq] at hred
  obtain ⟨hSize, ⟨hc0, hc1, hc2⟩, hSizeInv, hGen, hCoset, ⟨ha0, ha1, ha2, ha3⟩,
    ⟨ha4, ha5, ha6, ha7⟩, ⟨hg1x, hg1y⟩, ⟨⟨hs0x, hs0y⟩, ⟨hs1x, hs1y⟩, ⟨hs2x, hs2y⟩⟩,
    ⟨hqlx, hqly⟩, ⟨hqrx, hqry⟩, ⟨hqmx, hqmy⟩, ⟨hqox, hqoy⟩, ⟨hqkx, hqky⟩,
    ⟨hq0x, hq0y⟩, ⟨hq1x, hq1y⟩, ⟨hq2x, hq2y⟩⟩ := hred
  have hS : fromBigEndian (bigEndian 8 Size) = Size :=
    fromBigEndian_bigEndian_of_lt 8 Size (by norm_num at hSize ⊢; exact hSize)
  simp [BytesToVk, slice_append_skip, slice_append_here, slice_all, bigEndian_length,
    Uint64_append, frSetBytes_bigEndian, fpSetBytes_bigEndian, *]
  exact ⟨Uint64_bigEndian c0 hc0, Uint64_bigEndian c1 hc1, Uint64_bigEndian c2 hc2⟩

/-- C2. For every proof with exactly 3 Bsb22 commitments and exactly 10 batched claimed
values, whose field elements are in reduced form, `ProofToBytes` succeeds and
`BytesToProof` of its bytes succeeds and returns the proof itself. -/
theorem proof_roundtrip (proof : Proof) (hc : proof.Bsb22Commitments.length = 3)
    (hv : proof.BatchedProof.ClaimedValues.length = 10) (hred : proof.Reduced) :
    ∃ b, ProofToBytes proof = .ok b ∧ BytesToProof b = .ok proof := by
  obtain ⟨c0, c1, c2, hc3⟩ := List.length_eq_three.mp hc
  obtain ⟨v0, v1, v2, v3, v4, v5, v6, v7, v8, v9, hv10⟩ := list_length_ten _ hv
  refine ⟨_, ProofToBytes_eq proof c0 c1 c2 v0 v1 v2 v3 v4 v5 v6 v7 v8 v9 hc3 hv10, ?_⟩
  clear hc hv
  obtain ⟨⟨⟨l0x, l0y⟩, ⟨l1x, l1y⟩, ⟨l2x, l2y⟩⟩, ⟨zx, zy⟩, ⟨⟨h0x, h0y⟩, ⟨h1x, h1y⟩, ⟨h2x, h2y⟩⟩,
    Bsb, ⟨⟨bhx, bhy⟩, CV⟩, ⟨⟨zhx, zhy⟩, zcv⟩⟩ := proof
  obtain ⟨c0x, c0y⟩ := c0
  obtain ⟨c1x, c1y⟩ := c1
  obtain ⟨c2x, c2y⟩ := c2
  simp only at hc3 hv10
  subst hc3 hv10
  simp only [Proof.Reduced, G1Affine.Reduced, Arr3.Reduced, List.mem_cons, List.mem_singleton,
    List.not_mem_nil, or_false, forall_eq_or_imp, forall_eq] at hred
  obtain ⟨⟨⟨hl0x, hl0y⟩, ⟨hl1x, hl1y⟩, ⟨hl2x, hl2y⟩⟩, ⟨hzx, hzy⟩,
    ⟨⟨hh0x, hh0y⟩, ⟨hh1x, hh1y⟩, ⟨hh2x, hh2y⟩⟩, ⟨⟨hc0x, hc0y⟩, ⟨hc1x, hc1y⟩, ⟨hc2x, hc2y⟩⟩,
    ⟨hbhx, hbhy⟩, ⟨hzhx, hzhy⟩, ⟨hv0, hv1, hv2, hv3, hv4, hv5, hv6, hv7, hv8, hv9⟩, hzcv⟩ := hred
  simp [BytesToProof, slice_append_skip, slice_append_here, slice_all, bigEndian_length,
    frSetBytes_bigEndian, fpSetBytes_bigEndian, *]

/-! ## Opaque payload: bits and bytes -/

theorem ToBits_length (n v : Nat) : (ToBits n v).length = n := by
  induction n generalizing v with
  | zero => rfl
  | succ n ih => simp [ToBits, ih]

theorem ToBits_take (m n v : Nat) (h : m ≤ n) : (ToBits n v).take m = ToBits m v := by
  induction m generalizing n v with
  | zero => simp [ToBits]
  | succ m ih =>
    obtain ⟨n, rfl⟩ : ∃ k, n = k + 1 := ⟨n - 1, by omega⟩
    simp only [ToBits, List.take_succ_cons]
    rw [ih n (v / 2) (by omega)]

theorem ToBits_drop (k n v : Nat) : (ToBits n v).drop k = ToBits (n - k) (v / 2 ^ k) := by
  induction k generalizing n v with
  | zero => simp
  | succ k ih =>
    cases n with
    | zero => simp [ToBits]
    | succ n =>
      simp only [ToBits, List.drop_succ_cons]
      rw [ih n (v / 2), Nat.div_div_eq_div_mul, pow_succ, mul_comm (2 ^ k) 2]
      congr 1
      omega

theorem FromBinary_ToBits (n v : Nat) : FromBinary (ToBits n v) = v % 2 ^ n := by
  induction n generalizing v with
  | zero => simp [ToBits, FromBinary, Nat.mod_one]
  | succ n ih =>
    have h : FromBinary (ToBits (n + 1) v) = v % 2 + 2 * FromBinary (ToBits n (v / 2)) := by
      simp [ToBits, FromBinary]
    rw [h, ih, pow_succ, mul_comm (2 ^ n) 2, Nat.mod_mul]

theorem ToBits_add_mul (m k lo hi : Nat) (h : lo < 2 ^ m) :
    ToBits (m + k) (lo + 2 ^ m * hi) = ToBits m lo ++ ToBits k hi := by
  induction m generalizing lo with
  | zero =>
    have h0 : lo = 0 := by simpa using h
    simp [h0, ToBits]
  | succ m ih =>
    have e : m + 1 + k = (m + k) + 1 := by omega
    rw [e]
    simp only [ToBits, List.cons_append]
    have e2 : 2 ^ (m + 1) * hi = 2 * (2 ^ m * hi) := by ring
    have h1 : (lo + 2 ^ (m + 1) * hi) % 2 = lo % 2 := by
      rw [e2]; omega
    have h2 : (lo + 2 ^ (m + 1) * hi) / 2 = lo / 2 + 2 ^ m * hi := by
      rw [e2]; omega
    have h3 : lo / 2 < 2 ^ m := by
      rw [pow_succ] at h; omega
    rw [h1, h2, ih (lo / 2) h3]

/-- Bits of a byte string: the bits of a concatenation are the bits of the second part
followed by the bits of the first. -/
theorem ToBits_fromBigEndian_append (xs ys : List Nat) (hy : IsBytes ys) :
    ToBits (8 * (xs ++ ys).length) (fromBigEndian (xs ++ ys)) =
      ToBits (8 * ys.length) (fromBigEndian ys) ++ ToBits (8 * xs.length) (fromBigEndian xs) := by
  have hlt := fromBigEndian_lt ys hy
  have hp : (256 : Nat) ^ ys.length = 2 ^ (8 * ys.length) := by
    rw [pow_mul]; norm_num
  rw [hp] at hlt
  rw [fromBigEndian_append, hp, ← ToBits_add_mul _ _ _ _ hlt, List.length_append]
  congr 1
  · omega
  · ring

theorem slice_ToBits_byte (n v i : Nat) (h : (i + 1) * 8 ≤ n) :
    FromBinary (slice (ToBits n v) (i * 8) ((i + 1) * 8)) = v / 2 ^ (i * 8) % 2 ^ 8 := by
  have e : (i + 1) * 8 - i * 8 = 8 := by omega
  unfold slice
  rw [e, ToBits_drop, ToBits_take _ _ _ (by omega), FromBinary_ToBits]

theorem bigEndian_eq_map (w v : Nat) :
    bigEndian w v = (List.range w).reverse.map (fun i => v / 2 ^ (i * 8) % 2 ^ 8) := by
  induction w generalizing v with
  | zero => rfl
  | succ w ih =>
    rw [bigEndian, ih, List.range_succ_eq_map, List.reverse_cons, List.map_append,
      ← List.map_reverse, List.map_map]
    congr 1
    · apply List.map_congr_left
      intro i _
      have e : 256 * 2 ^ (i * 8) = 2 ^ ((i + 1) * 8) := by
        rw [show (i + 1) * 8 = 8 + i * 8 by ring, pow_add]
        norm_num
      simp only [Function.comp_apply, Nat.succ_eq_add_one]
      rw [Nat.div_div_eq_div_mul, e]
    · simp

/-- The bytes emitted by the last loop of `DataToUints8` on the bits of `v`. -/
theorem bytes_of_ToBits (w n v : Nat) (h : w * 8 ≤ n) :
    (List.range w).reverse.map
      (fun i => ByteValueOf (FromBinary (slice (ToBits n v) (i * 8) ((i + 1) * 8)))) =
      bigEndian w v := by
  rw [bigEndian_eq_map]
  apply List.map_congr_left
  intro i hi
  have hi2 : i < w := by simpa using hi
  unfold ByteValueOf
  exact slice_ToBits_byte n v i (by nlinarith)

theorem slice_append_drop {α : Type} (a : List α) (lo hi : Nat) (h : lo ≤ hi) :
    slice a lo hi ++ a.drop hi = a.drop lo := by
  unfold slice
  have e : a.drop hi = (a.drop lo).drop (hi - lo) := by
    rw [List.drop_drop]; congr 1; omega
  rw [e, List.take_append_drop]

theorem isBytes_slice (a : List Nat) (lo hi : Nat) (h : IsBytes a) : IsBytes (slice a lo hi) := by
  intro x hx
  exact h x (List.mem_of_mem_drop (List.mem_of_mem_take hx))

theorem isBytes_drop (a : List Nat) (k : Nat) (h : IsBytes a) : IsBytes (a.drop k) := by
  intro x hx
  exact h x (List.mem_of_mem_drop hx)

theorem slice_length {α : Type} (a : List α) (lo hi : Nat) (h : hi ≤ a.length) :
    (slice a lo hi).length = hi - lo := by
  unfold slice
  rw [List.length_take, List.length_drop]
  omega

theorem ValueOf_of_lt (v : Nat) (h : v < fpModulus) : ValueOf v = v := by
  unfold ValueOf emulatedValueOf
  rw [if_neg (by omega)]
  exact Nat.mod_eq_of_lt h

/-- The integers, variables and emulated elements returned by `DataToBytes31Chunks`. -/
theorem DataToBytes31Chunks_values (a : List Nat) (hlen : a.length = 256) :
    ∃ r, DataToBytes31Chunks a = .ok r ∧
      r.i = [fromBigEndian (slice a 0 31), fromBigEndian (slice a 31 62),
        fromBigEndian (slice a 62 93), fromBigEndian (slice a 93 124),
        fromBigEndian (slice a 124 155), fromBigEndian (slice a 155 186),
        fromBigEndian (slice a 186 217), fromBigEndian (slice a 217 248),
        fromBigEndian (a.drop 248)] ∧
      r.v = r.i ∧ r.e = r.i.map ValueOf := by
  have hr : List.range (9 - 1) = [0, 1, 2, 3, 4, 5, 6, 7] := by decide
  have h9 : DataSize / 32 = 9 := by decide
  have hrep : List.replicate 9 0 = [0, 0, 0, 0, 0, 0, 0, 0, 0] := by decide
  unfold DataToBytes31Chunks
  rw [if_neg (by simp [RawDataSize, hlen])]
  simp only [h9, hr, hrep]
  refine ⟨_, rfl, ?_, ?_, ?_⟩
  all_goals simp [chunkStep]

theorem fromBigEndian_lt_fpModulus (c : List Nat) (hb : IsBytes c) (hl : c.length ≤ 31) :
    fromBigEndian c < fpModulus := by
  have h1 := fromBigEndian_lt c hb
  have h2 : 256 ^ c.length ≤ 256 ^ 31 := Nat.pow_le_pow_right (by norm_num) hl
  have h3 : 256 ^ 31 < fpModulus := by unfold fpModulus; norm_num
  omega

/-- `DataToUints8` on the nine big-endian values of nine byte strings, eight of 31 bytes
and one of 8 bytes, returns their concatenation. -/
theorem DataToUints8_fromBigEndian (nbBits : Nat) (hn : 248 ≤ nbBits)
    (c0 c1 c2 c3 c4 c5 c6 c7 c8 : List Nat)
    (h0 : c0.length = 31) (h1 : c1.length = 31) (h2 : c2.length = 31) (h3 : c3.length = 31)
    (h4 : c4.length = 31) (h5 : c5.length = 31) (h6 : c6.length = 31) (h7 : c7.length = 31)
    (h8 : c8.length = 8)
    (b0 : IsBytes c0) (b1 : IsBytes c1) (b2 : IsBytes c2) (b3 : IsBytes c3) (b4 : IsBytes c4)
    (b5 : IsBytes c5) (b6 : IsBytes c6) (b7 : IsBytes c7) (b8 : IsBytes c8) :
    DataToUints8 nbBits [fromBigEndian c0, fromBigEndian c1, fromBigEndian c2, fromBigEndian c3, fromBigEndian c4, fromBigEndian c5, fromBigEndian c6, fromBigEndian c7, fromBigEndian c8] =
      c0 ++ (c1 ++ (c2 ++ (c3 ++ (c4 ++ (c5 ++ (c6 ++ (c7 ++ c8))))))) := by
  have b78 : IsBytes (c7 ++ c8) := (isBytes_append _ _).2 ⟨b7, b8⟩
  have b68 : IsBytes (c6 ++ (c7 ++ c8)) := (isBytes_append _ _).2 ⟨b6, b78⟩
  have b58 : IsBytes (c5 ++ (c6 ++ (c7 ++ c8))) := (isBytes_append _ _).2 ⟨b5, b68⟩
  have b48 : IsBytes (c4 ++ (c5 ++ (c6 ++ (c7 ++ c8)))) := (isBytes_append _ _).2 ⟨b4, b58⟩
  have b38 : IsBytes (c3 ++ (c4 ++ (c5 ++ (c6 ++ (c7 ++ c8))))) :=
    (isBytes_append _ _).2 ⟨b3, b48⟩
  have b28 : IsBytes (c2 ++ (c3 ++ (c4 ++ (c5 ++ (c6 ++ (c7 ++ c8)))))) :=
    (isBytes_append _ _).2 ⟨b2, b38⟩
  have b18 : IsBytes (c1 ++ (c2 ++ (c3 ++ (c4 ++ (c5 ++ (c6 ++ (c7 ++ c8))))))) :=
    (isBytes_append _ _).2 ⟨b1, b28⟩
  have b08 : IsBytes (c0 ++ (c1 ++ (c2 ++ (c3 ++ (c4 ++ (c5 ++ (c6 ++ (c7 ++ c8)))))))) :=
    (isBytes_append _ _).2 ⟨b0, b18⟩
  have hlen : (c0 ++ (c1 ++ (c2 ++ (c3 ++ (c4 ++ (c5 ++ (c6 ++ (c7 ++ c8)))))))).length = 256 := by
    simp only [List.length_append, h0, h1, h2, h3, h4, h5, h6, h7, h8]
  have key : ((((((((ToBits 64 (fromBigEndian c8) ++ ToBits 248 (fromBigEndian c7)) ++ ToBits 248 (fromBigEndian c6)) ++ ToBits 248 (fromBigEndian c5)) ++ ToBits 248 (fromBigEndian c4)) ++ ToBits 248 (fromBigEndian c3)) ++ ToBits 248 (fromBigEndian c2)) ++ ToBits 248 (fromBigEndian c1)) ++ ToBits 248 (fromBigEndian c0)) =
      ToBits (8 * (c0 ++ (c1 ++ (c2 ++ (c3 ++ (c4 ++ (c5 ++ (c6 ++ (c7 ++ c8)))))))).length)
        (fromBigEndian (c0 ++ (c1 ++ (c2 ++ (c3 ++ (c4 ++ (c5 ++ (c6 ++ (c7 ++ c8))))))))) := by
    rw [ToBits_fromBigEndian_append c0 _ b18, ToBits_fromBigEndian_append c1 _ b28,
      ToBits_fromBigEndian_append c2 _ b38, ToBits_fromBigEndian_append c3 _ b48,
      ToBits_fromBigEndian_append c4 _ b58, ToBits_fromBigEndian_append c5 _ b68,
      ToBits_fromBigEndian_append c6 _ b78, ToBits_fromBigEndian_append c7 _ b8]
    simp only [h0, h1, h2, h3, h4, h5, h6, h7, h8]
  have hr : (List.range (9 - 1)).reverse = [7, 6, 5, 4, 3, 2, 1, 0] := by decide
  have h9 : DataSize / 32 = 9 := by decide
  have hlast : ((RawDataSize - 1) % 31 + 1) * 8 = 64 := by decide
  have h248 : 31 * 8 = 248 := by decide
  unfold DataToUints8
  simp only [h9, hr, hlast, h248, List.foldl_cons, List.foldl_nil, Nat.add_one_sub_one]
  simp only [List.getD_cons_zero, List.getD_cons_succ, ToBits_take _ _ _ hn,
    ToBits_take 64 nbBits _ (by omega)]
  rw [key, bytes_of_ToBits _ _ _ (by rw [hlen]; decide)]
  have e : RawDataSize = (c0 ++ (c1 ++ (c2 ++ (c3 ++ (c4 ++ (c5 ++ (c6 ++ (c7 ++ c8)))))))).length := by
    rw [hlen]; rfl
  rw [e]
  exact bigEndian_fromBigEndian _ b08

/-- C3. For every 256-byte input `a`, `DataToBytes31Chunks` returns 9 emulated elements,
and `DataToUints8` on these elements (for an emulated field whose `ToBits` returns at
least 248 bits, 384 for the BW6-761 scalar field), taking the low 248 bits of elements
0..7 and the low 64 bits of element 8 and emitting the bytes most significant first,
returns exactly the 256 bytes of `a` in their original order. -/
theorem data_roundtrip (nbBits : Nat) (hn : 248 ≤ nbBits) (a : List Nat)
    (hlen : a.length = 256) (hb : IsBytes a) :
    ∃ r, DataToBytes31Chunks a = .ok r ∧ r.e.length = 9 ∧ DataToUints8 nbBits r.e = a := by
  obtain ⟨r, hr, hi, _, he⟩ := DataToBytes31Chunks_values a hlen
  have hs : ∀ lo hi, hi ≤ 256 → hi - lo ≤ 31 →
      ValueOf (fromBigEndian (slice a lo hi)) = fromBigEndian (slice a lo hi) := by
    intro lo hi h1 h2
    apply ValueOf_of_lt
    apply fromBigEndian_lt_fpModulus _ (isBytes_slice a lo hi hb)
    rw [slice_length a lo hi (by omega)]
    exact h2
  have hd : ValueOf (fromBigEndian (a.drop 248)) = fromBigEndian (a.drop 248) := by
    apply ValueOf_of_lt
    apply fromBigEndian_lt_fpModulus _ (isBytes_drop a 248 hb)
    rw [List.length_drop]
    omega
  have hcat : slice a 0 31 ++ (slice a 31 62 ++ (slice a 62 93 ++ (slice a 93 124 ++
      (slice a 124 155 ++ (slice a 155 186 ++ (slice a 186 217 ++
      (slice a 217 248 ++ a.drop 248))))))) = a := by
    rw [slice_append_drop a 217 248 (by decide), slice_append_drop a 186 217 (by decide),
      slice_append_drop a 155 186 (by decide), slice_append_drop a 124 155 (by decide),
      slice_append_drop a 93 124 (by decide), slice_append_drop a 62 93 (by decide),
      slice_append_drop a 31 62 (by decide), slice_append_drop a 0 31 (by decide)]
    rfl
  refine ⟨r, hr, by rw [he, hi]; rfl, ?_⟩
  rw [he, hi]
  simp only [List.map_cons, List.map_nil]
  rw [hs 0 31 (by decide) (by decide), hs 31 62 (by decide) (by decide),
    hs 62 93 (by decide) (by decide), hs 93 124 (by decide) (by decide),
    hs 124 155 (by decide) (by decide), hs 155 186 (by decide) (by decide),
    hs 186 217 (by decide) (by decide), hs 217 248 (by decide) (by decide), hd]
  rw [DataToUints8_fromBigEndian nbBits hn _ _ _ _ _ _ _ _ _
    (slice_length a 0 31 (by omega)) (slice_length a 31 62 (by omega))
    (slice_length a 62 93 (by omega)) (slice_length a 93 124 (by omega))
    (slice_length a 124 155 (by omega)) (slice_length a 155 186 (by omega))
    (slice_length a 186 217 (by omega)) (slice_length a 217 248 (by omega))
    (by rw [List.length_drop]; omega)
    (isBytes_slice a _ _ hb) (isBytes_slice a _ _ hb) (isBytes_slice a _ _ hb)
    (isBytes_slice a _ _ hb) (isBytes_slice a _ _ hb) (isBytes_slice a _ _ hb)
    (isBytes_slice a _ _ hb) (isBytes_slice a _ _ hb) (isBytes_drop a _ hb)]
  exact hcat

/-- C17. For every 256-byte input `a`, `DataToBytes31Chunks` returns exactly 9 integers;
integer `j`, for `j = 0..7`, is the big-endian value of `a[31j .. 31j+31)` and integer 8 is
the big-endian value of the 8 remaining bytes `a[248 .. 256)`; every one of them is below
`2 ^ 248` and below the BLS12-377 scalar-field modulus, and the circuit variables and the
emulated elements hold these same 9 values. -/
theorem chunk_values (a : List Nat) (hlen : a.length = 256) (hb : IsBytes a) :
    ∃ r, DataToBytes31Chunks a = .ok r ∧ r.i.length = 9 ∧
      (∀ j < 8, r.i.get? j = some (fromBigEndian (slice a (31 * j) (31 * j + 31)))) ∧
      r.i.get? 8 = some (fromBigEndian (slice a 248 256)) ∧
      (∀ x ∈ r.i, x < 2 ^ 248 ∧ x < frModulus) ∧ r.v = r.i ∧ r.e = r.i := by
  obtain ⟨r, hr, hi, hv, he⟩ := DataToBytes31Chunks_values a hlen
  have hlast : a.drop 248 = slice a 248 256 := by
    unfold slice
    rw [List.take_of_length_le (by rw [List.length_drop]; omega)]
  have hs : ∀ lo hi, hi ≤ 256 → hi - lo ≤ 31 → fromBigEndian (slice a lo hi) < 2 ^ 248 := by
    intro lo hi h1 h2
    have h3 := fromBigEndian_lt _ (isBytes_slice a lo hi hb)
    rw [slice_length a lo hi (by omega)] at h3
    have h4 : 256 ^ (hi - lo) ≤ 256 ^ 31 := Nat.pow_le_pow_right (by norm_num) h2
    have h5 : (256 : Nat) ^ 31 = 2 ^ 248 := by norm_num
    omega
  have hfr : 2 ^ 248 < frModulus := by unfold frModulus; norm_num
  have hfp : 2 ^ 248 < fpModulus := by unfold fpModulus; norm_num
  have hbound : ∀ x ∈ r.i, x < 2 ^ 248 := by
    intro x hx
    rw [hi, hlast] at hx
    simp only [List.mem_cons, List.mem_singleton, List.not_mem_nil, or_false] at hx
    rcases hx with rfl | rfl | rfl | rfl | rfl | rfl | rfl | rfl | rfl
    all_goals exact hs _ _ (by decide) (by decide)
  refine ⟨r, hr, by rw [hi]; rfl, ?_, by rw [hi, hlast]; rfl, ?_, hv, ?_⟩
  · intro j hj
    rw [hi]
    have hj8 : j = 0 ∨ j = 1 ∨ j = 2 ∨ j = 3 ∨ j = 4 ∨ j = 5 ∨ j = 6 ∨ j = 7 := by omega
    rcases hj8 with rfl | rfl | rfl | rfl | rfl | rfl | rfl | rfl <;> rfl
  · intro x hx
    have h := hbound x hx
    exact ⟨h, lt_trans h hfr⟩
  · rw [he]
    have hid : ∀ x ∈ r.i, ValueOf x = x := fun x hx =>
      ValueOf_of_lt x (lt_trans (hbound x hx) hfp)
    calc r.i.map ValueOf = r.i.map id := List.map_congr_left hid
      _ = r.i := List.map_id _

/-! ## Integers of a verifying key -/

theorem foldl_append_singleton {α β : Type} (f : β → α) (l : List β) (i : List α) :
    l.foldl (fun i j => i ++ [f j]) i = i ++ l.map f := by
  induction l generalizing i with
  | nil => simp
  | cons x xs ih => simp [ih]

/-- The bytes `appendElementAsUints8` appends are the big-endian bytes of the element. -/
theorem appendElementAsUints8_eq (nbBits : Nat) (i : List Nat) (e length : Nat)
    (h : length * 8 ≤ nbBits) :
    appendElementAsUints8 nbBits i e length = i ++ bigEndian length e := by
  unfold appendElementAsUints8
  rw [foldl_append_singleton
    (fun j => ByteValueOf (FromBinary (slice (ToBits nbBits e) (j * 8) (j * 8 + 8))))]
  congr 1
  rw [← bytes_of_ToBits length nbBits e h]
  apply List.map_congr_left
  intro j _
  rw [Nat.succ_mul]

/-- The integers returned by `VkToBigInts` on a key of the right shape, in order. -/
theorem VkToBigInts_eq {L : Type} (vk : VerifyingKey L) (c0 c1 c2 : Nat) (q0 q1 q2 : G1Affine)
    (h10 : vk.NbPublicVariables = 10) (hc : vk.CommitmentConstraintIndexes = [c0, c1, c2])
    (hq : vk.Qcp = [q0, q1, q2]) :
    VkToBigInts vk = .ok
      ([
        vk.Size, vk.SizeInv, vk.Generator, vk.CosetShift, c0, c1, c2, vk.Kzg.G2.e0.X.A0,
        vk.Kzg.G2.e0.X.A1, vk.Kzg.G2.e0.Y.A0, vk.Kzg.G2.e0.Y.A1, vk.Kzg.G2.e1.X.A0,
        vk.Kzg.G2.e1.X.A1, vk.Kzg.G2.e1.Y.A0, vk.Kzg.G2.e1.Y.A1, vk.Kzg.G1.X, vk.Kzg.G1.Y,
        vk.S.e0.X, vk.S.e0.Y, vk.S.e1.X, vk.S.e1.Y, vk.S.e2.X, vk.S.e2.Y, vk.Ql.X, vk.Ql.Y,
        vk.Qr.X, vk.Qr.Y, vk.Qm.X, vk.Qm.Y, vk.Qo.X, vk.Qo.Y, vk.Qk.X, vk.Qk.Y, q0.X, q0.Y,
        q1.X, q1.Y, q2.X, q2.Y],
       List.map ValueOf [
        vk.Size, vk.SizeInv, vk.Generator, vk.CosetShift, c0, c1, c2, vk.Kzg.G2.e0.X.A0,
        vk.Kzg.G2.e0.X.A1, vk.Kzg.G2.e0.Y.A0, vk.Kzg.G2.e0.Y.A1, vk.Kzg.G2.e1.X.A0,
        vk.Kzg.G2.e1.X.A1, vk.Kzg.G2.e1.Y.A0, vk.Kzg.G2.e1.Y.A1, vk.Kzg.G1.X, vk.Kzg.G1.Y,
        vk.S.e0.X, vk.S.e0.Y, vk.S.e1.X, vk.S.e1.Y, vk.S.e2.X, vk.S.e2.Y, vk.Ql.X, vk.Ql.Y,
        vk.Qr.X, vk.Qr.Y, vk.Qm.X, vk.Qm.Y, vk.Qo.X, vk.Qo.Y, vk.Qk.X, vk.Qk.Y, q0.X, q0.Y,
        q1.X, q1.Y, q2.X, q2.Y]) := by
  have hr : List.range 39 = [0, 1, 2, 3, 4, 5, 6, 7, 8, 9, 10, 11, 12, 13, 14, 15, 16, 17, 18, 19,
      20, 21, 22, 23, 24, 25, 26, 27, 28, 29, 30, 31, 32, 33, 34, 35, 36, 37, 38] := by decide
  simp [VkToBigInts, h10, hc, hq, appendG2BigInts, appendG1BigInts, Arr3.toList, hr]

/-- The bytes `EmulatedVkToUints8` returns on 39 elements. -/
theorem EmulatedVkToUints8_eq (nbBits : Nat) (hn : 384 ≤ nbBits)
    (x0 x1 x2 x3 x4 x5 x6 x7 x8 x9 x10 x11 x12 x13 x14 x15 x16 x17 x18 x19
      x20 x21 x22 x23 x24 x25 x26 x27 x28 x29 x30 x31 x32 x33 x34 x35 x36 x37 x38 : Nat) :
    EmulatedVkToUints8 nbBits
      [
      x0, x1, x2, x3, x4, x5, x6, x7, x8, x9, x10, x11, x12, x13, x14, x15, x16, x17, x18, x19,
      x20, x21, x22, x23, x24, x25, x26, x27, x28, x29, x30, x31, x32, x33, x34, x35, x36, x37,
      x38] =
      (bigEndian 8 x0 ++ (bigEndian 32 x1 ++ (bigEndian 32 x2 ++ (bigEndian 32 x3 ++
      (bigEndian 8 x4 ++ (bigEndian 8 x5 ++ (bigEndian 8 x6 ++ (bigEndian 48 x7 ++
      (bigEndian 48 x8 ++ (bigEndian 48 x9 ++ (bigEndian 48 x10 ++ (bigEndian 48 x11 ++
      (bigEndian 48 x12 ++ (bigEndian 48 x13 ++ (bigEndian 48 x14 ++ (bigEndian 48 x15 ++
      (bigEndian 48 x16 ++ (bigEndian 48 x17 ++ (bigEndian 48 x18 ++ (bigEndian 48 x19 ++
      (bigEndian 48 x20 ++ (bigEndian 48 x21 ++ (bigEndian 48 x22 ++ (bigEndian 48 x23 ++
      (bigEndian 48 x24 ++ (bigEndian 48 x25 ++ (bigEndian 48 x26 ++ (bigEndian 48 x27 ++
      (bigEndian 48 x28 ++ (bigEndian 48 x29 ++ (bigEndian 48 x30 ++ (bigEndian 48 x31 ++
      (bigEndian 48 x32 ++ (bigEndian 48 x33 ++ (bigEndian 48 x34 ++ (bigEndian 48 x35 ++
      (bigEndian 48 x36 ++ (bigEndian 48 x37 ++
      bigEndian 48 x38)))))))))))))))))))))))))))))))))))))) := by
  have h1 : List.range' 4 (7 - 4) = [4, 5, 6] := by decide
  have h2 : List.range' 7 (39 - 7) = [7, 8, 9, 10, 11, 12, 13, 14, 15, 16, 17, 18, 19, 20, 21, 22,
      23, 24, 25, 26, 27, 28, 29, 30, 31, 32, 33, 34, 35, 36, 37, 38] := by decide
  have w8 : 8 * 8 ≤ nbBits := by omega
  have w32 : 32 * 8 ≤ nbBits := by omega
  have w48 : 48 * 8 ≤ nbBits := by omega
  unfold EmulatedVkToUints8
  simp only [h1, h2, List.foldl_cons, List.foldl_nil, appendElementAsUints8_eq _ _ _ 8 w8,
    appendElementAsUints8_eq _ _ _ 32 w32, appendElementAsUints8_eq _ _ _ 48 w48,
    List.getD_cons_zero, List.getD_cons_succ, List.nil_append, List.append_assoc]

/-- The specification's byte string for 39 integers. -/
theorem specWriteBigEndian_eq
    (x0 x1 x2 x3 x4 x5 x6 x7 x8 x9 x10 x11 x12 x13 x14 x15 x16 x17 x18 x19
      x20 x21 x22 x23 x24 x25 x26 x27 x28 x29 x30 x31 x32 x33 x34 x35 x36 x37 x38 : Nat) :
    specWriteBigEndian specVkWidths
      [
      x0, x1, x2, x3, x4, x5, x6, x7, x8, x9, x10, x11, x12, x13, x14, x15, x16, x17, x18, x19,
      x20, x21, x22, x23, x24, x25, x26, x27, x28, x29, x30, x31, x32, x33, x34, x35, x36, x37,
      x38] =
      (bigEndian 8 x0 ++ (bigEndian 32 x1 ++ (bigEndian 32 x2 ++ (bigEndian 32 x3 ++
      (bigEndian 8 x4 ++ (bigEndian 8 x5 ++ (bigEndian 8 x6 ++ (bigEndian 48 x7 ++
      (bigEndian 48 x8 ++ (bigEndian 48 x9 ++ (bigEndian 48 x10 ++ (bigEndian 48 x11 ++
      (bigEndian 48 x12 ++ (bigEndian 48 x13 ++ (bigEndian 48 x14 ++ (bigEndian 48 x15 ++
      (bigEndian 48 x16 ++ (bigEndian 48 x17 ++ (bigEndian 48 x18 ++ (bigEndian 48 x19 ++
      (bigEndian 48 x20 ++ (bigEndian 48 x21 ++ (bigEndian 48 x22 ++ (bigEndian 48 x23 ++
      (bigEndian 48 x24 ++ (bigEndian 48 x25 ++ (bigEndian 48 x26 ++ (bigEndian 48 x27 ++
      (bigEndian 48 x28 ++ (bigEndian 48 x29 ++ (bigEndian 48 x30 ++ (bigEndian 48 x31 ++
      (bigEndian 48 x32 ++ (bigEndian 48 x33 ++ (bigEndian 48 x34 ++ (bigEndian 48 x35 ++
      (bigEndian 48 x36 ++ (bigEndian 48 x37 ++
      bigEndian 48 x38)))))))))))))))))))))))))))))))))))))) := by
  simp [specWriteBigEndian, specVkWidths, List.replicate, List.zipWith]

/-- C16. For every verifying key of the right shape (10 public variables, indexes
`c0, c1, c2`, `Qcp` points `q0, q1, q2`), `VkToBigInts` returns exactly 39 integers in the
order size, size-inverse, generator, coset-shift, the three indexes, the two G2 points (4
integers each), the KZG G1 point, `S[0..2]`, `Ql, Qr, Qm, Qo, Qk`, `Qcp[0..2]` (2 integers
each); writing them big-endian at the widths 8, 32, 32, 32, 8, 8, 8 and then 48 for each
of the other 32, concatenated, gives exactly `VkToBytes(vk)`, and so does
`EmulatedVkToUints8` on elements holding them; and the 39 emulated elements returned hold
the same values in the same order (every value of the key being a reduced field element or
a `uint64`, as `VerifyingKey.Reduced` says). -/
theorem VkToBigInts_layout {L : Type} (vk : VerifyingKey L) (c0 c1 c2 : Nat)
    (q0 q1 q2 : G1Affine) (h10 : vk.NbPublicVariables = 10)
    (hc : vk.CommitmentConstraintIndexes = [c0, c1, c2]) (hq : vk.Qcp = [q0, q1, q2])
    (nbBits : Nat) (hn : 384 ≤ nbBits) :
    ∃ i e b, VkToBigInts vk = .ok (i, e) ∧ VkToBytes vk = .ok b ∧
      i = [
        vk.Size, vk.SizeInv, vk.Generator, vk.CosetShift, c0, c1, c2, vk.Kzg.G2.e0.X.A0,
        vk.Kzg.G2.e0.X.A1, vk.Kzg.G2.e0.Y.A0, vk.Kzg.G2.e0.Y.A1, vk.Kzg.G2.e1.X.A0,
        vk.Kzg.G2.e1.X.A1, vk.Kzg.G2.e1.Y.A0, vk.Kzg.G2.e1.Y.A1, vk.Kzg.G1.X, vk.Kzg.G1.Y,
        vk.S.e0.X, vk.S.e0.Y, vk.S.e1.X, vk.S.e1.Y, vk.S.e2.X, vk.S.e2.Y, vk.Ql.X, vk.Ql.Y,
        vk.Qr.X, vk.Qr.Y, vk.Qm.X, vk.Qm.Y, vk.Qo.X, vk.Qo.Y, vk.Qk.X, vk.Qk.Y, q0.X, q0.Y,
        q1.X, q1.Y, q2.X, q2.Y] ∧
      i.length = 39 ∧ e.length = 39 ∧
      specWriteBigEndian specVkWidths i = b ∧
      EmulatedVkToUints8 nbBits i = b ∧
      (vk.Reduced → e = i ∧ EmulatedVkToUints8 nbBits e = b) := by
  refine ⟨_, _, _, VkToBigInts_eq vk c0 c1 c2 q0 q1 q2 h10 hc hq,
    VkToBytes_eq vk c0 c1 c2 q0 q1 q2 h10 hc hq, rfl, rfl, rfl,
    specWriteBigEndian_eq .., EmulatedVkToUints8_eq nbBits hn .., ?_⟩
  intro hred
  have hfr : frModulus < fpModulus := by unfold frModulus fpModulus; norm_num
  have h64 : 2 ^ 64 < fpModulus := by unfold fpModulus; norm_num
  simp only [VerifyingKey.Reduced, G1Affine.Reduced, G2Affine.Reduced, Arr3.Reduced, hc, hq,
    List.mem_cons, List.mem_singleton, List.not_mem_nil, or_false, forall_eq_or_imp,
    forall_eq] at hred
  obtain ⟨hSize, ⟨hc0, hc1, hc2⟩, hSizeInv, hGen, hCoset, ⟨ha0, ha1, ha2, ha3⟩,
    ⟨ha4, ha5, ha6, ha7⟩, ⟨hg1x, hg1y⟩, ⟨⟨hs0x, hs0y⟩, ⟨hs1x, hs1y⟩, ⟨hs2x, hs2y⟩⟩,
    ⟨hqlx, hqly⟩, ⟨hqrx, hqry⟩, ⟨hqmx, hqmy⟩, ⟨hqox, hqoy⟩, ⟨hqkx, hqky⟩,
    ⟨hq0x, hq0y⟩, ⟨hq1x, hq1y⟩, ⟨hq2x, hq2y⟩⟩ := hred
  have he : List.map ValueOf [
        vk.Size, vk.SizeInv, vk.Generator, vk.CosetShift, c0, c1, c2, vk.Kzg.G2.e0.X.A0,
        vk.Kzg.G2.e0.X.A1, vk.Kzg.G2.e0.Y.A0, vk.Kzg.G2.e0.Y.A1, vk.Kzg.G2.e1.X.A0,
        vk.Kzg.G2.e1.X.A1, vk.Kzg.G2.e1.Y.A0, vk.Kzg.G2.e1.Y.A1, vk.Kzg.G1.X, vk.Kzg.G1.Y,
        vk.S.e0.X, vk.S.e0.Y, vk.S.e1.X, vk.S.e1.Y, vk.S.e2.X, vk.S.e2.Y, vk.Ql.X, vk.Ql.Y,
        vk.Qr.X, vk.Qr.Y, vk.Qm.X, vk.Qm.Y, vk.Qo.X, vk.Qo.Y, vk.Qk.X, vk.Qk.Y, q0.X, q0.Y,
        q1.X, q1.Y, q2.X, q2.Y] =
      [
        vk.Size, vk.SizeInv, vk.Generator, vk.CosetShift, c0, c1, c2, vk.Kzg.G2.e0.X.A0,
        vk.Kzg.G2.e0.X.A1, vk.Kzg.G2.e0.Y.A0, vk.Kzg.G2.e0.Y.A1, vk.Kzg.G2.e1.X.A0,
        vk.Kzg.G2.e1.X.A1, vk.Kzg.G2.e1.Y.A0, vk.Kzg.G2.e1.Y.A1, vk.Kzg.G1.X, vk.Kzg.G1.Y,
        vk.S.e0.X, vk.S.e0.Y, vk.S.e1.X, vk.S.e1.Y, vk.S.e2.X, vk.S.e2.Y, vk.Ql.X, vk.Ql.Y,
        vk.Qr.X, vk.Qr.Y, vk.Qm.X, vk.Qm.Y, vk.Qo.X, vk.Qo.Y, vk.Qk.X, vk.Qk.Y, q0.X, q0.Y,
        q1.X, q1.Y, q2.X, q2.Y] := by
    simp only [List.map_cons, List.map_nil]
    rw [ValueOf_of_lt _ (lt_trans hSize h64), ValueOf_of_lt _ (lt_trans hSizeInv hfr),
      ValueOf_of_lt _ (lt_trans hGen hfr), ValueOf_of_lt _ (lt_trans hCoset hfr),
      ValueOf_of_lt _ (lt_trans hc0 h64), ValueOf_of_lt _ (lt_trans hc1 h64),
      ValueOf_of_lt _ (lt_trans hc2 h64), ValueOf_of_lt _ ha0, ValueOf_of_lt _ ha1,
      ValueOf_of_lt _ ha2, ValueOf_of_lt _ ha3, ValueOf_of_lt _ ha4, ValueOf_of_lt _ ha5,
      ValueOf_of_lt _ ha6, ValueOf_of_lt _ ha7, ValueOf_of_lt _ hg1x, ValueOf_of_lt _ hg1y,
      ValueOf_of_lt _ hs0x, ValueOf_of_lt _ hs0y, ValueOf_of_lt _ hs1x, ValueOf_of_lt _ hs1y,
      ValueOf_of_lt _ hs2x, ValueOf_of_lt _ hs2y, ValueOf_of_lt _ hqlx, ValueOf_of_lt _ hqly,
      ValueOf_of_lt _ hqrx, ValueOf_of_lt _ hqry, ValueOf_of_lt _ hqmx, ValueOf_of_lt _ hqmy,
      ValueOf_of_lt _ hqox, ValueOf_of_lt _ hqoy, ValueOf_of_lt _ hqkx, ValueOf_of_lt _ hqky,
      ValueOf_of_lt _ hq0x, ValueOf_of_lt _ hq0y, ValueOf_of_lt _ hq1x, ValueOf_of_lt _ hq1y,
      ValueOf_of_lt _ hq2x, ValueOf_of_lt _ hq2y]
  rw [he]
  exact ⟨rfl, EmulatedVkToUints8_eq nbBits hn ..⟩

/-! ## From bytes to a key and back -/

theorem slice_to_end {α : Type} (b : List α) (lo hi : Nat) (h : hi = b.length) :
    slice b lo hi = b.drop lo := by
  unfold slice
  rw [List.take_of_length_le (by rw [List.length_drop]; omega)]

theorem uint64_head (b : List Nat) (hb : IsBytes b) (h : 8 ≤ b.length) :
    bigEndian 8 (Uint64 b) = slice b 0 8 := by
  have e : slice b 0 8 = b.take 8 := rfl
  have hl : (b.take 8).length = 8 := by rw [List.length_take]; omega
  have hbt : IsBytes (b.take 8) := fun x hx => hb x (List.mem_of_mem_take hx)
  rw [e]
  unfold Uint64
  have := bigEndian_fromBigEndian (b.take 8) hbt
  rw [hl] at this
  exact this

theorem uint64_slot (b : List Nat) (lo hi : Nat) (hb : IsBytes b) (h : hi ≤ b.length)
    (hw : hi = lo + 8) : bigEndian 8 (Uint64 (slice b lo hi)) = slice b lo hi := by
  have hl : (slice b lo hi).length = 8 := by rw [slice_length b lo hi h]; omega
  have := uint64_head (slice b lo hi) (isBytes_slice b lo hi hb) (by omega)
  rw [this]
  exact slice_all _ _ hl.symm

theorem fr_slot (b : List Nat) (lo hi : Nat) (hb : IsBytes b) (h : hi ≤ b.length)
    (hw : hi = lo + 32) (hcan : fromBigEndian (slice b lo hi) < frModulus) :
    bigEndian 32 (frSetBytes (slice b lo hi)) = slice b lo hi := by
  have hl : (slice b lo hi).length = 32 := by rw [slice_length b lo hi h]; omega
  unfold frSetBytes
  rw [Nat.mod_eq_of_lt hcan, ← hl]
  exact bigEndian_fromBigEndian _ (isBytes_slice b lo hi hb)

theorem fp_slot (b : List Nat) (lo hi : Nat) (hb : IsBytes b) (h : hi ≤ b.length)
    (hw : hi = lo + 48) (hcan : fromBigEndian (slice b lo hi) < fpModulus) :
    bigEndian 48 (fpSetBytes (slice b lo hi)) = slice b lo hi := by
  have hl : (slice b lo hi).length = 48 := by rw [slice_length b lo hi h]; omega
  unfold fpSetBytes
  rw [Nat.mod_eq_of_lt hcan, ← hl]
  exact bigEndian_fromBigEndian _ (isBytes_slice b lo hi hb)

/-- Decoding a canonical 1664-byte buffer and encoding the key gives the buffer back. -/
theorem VkToBytes_BytesToVk {L : Type} (PrecomputeLines : G2Affine → L) (b : List Nat)
    (hlen : b.length = 1664) (hb : IsBytes b) (hcan : CanonicalVkBytes b) :
    ∃ vk, BytesToVk PrecomputeLines b = .ok vk ∧ VkToBytes vk = .ok b := by
  refine ⟨_, by unfold BytesToVk; rw [if_neg (by simp [hlen])], ?_⟩
  rw [VkToBytes_eq _ _ _ _ _ _ _ rfl rfl rfl]
  have s0 : bigEndian 8 (Uint64 b) = slice b 0 8 := uint64_head b hb (by omega)
  have s1 : bigEndian 32 (frSetBytes (slice b 8 40)) = slice b 8 40 :=
    fr_slot b 8 40 hb (by omega) rfl (hcan.1 0 (by decide))
  have s2 : bigEndian 32 (frSetBytes (slice b 40 72)) = slice b 40 72 :=
    fr_slot b 40 72 hb (by omega) rfl (hcan.1 1 (by decide))
  have s3 : bigEndian 32 (frSetBytes (slice b 72 104)) = slice b 72 104 :=
    fr_slot b 72 104 hb (by omega) rfl (hcan.1 2 (by decide))
  have s4 : bigEndian 8 (Uint64 (slice b 104 112)) = slice b 104 112 :=
    uint64_slot b 104 112 hb (by omega) rfl
  have s5 : bigEndian 8 (Uint64 (slice b 112 120)) = slice b 112 120 :=
    uint64_slot b 112 120 hb (by omega) rfl
  have s6 : bigEndian 8 (Uint64 (slice b 120 128)) = slice b 120 128 :=
    uint64_slot b 120 128 hb (by omega) rfl
  have s7 : bigEndian 48 (fpSetBytes (slice b 128 176)) = slice b 128 176 :=
    fp_slot b 128 176 hb (by omega) rfl (hcan.2 0 (by decide))
  have s8 : bigEndian 48 (fpSetBytes (slice b 176 224)) = slice b 176 224 :=
    fp_slot b 176 224 hb (by omega) rfl (hcan.2 1 (by decide))
  have s9 : bigEndian 48 (fpSetBytes (slice b 224 272)) = slice b 224 272 :=
    fp_slot b 224 272 hb (by omega) rfl (hcan.2 2 (by decide))
  have s10 : bigEndian 48 (fpSetBytes (slice b 272 320)) = slice b 272 320 :=
    fp_slot b 272 320 hb (by omega) rfl (hcan.2 3 (by decide))
  have s11 : bigEndian 48 (fpSetBytes (slice b 320 368)) = slice b 320 368 :=
    fp_slot b 320 368 hb (by omega) rfl (hcan.2 4 (by decide))
  have s12 : bigEndian 48 (fpSetBytes (slice b 368 416)) = slice b 368 416 :=
    fp_slot b 368 416 hb (by omega) rfl (hcan.2 5 (by decide))
  have s13 : bigEndian 48 (fpSetBytes (slice b 416 464)) = slice b 416 464 :=
    fp_slot b 416 464 hb (by omega) rfl (hcan.2 6 (by decide))
  have s14 : bigEndian 48 (fpSetBytes (slice b 464 512)) = slice b 464 512 :=
    fp_slot b 464 512 hb (by omega) rfl (hcan.2 7 (by decide))
  have s15 : bigEndian 48 (fpSetBytes (slice b 512 560)) = slice b 512 560 :=
    fp_slot b 512 560 hb (by omega) rfl (hcan.2 8 (by decide))
  have s16 : bigEndian 48 (fpSetBytes (slice b 560 608)) = slice b 560 608 :=
    fp_slot b 560 608 hb (by omega) rfl (hcan.2 9 (by decide))
  have s17 : bigEndian 48 (fpSetBytes (slice b 608 656)) = slice b 608 656 :=
    fp_slot b 608 656 hb (by omega) rfl (hcan.2 10 (by decide))
  have s18 : bigEndian 48 (fpSetBytes (slice b 656 704)) = slice b 656 704 :=
    fp_slot b 656 704 hb (by omega) rfl (hcan.2 11 (by decide))
  have s19 : bigEndian 48 (fpSetBytes (slice b 704 752)) = slice b 704 752 :=
    fp_slot b 704 752 hb (by omega) rfl (hcan.2 12 (by decide))
  have s20 : bigEndian 48 (fpSetBytes (slice b 752 800)) = slice b 752 800 :=
    fp_slot b 752 800 hb (by omega) rfl (hcan.2 13 (by decide))
  have s21 : bigEndian 48 (fpSetBytes (slice b 800 848)) = slice b 800 848 :=
    fp_slot b 800 848 hb (by omega) rfl (hcan.2 14 (by decide))
  have s22 : bigEndian 48 (fpSetBytes (slice b 848 896)) = slice b 848 896 :=
    fp_slot b 848 896 hb (by omega) rfl (hcan.2 15 (by decide))
  have s23 : bigEndian 48 (fpSetBytes (slice b 896 944)) = slice b 896 944 :=
    fp_slot b 896 944 hb (by omega) rfl (hcan.2 16 (by decide))
  have s24 : bigEndian 48 (fpSetBytes (slice b 944 992)) = slice b 944 992 :=
    fp_slot b 944 992 hb (by omega) rfl (hcan.2 17 (by decide))
  have s25 : bigEndian 48 (fpSetBytes (slice b 992 1040)) = slice b 992 1040 :=
    fp_slot b 992 1040 hb (by omega) rfl (hcan.2 18 (by decide))
  have s26 : bigEndian 48 (fpSetBytes (slice b 1040 1088)) = slice b 1040 1088 :=
    fp_slot b 1040 1088 hb (by omega) rfl (hcan.2 19 (by decide))
  have s27 : bigEndian 48 (fpSetBytes (slice b 1088 1136)) = slice b 1088 1136 :=
    fp_slot b 1088 1136 hb (by omega) rfl (hcan.2 20 (by decide))
  have s28 : bigEndian 48 (fpSetBytes (slice b 1136 1184)) = slice b 1136 1184 :=
    fp_slot b 1136 1184 hb (by omega) rfl (hcan.2 21 (by decide))
  have s29 : bigEndian 48 (fpSetBytes (slice b 1184 1232)) = slice b 1184 1232 :=
    fp_slot b 1184 1232 hb (by omega) rfl (hcan.2 22 (by decide))
  have s30 : bigEndian 48 (fpSetBytes (slice b 1232 1280)) = slice b 1232 1280 :=
    fp_slot b 1232 1280 hb (by omega) rfl (hcan.2 23 (by decide))
  have s31 : bigEndian 48 (fpSetBytes (slice b 1280 1328)) = slice b 1280 1328 :=
    fp_slot b 1280 1328 hb (by omega) rfl (hcan.2 24 (by decide))
  have s32 : bigEndian 48 (fpSetBytes (slice b 1328 1376)) = slice b 1328 1376 :=
    fp_slot b 1328 1376 hb (by omega) rfl (hcan.2 25 (by decide))
  have s33 : bigEndian 48 (fpSetBytes (slice b 1376 1424)) = slice b 1376 1424 :=
    fp_slot b 1376 1424 hb (by omega) rfl (hcan.2 26 (by decide))
  have s34 : bigEndian 48 (fpSetBytes (slice b 1424 1472)) = slice b 1424 1472 :=
    fp_slot b 1424 1472 hb (by omega) rfl (hcan.2 27 (by decide))
  have s35 : bigEndian 48 (fpSetBytes (slice b 1472 1520)) = slice b 1472 1520 :=
    fp_slot b 1472 1520 hb (by omega) rfl (hcan.2 28 (by decide))
  have s36 : bigEndian 48 (fpSetBytes (slice b 1520 1568)) = slice b 1520 1568 :=
    fp_slot b 1520 1568 hb (by omega) rfl (hcan.2 29 (by decide))
  have s37 : bigEndian 48 (fpSetBytes (slice b 1568 1616)) = slice b 1568 1616 :=
    fp_slot b 1568 1616 hb (by omega) rfl (hcan.2 30 (by decide))
  have s38 : bigEndian 48 (fpSetBytes (slice b 1616 1664)) = slice b 1616 1664 :=
    fp_slot b 1616 1664 hb (by omega) rfl (hcan.2 31 (by decide))
  simp only [
    s0, s1, s2, s3, s4, s5, s6, s7, s8, s9, s10, s11, s12, s13, s14, s15, s16, s17, s18, s19,
    s20, s21, s22, s23, s24, s25, s26, s27, s28, s29, s30, s31, s32, s33, s34, s35, s36, s37,
    s38]
  rw [
    slice_to_end b 1616 1664 hlen.symm, slice_append_drop b 1568 1616 (by decide),
    slice_append_drop b 1520 1568 (by decide), slice_append_drop b 1472 1520 (by decide),
    slice_append_drop b 1424 1472 (by decide), slice_append_drop b 1376 1424 (by decide),
    slice_append_drop b 1328 1376 (by decide), slice_append_drop b 1280 1328 (by decide),
    slice_append_drop b 1232 1280 (by decide), slice_append_drop b 1184 1232 (by decide),
    slice_append_drop b 1136 1184 (by decide), slice_append_drop b 1088 1136 (by decide),
    slice_append_drop b 1040 1088 (by decide), slice_append_drop b 992 1040 (by decide),
    slice_append_drop b 944 992 (by decide), slice_append_drop b 896 944 (by decide),
    slice_append_drop b 848 896 (by decide), slice_append_drop b 800 848 (by decide),
    slice_append_drop b 752 800 (by decide), slice_append_drop b 704 752 (by decide),
    slice_append_drop b 656 704 (by decide), slice_append_drop b 608 656 (by decide),
    slice_append_drop b 560 608 (by decide), slice_append_drop b 512 560 (by decide),
    slice_append_drop b 464 512 (by decide), slice_append_drop b 416 464 (by decide),
    slice_append_drop b 368 416 (by decide), slice_append_drop b 320 368 (by decide),
    slice_append_drop b 272 320 (by decide), slice_append_drop b 224 272 (by decide),
    slice_append_drop b 176 224 (by decide), slice_append_drop b 128 176 (by decide),
    slice_append_drop b 120 128 (by decide), slice_append_drop b 112 120 (by decide),
    slice_append_drop b 104 112 (by decide), slice_append_drop b 72 104 (by decide),
    slice_append_drop b 40 72 (by decide), slice_append_drop b 8 40 (by decide),
    slice_append_drop b 0 8 (by decide)]
  rfl

theorem slice_replicate {α : Type} (x : α) (n lo hi : Nat) (h : hi ≤ n) :
    slice (List.replicate n x) lo hi = List.replicate (hi - lo) x := by
  unfold slice
  rw [List.drop_replicate, List.take_replicate]
  congr 1
  omega

theorem fromBigEndian_replicate_zero (k : Nat) : fromBigEndian (List.replicate k 0) = 0 := by
  induction k with
  | zero => rfl
  | succ k ih =>
    rw [List.replicate_succ']
    rw [fromBigEndian_append, ih]
    simp [fromBigEndian]

theorem bigEndian_zero (w : Nat) : bigEndian w 0 = List.replicate w 0 := by
  induction w with
  | zero => rfl
  | succ w ih =>
    rw [bigEndian, Nat.zero_div, ih, Nat.zero_mod, List.replicate_succ']

theorem isBytes_replicate_zero (k : Nat) : IsBytes (List.replicate k 0) := by
  intro x hx
  rw [List.eq_of_mem_replicate hx]
  decide

/-- C18, as amended.  For every 1664-byte buffer `b`, `BytesToVk` succeeds with a key that
`VkToBytes` accepts (10 public variables, 3 commitment indexes, 3 `Qcp` points) and encodes
to 1664 bytes; when every field-element slot of `b` holds a canonical value (below its
field's modulus), `VkToBytes(BytesToVk(b)) = b`, so two different canonical buffers never
decode to the same key. -/
theorem BytesToVk_lossless_canonical {L : Type} (PrecomputeLines : G2Affine → L)
    (b : List Nat) (hlen : b.length = 1664) (hb : IsBytes b) :
    ∃ vk, BytesToVk PrecomputeLines b = .ok vk ∧ vk.NbPublicVariables = 10 ∧
      vk.CommitmentConstraintIndexes.length = 3 ∧ vk.Qcp.length = 3 ∧
      (∃ b2, VkToBytes vk = .ok b2 ∧ b2.length = 1664) ∧
      (CanonicalVkBytes b → VkToBytes vk = .ok b) ∧
      (∀ b2, b2.length = 1664 → IsBytes b2 → CanonicalVkBytes b → CanonicalVkBytes b2 →
        BytesToVk PrecomputeLines b2 = .ok vk → b2 = b) := by
  obtain ⟨vk, hvk⟩ : ∃ vk, BytesToVk PrecomputeLines b = .ok vk :=
    ⟨_, by unfold BytesToVk; rw [if_neg (by simp [hlen])]⟩
  have hshape : vk.NbPublicVariables = 10 ∧ vk.CommitmentConstraintIndexes.length = 3 ∧
      vk.Qcp.length = 3 := by
    have h := hvk
    unfold BytesToVk at h
    rw [if_neg (by simp [hlen])] at h
    injection h with h
    subst h
    exact ⟨rfl, rfl, rfl⟩
  have hround : CanonicalVkBytes b → VkToBytes vk = .ok b := by
    intro hcan
    obtain ⟨vk1, h1, h2⟩ := VkToBytes_BytesToVk PrecomputeLines b hlen hb hcan
    rw [hvk] at h1
    injection h1 with h1
    rw [h1]
    exact h2
  refine ⟨vk, hvk, hshape.1, hshape.2.1, hshape.2.2, ?_, hround, ?_⟩
  · obtain ⟨c0, c1, c2, hc⟩ := List.length_eq_three.mp hshape.2.1
    obtain ⟨q0, q1, q2, hq⟩ := List.length_eq_three.mp hshape.2.2
    refine ⟨_, VkToBytes_eq vk c0 c1 c2 q0 q1 q2 hshape.1 hc hq, ?_⟩
    simp only [List.length_append, bigEndian_length]
  · intro b2 hlen2 hb2 hcan hcan2 hdec2
    obtain ⟨vk2, h1, h2⟩ := VkToBytes_BytesToVk PrecomputeLines b2 hlen2 hb2 hcan2
    rw [hdec2] at h1
    injection h1 with h1
    have h3 := hround hcan
    rw [h1, h2] at h3
    injection h3

/-! ## SHA-256 padding of the client-data suffix -/

/-- Closed form of the loop: it stops with `lenPosition` in `1..64` after
`(z - 1) / 64` rounds. -/
theorem padLoop_eq (fuel : Nat) : ∀ (z c : Nat), 1 ≤ z → (z - 1) / 64 ≤ fuel →
    (z - 1) / 64 ≤ c → c < 256 →
    padLoop fuel (z : Int) c = ((((z - 1) % 64 + 1 : Nat) : Int), c - (z - 1) / 64) := by
  induction fuel with
  | zero =>
    intro z c h1 hf hc h256
    have h0 : (z - 1) / 64 = 0 := by omega
    have hz : ((z - 1) % 64 + 1 : Nat) = z := by omega
    rw [hz, h0]
    rfl
  | succ f ih =>
    intro z c h1 hf hc h256
    unfold padLoop
    by_cases h : (z : Int) > 64
    · rw [if_pos h]
      have e1 : (z : Int) - 64 = ((z - 64 : Nat) : Int) := by omega
      have e2 : (c + 256 - 1) % 256 = c - 1 := by omega
      rw [e1, e2, ih (z - 64) (c - 1) (by omega) (by omega) (by omega) (by omega)]
      have e3 : (z - 64 - 1) % 64 + 1 = (z - 1) % 64 + 1 := by omega
      have e4 : c - 1 - (z - 64 - 1) / 64 = c - (z - 1) / 64 := by omega
      rw [e3, e4]
    · rw [if_neg h]
      have h0 : (z - 1) / 64 = 0 := by omega
      have hz : ((z - 1) % 64 + 1 : Nat) = z := by omega
      rw [hz, h0]
      rfl

theorem copyAt_mid (a m c src : List Nat) (h : src.length = m.length) :
    copyAt (a ++ m ++ c) a.length src = a ++ src ++ c := by
  unfold copyAt
  have e1 : (a ++ m ++ c).take a.length = a := by
    rw [List.append_assoc, List.take_left]
  have e2 : min ((a ++ m ++ c).length - a.length) src.length = src.length := by
    simp only [List.length_append]
    omega
  have e3 : (a ++ m ++ c).drop (a.length + src.length) = c := by
    rw [h, ← List.length_append, List.drop_left]
  simp only [e1, e2, e3, List.take_length]

theorem replicate_split (z lp : Nat) (h9 : 9 ≤ lp) (hz : lp ≤ z) :
    (List.replicate z 0).set 0 0x80 =
      ([0x80] ++ List.replicate (lp - 9) 0) ++ List.replicate 8 0 ++ List.replicate (z - lp) 0 := by
  obtain ⟨k, rfl⟩ : ∃ k, z = k + 1 := ⟨z - 1, by omega⟩
  rw [List.replicate_succ, List.set_cons_zero, List.append_assoc, List.append_assoc,
    List.append_replicate_replicate, List.append_replicate_replicate]
  have : lp - 9 + (8 + (k + 1 - lp)) = k := by omega
  rw [this]
  rfl

/-- The padding, when at least nine bytes are left in the block. -/
theorem PaddedClientDataSuffix_eq (buf : List Nat) (hn : buf.length ≤ 240)
    (hr : (79 + buf.length) % 64 ≤ 55) :
    PaddedClientDataSuffix buf =
      .ok (buf ++ [0x80] ++ List.replicate (55 - (79 + buf.length) % 64) 0 ++
            bigEndian 8 (8 * (36 + 43 + buf.length)) ++
            List.replicate (64 * (4 - (79 + buf.length) / 64)) 0,
          (79 + buf.length) / 64 + 1) := by
  have hzi : (241 : Int) - (buf.length : Int) = ((241 - buf.length : Nat) : Int) := by omega
  have hloop : padLoop (241 - buf.length) ((241 - buf.length : Nat) : Int) 5 =
      (((64 - (79 + buf.length) % 64 : Nat) : Int), (79 + buf.length) / 64 + 1) := by
    rw [padLoop_eq _ _ 5 (by omega) (by omega) (by omega) (by omega)]
    congr 2 <;> omega
  unfold PaddedClientDataSuffix
  simp only [hzi, Int.toNat_ofNat, hloop]
  have hlp : ((64 - (79 + buf.length) % 64 : Nat) : Int) - 8 =
      ((56 - (79 + buf.length) % 64 : Nat) : Int) := by omega
  rw [if_neg (by omega), if_neg (by rw [List.length_replicate]; omega), hlp, Int.toNat_ofNat,
    List.length_set, List.length_replicate, if_neg (by omega), if_neg (by omega)]
  have hin : copyAt ((List.replicate (241 - buf.length) 0).set 0 128)
      (56 - (79 + buf.length) % 64) (bigEndian 8 (8 * (36 + 43 + buf.length))) =
      [0x80] ++ List.replicate (55 - (79 + buf.length) % 64) 0 ++
        bigEndian 8 (8 * (36 + 43 + buf.length)) ++
        List.replicate (64 * (4 - (79 + buf.length) / 64)) 0 := by
    rw [replicate_split (241 - buf.length) (64 - (79 + buf.length) % 64) (by omega) (by omega)]
    have e1 : 56 - (79 + buf.length) % 64 =
        ([0x80] ++ List.replicate (64 - (79 + buf.length) % 64 - 9) 0).length := by
      rw [List.length_append, List.length_replicate, List.length_singleton]
      omega
    have e2 : 64 - (79 + buf.length) % 64 - 9 = 55 - (79 + buf.length) % 64 := by omega
    have e3 : 241 - buf.length - (64 - (79 + buf.length) % 64) =
        64 * (4 - (79 + buf.length) / 64) := by omega
    rw [e1, copyAt_mid _ _ _ _ (by rw [bigEndian_length, List.length_replicate]), e2, e3]
  have hout : copyAt (List.replicate 241 0) 0 buf =
      buf ++ List.replicate (241 - buf.length) 0 := by
    have e : List.replicate 241 0 =
        [] ++ List.replicate buf.length 0 ++ List.replicate (241 - buf.length) 0 := by
      rw [List.nil_append, List.append_replicate_replicate]
      congr 1
      omega
    rw [e]
    exact copyAt_mid [] _ _ buf (by rw [List.length_replicate])
  have hlen : ([0x80] ++ List.replicate (55 - (79 + buf.length) % 64) 0 ++
        bigEndian 8 (8 * (36 + 43 + buf.length)) ++
        List.replicate (64 * (4 - (79 + buf.length) / 64)) 0).length =
      (List.replicate (241 - buf.length) 0).length := by
    simp only [List.length_append, List.length_replicate, List.length_singleton,
      bigEndian_length]
    omega
  rw [hin, hout]
  have hfin := copyAt_mid buf (List.replicate (241 - buf.length) 0) [] _ hlen
  rw [List.append_nil, List.append_nil] at hfin
  rw [hfin]
  simp only [List.append_assoc]


/-- A copy of `c` one byte into the zero tail of a buffer: the tail keeps a zero byte
before `c` and its other zeros behind. -/
theorem copyAt_pad (p c : List Nat) (k off : Nat) (hoff : off = p.length + 1)
    (hk : c.length + 1 ≤ k) :
    copyAt (p ++ List.replicate k 0) off c =
      (p ++ ([0] ++ c)) ++ List.replicate (k - c.length - 1) 0 := by
  have e : p ++ List.replicate k 0 =
      (p ++ [0]) ++ List.replicate c.length 0 ++ List.replicate (k - c.length - 1) 0 := by
    have e1 : k = 1 + (c.length + (k - c.length - 1)) := by omega
    rw [List.append_assoc, List.append_assoc, List.append_replicate_replicate]
    congr 1
    rw [show ([0] : List Nat) = List.replicate 1 0 from rfl, List.append_replicate_replicate,
      ← e1]
  have hl : off = (p ++ [0]).length := by
    rw [List.length_append, List.length_singleton, hoff]
  rw [e, hl, copyAt_mid _ _ _ _ (List.length_replicate _ _).symm]
  simp only [List.append_assoc]

/-- The slot `j` of a concatenation of slots of one width. -/
theorem slice_flatten {α : Type} (w : Nat) (slots : List (List α)) :
    (∀ s ∈ slots, s.length = w) → ∀ j s, slots.get? j = some s →
      slice slots.flatten (w * j) (w * j + w) = s := by
  induction slots with
  | nil =>
    intro _ j s h
    cases h
  | cons x xs ih =>
    intro hw j s h
    have hx : x.length = w := hw x (List.mem_cons_self _ _)
    rw [List.flatten_cons]
    cases j with
    | zero =>
      simp only [List.get?_cons_zero, Option.some.injEq] at h
      subst h
      rw [Nat.mul_zero, Nat.zero_add]
      exact slice_append_here _ _ _ hx.symm
    | succ j =>
      simp only [List.get?_cons_succ] at h
      rw [slice_append_skip _ _ _ _ (by rw [hx]; exact Nat.le_mul_of_pos_right w (by omega))]
      have e1 : w * (j + 1) - x.length = w * j := by
        rw [hx, Nat.mul_succ, Nat.add_sub_cancel]
      have e2 : w * (j + 1) + w - x.length = w * j + w := by
        rw [hx, Nat.mul_succ]
        omega
      rw [e1, e2]
      exact ih (fun s hs => hw s (List.mem_cons_of_mem _ hs)) j s h

theorem chunkStep_b (a : List Nat) (st : Chunks) (j : Nat) :
    (chunkStep a st j).b = copyAt st.b (j * 32 + 1) (slice a (j * 31) ((j + 1) * 31)) := rfl

/-- The buffer returned by `DataToBytes31Chunks`: nine slots of 32 bytes, each a zero byte
and then a chunk of the payload; the last chunk has 8 bytes and zeros behind it. -/
theorem DataToBytes31Chunks_buffer (a : List Nat) (hlen : a.length = 256) :
    ∃ r, DataToBytes31Chunks a = .ok r ∧
      r.b = List.flatten [[0] ++ slice a 0 31, [0] ++ slice a 31 62, [0] ++ slice a 62 93,
        [0] ++ slice a 93 124, [0] ++ slice a 124 155, [0] ++ slice a 155 186,
        [0] ++ slice a 186 217, [0] ++ slice a 217 248,
        [0] ++ a.drop 248 ++ List.replicate 23 0] := by
  have hr : List.range (9 - 1) = [0, 1, 2, 3, 4, 5, 6, 7] := by decide
  have h9 : DataSize / 32 = 9 := by decide
  have hD : DataSize = 288 := rfl
  have hs : ∀ lo hi, hi ≤ 256 → (slice a lo hi).length = hi - lo := fun lo hi h =>
    slice_length a lo hi (by omega)
  have hd : (a.drop 248).length = 8 := by rw [List.length_drop]; omega
  unfold DataToBytes31Chunks
  rw [if_neg (by simp [RawDataSize, hlen])]
  refine ⟨_, rfl, ?_⟩
  simp only [hD, Nat.reduceDiv, Nat.reduceSub, Nat.reduceMul, Nat.reduceAdd, hr,
    List.foldl_cons, List.foldl_nil, chunkStep_b]
  have h0 : List.replicate 288 0 = ([] : List Nat) ++ List.replicate 288 0 := rfl
  rw [h0]
  have l1 := hs 0 31 (by omega)
  have l2 := hs 31 62 (by omega)
  have l3 := hs 62 93 (by omega)
  have l4 := hs 93 124 (by omega)
  have l5 := hs 124 155 (by omega)
  have l6 := hs 155 186 (by omega)
  have l7 := hs 186 217 (by omega)
  have l8 := hs 217 248 (by omega)
  rw [copyAt_pad _ _ _ _ (by simp) (by omega)]
  rw [copyAt_pad _ _ _ _ (by simp [l1]) (by omega)]
  rw [copyAt_pad _ _ _ _ (by simp [l1, l2]) (by omega)]
  rw [copyAt_pad _ _ _ _ (by simp [l1, l2, l3]) (by omega)]
  rw [copyAt_pad _ _ _ _ (by simp [l1, l2, l3, l4]) (by omega)]
  rw [copyAt_pad _ _ _ _ (by simp [l1, l2, l3, l4, l5]) (by omega)]
  rw [copyAt_pad _ _ _ _ (by simp [l1, l2, l3, l4, l5, l6]) (by omega)]
  rw [copyAt_pad _ _ _ _ (by simp [l1, l2, l3, l4, l5, l6, l7]) (by omega)]
  rw [copyAt_pad _ _ _ _ (by simp [l1, l2, l3, l4, l5, l6, l7, l8]) (by omega)]
  simp only [l1, l2, l3, l4, l5, l6, l7, l8, hd, List.flatten_cons, List.flatten_nil,
    List.append_assoc, List.append_nil, List.nil_append]
/-- C21, as amended.  For every 256-byte input `a`, the buffer returned by
`DataToBytes31Chunks(a)` has 288 bytes; for every slot `j` in `0..7` its `j`-th 32-byte
slot is a zero byte and then `a[31j .. 31j+31)`, and read as a big-endian integer it equals
the `j`-th integer returned by the same call.  Slot 8 is a zero byte, then the 8 bytes
`a[248 .. 256)`, then 23 zero bytes: its first 9 bytes read big-endian give integer 8, and
the whole slot read big-endian gives integer 8 times `256 ^ 23`.  The circuit variables
are the integers, and so are the emulated elements when `a` is a byte string. -/
theorem chunk_slots (a : List Nat) (hlen : a.length = 256) :
    ∃ r, DataToBytes31Chunks a = .ok r ∧ r.b.length = 288 ∧ r.i.length = 9 ∧ r.v = r.i ∧
      (IsBytes a → r.e = r.i) ∧
      (∀ j < 8, slice r.b (32 * j) (32 * j + 32) = [0] ++ slice a (31 * j) (31 * j + 31) ∧
        fromBigEndian (slice r.b (32 * j) (32 * j + 32)) = r.i.getD j 0) ∧
      slice r.b 256 288 = [0] ++ slice a 248 256 ++ List.replicate 23 0 ∧
      fromBigEndian (slice r.b 256 265) = r.i.getD 8 0 ∧
      fromBigEndian (slice r.b 256 288) = r.i.getD 8 0 * 256 ^ 23 := by
  obtain ⟨r, hr, hi, hv, he⟩ := DataToBytes31Chunks_values a hlen
  obtain ⟨r2, hr2, hb⟩ := DataToBytes31Chunks_buffer a hlen
  rw [hr] at hr2
  injection hr2 with hr2
  subst hr2
  have hlast : a.drop 248 = slice a 248 256 := by
    unfold slice
    rw [List.take_of_length_le (by rw [List.length_drop]; omega)]
  have hs : ∀ lo hi, hi ≤ 256 → (slice a lo hi).length = hi - lo := fun lo hi h =>
    slice_length a lo hi (by omega)
  have hz : ∀ c : List Nat, fromBigEndian ([0] ++ c) = fromBigEndian c := by
    intro c
    rw [fromBigEndian_append]
    simp [fromBigEndian]
  have hw : ∀ s ∈ [[0] ++ slice a 0 31, [0] ++ slice a 31 62, [0] ++ slice a 62 93,
      [0] ++ slice a 93 124, [0] ++ slice a 124 155, [0] ++ slice a 155 186,
      [0] ++ slice a 186 217, [0] ++ slice a 217 248,
      [0] ++ a.drop 248 ++ List.replicate 23 0], s.length = 32 := by
    intro s h
    simp only [List.mem_cons, List.mem_singleton, List.not_mem_nil, or_false] at h
    rcases h with rfl | rfl | rfl | rfl | rfl | rfl | rfl | rfl | rfl
    all_goals simp [hs, hlen]
  have hslot := slice_flatten 32 _ hw
  rw [← hb] at hslot
  have h8 : slice r.b 256 288 = [0] ++ slice a 248 256 ++ List.replicate 23 0 := by
    rw [← hlast]
    exact hslot 8 _ rfl
  have h9 : slice r.b 256 265 = [0] ++ slice a 248 256 := by
    have e : slice r.b 256 265 = slice (slice r.b 256 288) 0 9 := by
      unfold slice
      rw [List.drop_zero, List.take_take]
      rfl
    rw [e, h8, List.append_assoc, ← List.append_assoc]
    exact slice_append_here _ _ 9 (by simp [hs])
  refine ⟨r, hr, ?_, by rw [hi]; rfl, hv, ?_, ?_, h8, ?_, ?_⟩
  · rw [hb]
    simp [hs, hlen]
  · intro hbytes
    rw [he]
    have hid : ∀ x ∈ r.i, ValueOf x = x := by
      intro x hx
      rw [hi] at hx
      simp only [List.mem_cons, List.mem_singleton, List.not_mem_nil, or_false] at hx
      rcases hx with rfl | rfl | rfl | rfl | rfl | rfl | rfl | rfl | rfl
      all_goals first
        | exact ValueOf_of_lt _ (fromBigEndian_lt_fpModulus _ (isBytes_slice a _ _ hbytes)
            (by rw [hs _ _ (by omega)]))
        | exact ValueOf_of_lt _ (fromBigEndian_lt_fpModulus _ (isBytes_drop a _ hbytes)
            (by rw [List.length_drop]; omega))
    calc r.i.map ValueOf = r.i.map id := List.map_congr_left hid
      _ = r.i := List.map_id _
  · intro j hj
    have hj8 : j = 0 ∨ j = 1 ∨ j = 2 ∨ j = 3 ∨ j = 4 ∨ j = 5 ∨ j = 6 ∨ j = 7 := by omega
    have key : ∀ (k : Nat) (c : List Nat),
        [[0] ++ slice a 0 31, [0] ++ slice a 31 62, [0] ++ slice a 62 93,
          [0] ++ slice a 93 124, [0] ++ slice a 124 155, [0] ++ slice a 155 186,
          [0] ++ slice a 186 217, [0] ++ slice a 217 248,
          [0] ++ a.drop 248 ++ List.replicate 23 0].get? k = some ([0] ++ c) →
        slice r.b (32 * k) (32 * k + 32) = [0] ++ c ∧
        fromBigEndian (slice r.b (32 * k) (32 * k + 32)) = fromBigEndian c :=
      fun k c h => ⟨hslot k _ h, by rw [hslot k _ h, hz]⟩
    rw [hi]
    rcases hj8 with rfl | rfl | rfl | rfl | rfl | rfl | rfl | rfl
    · exact key 0 _ rfl
    · exact key 1 _ rfl
    · exact key 2 _ rfl
    · exact key 3 _ rfl
    · exact key 4 _ rfl
    · exact key 5 _ rfl
    · exact key 6 _ rfl
    · exact key 7 _ rfl
  · rw [h9, hz, hi, hlast]
    rfl
  · rw [h8, fromBigEndian_append, hz, hi, hlast, fromBigEndian_replicate_zero]
    simp

/-! ## Faults of the padding -/

/-- The loop of `PaddedClientDataSuffix` on a suffix of at most 240 bytes. -/
theorem padLoop_suffix (n : Nat) (hn : n ≤ 240) :
    padLoop (241 - n) ((241 - n : Nat) : Int) 5 =
      (((64 - (79 + n) % 64 : Nat) : Int), (79 + n) / 64 + 1) := by
  rw [padLoop_eq _ _ 5 (by omega) (by omega) (by omega) (by omega)]
  congr 2 <;> omega

/-- With fewer than eight bytes left in the block, the slice expression
`padding[lenPosition-8:]` is out of bounds. -/
theorem PaddedClientDataSuffix_fault (buf : List Nat) (hn : buf.length ≤ 240)
    (hr : 57 ≤ (79 + buf.length) % 64) :
    PaddedClientDataSuffix buf = .error .sliceBoundsOutOfRange := by
  have hzi : (241 : Int) - (buf.length : Int) = ((241 - buf.length : Nat) : Int) := by omega
  unfold PaddedClientDataSuffix
  simp only [hzi, Int.toNat_ofNat, padLoop_suffix buf.length hn]
  rw [if_neg (by omega), if_neg (by rw [List.length_replicate]; omega),
    if_pos (Or.inl (by omega))]

/-- With eight bytes or more left in the block, the call returns. -/
theorem PaddedClientDataSuffix_returns (buf : List Nat) (hn : buf.length ≤ 240)
    (hr : (79 + buf.length) % 64 ≤ 56) :
    ∃ res, PaddedClientDataSuffix buf = .ok (res, (79 + buf.length) / 64 + 1) := by
  have hzi : (241 : Int) - (buf.length : Int) = ((241 - buf.length : Nat) : Int) := by omega
  have hlp : ((64 - (79 + buf.length) % 64 : Nat) : Int) - 8 =
      ((56 - (79 + buf.length) % 64 : Nat) : Int) := by omega
  unfold PaddedClientDataSuffix
  simp only [hzi, Int.toNat_ofNat, padLoop_suffix buf.length hn]
  rw [if_neg (by omega), if_neg (by rw [List.length_replicate]; omega), hlp, Int.toNat_ofNat,
    List.length_set, List.length_replicate, if_neg (by omega), if_neg (by omega)]
  exact ⟨_, rfl⟩

/-- Longer suffixes do not fit the buffer. -/
theorem PaddedClientDataSuffix_long (buf : List Nat) (hn : 240 < buf.length) :
    PaddedClientDataSuffix buf = .error .indexOutOfRange := by
  unfold PaddedClientDataSuffix
  by_cases h1 : (buf.length : Int) > 241
  · simp only [if_pos h1]
  · have h0 : ((241 : Int) - (buf.length : Int)).toNat = 0 := by omega
    simp only [if_neg h1, h0, List.replicate_zero, List.length_nil, if_true]

/-- C22 does not hold of the code.  On a suffix of `n ≤ 240` bytes with
`(36 + 43 + n) mod 64 ≥ 57`, that is with `n` in `42..48`, `106..112`, `170..176` or
`234..240`, `PaddedClientDataSuffix` stops with a slice-bounds fault, at
`padding[lenPosition-8:]` with `lenPosition < 8`; on the other suffixes of at most 240
bytes it returns, and on longer ones it stops with an index fault. -/
theorem PaddedClientDataSuffix_fault_lengths (buf : List Nat) :
    (buf.length ≤ 240 → 57 ≤ (36 + 43 + buf.length) % 64 →
      PaddedClientDataSuffix buf = .error .sliceBoundsOutOfRange) ∧
    (buf.length ≤ 240 → (36 + 43 + buf.length) % 64 ≤ 56 →
      ∃ res, PaddedClientDataSuffix buf = .ok (res, (36 + 43 + buf.length) / 64 + 1)) ∧
    (240 < buf.length → PaddedClientDataSuffix buf = .error .indexOutOfRange) ∧
    (buf.length ≤ 240 →
      (57 ≤ (36 + 43 + buf.length) % 64 ↔
        (42 ≤ buf.length ∧ buf.length ≤ 48) ∨ (106 ≤ buf.length ∧ buf.length ≤ 112) ∨
        (170 ≤ buf.length ∧ buf.length ≤ 176) ∨ (234 ≤ buf.length ∧ buf.length ≤ 240))) := by
  refine ⟨fun hn hr => PaddedClientDataSuffix_fault buf hn hr,
    fun hn hr => PaddedClientDataSuffix_returns buf hn hr,
    fun hn => PaddedClientDataSuffix_long buf hn, fun hn => ?_⟩
  omega

/-! ## The padding against the claimed layout -/

/-- The first byte of the 8-byte encoding of a value below `256 ^ 7` is zero. -/
theorem bigEndian_eight_small (v : Nat) (h : v < 256 ^ 7) :
    bigEndian 8 v = [0] ++ bigEndian 7 v := by
  have hb : IsBytes ([0] ++ bigEndian 7 v) := by
    rw [isBytes_append]
    exact ⟨by decide, isBytes_bigEndian 7 v⟩
  have hl : ([0] ++ bigEndian 7 v).length = 8 := by
    rw [List.length_append, bigEndian_length]
    rfl
  have hv : fromBigEndian ([0] ++ bigEndian 7 v) = v := by
    rw [fromBigEndian_append, fromBigEndian_bigEndian_of_lt 7 v h]
    simp [fromBigEndian]
  have key := bigEndian_fromBigEndian _ hb
  rw [hl, hv] at key
  exact key

/-- With exactly eight bytes left in the block, the length field is written over the
`0x80` byte: the suffix is followed by the length at once. -/
theorem PaddedClientDataSuffix_overwrite (buf : List Nat) (hn : buf.length ≤ 240)
    (hr : (79 + buf.length) % 64 = 56) :
    PaddedClientDataSuffix buf =
      .ok (buf ++ bigEndian 8 (8 * (36 + 43 + buf.length)) ++
            List.replicate (233 - buf.length) 0,
          (79 + buf.length) / 64 + 1) := by
  have hzi : (241 : Int) - (buf.length : Int) = ((241 - buf.length : Nat) : Int) := by omega
  have hlp : ((64 - (79 + buf.length) % 64 : Nat) : Int) - 8 = ((0 : Nat) : Int) := by omega
  unfold PaddedClientDataSuffix
  simp only [hzi, Int.toNat_ofNat, padLoop_suffix buf.length hn]
  rw [if_neg (by omega), if_neg (by rw [List.length_replicate]; omega), hlp, Int.toNat_ofNat,
    List.length_set, List.length_replicate, if_neg (by omega), if_neg (by omega)]
  have hin : copyAt ((List.replicate (241 - buf.length) 0).set 0 128) 0
      (bigEndian 8 (8 * (36 + 43 + buf.length))) =
      bigEndian 8 (8 * (36 + 43 + buf.length)) ++ List.replicate (233 - buf.length) 0 := by
    have e : (List.replicate (241 - buf.length) 0).set 0 128 =
        [] ++ (128 :: List.replicate 7 0) ++ List.replicate (233 - buf.length) 0 := by
      obtain ⟨k, hk⟩ : ∃ k, 241 - buf.length = k + 8 := ⟨233 - buf.length, by omega⟩
      have hk2 : 233 - buf.length = k := by omega
      rw [hk, hk2, List.replicate_succ, List.set_cons_zero, List.nil_append, List.cons_append,
        List.append_replicate_replicate, Nat.add_comm]
    rw [e]
    have key := copyAt_mid [] (128 :: List.replicate 7 0) (List.replicate (233 - buf.length) 0)
      (bigEndian 8 (8 * (36 + 43 + buf.length))) (by rw [bigEndian_length]; rfl)
    rw [List.nil_append] at key
    exact key
  have hout : copyAt (List.replicate 241 0) 0 buf =
      buf ++ List.replicate (241 - buf.length) 0 := by
    have e : List.replicate 241 0 =
        [] ++ List.replicate buf.length 0 ++ List.replicate (241 - buf.length) 0 := by
      rw [List.nil_append, List.append_replicate_replicate]
      congr 1
      omega
    rw [e]
    exact copyAt_mid [] _ _ buf (by rw [List.length_replicate])
  have hlen : (bigEndian 8 (8 * (36 + 43 + buf.length)) ++
        List.replicate (233 - buf.length) 0).length =
      (List.replicate (241 - buf.length) 0).length := by
    simp only [List.length_append, List.length_replicate, bigEndian_length]
    omega
  rw [hin, hout]
  have hfin := copyAt_mid buf (List.replicate (241 - buf.length) 0) [] _ hlen
  rw [List.append_nil, List.append_nil] at hfin
  rw [hfin]
  simp only [List.append_assoc]

/-- C14 does not hold of the code.  For a suffix of `n ≤ 232` bytes the suffix, the `0x80`
byte and the 8 length bytes fit the five blocks of the message, so the padding of the
claim exists.  The code writes it when at least nine bytes are left in the block in which
the suffix ends (`(36 + 43 + n) mod 64 ≤ 55`): the suffix, `0x80`, zeros, the 8-byte
big-endian value `8 * (36 + 43 + n)` ending at offset `64 * count` of the message, zeros.
With exactly eight bytes left (`n` = 41, 105, 169, 233) it writes the length over the
`0x80` byte: the buffer returned is the suffix, the 8 length bytes and zeros, the byte after
the suffix is 0, and the count is one block short of the padded message.  With fewer than
eight bytes left it stops with a slice-bounds fault. -/
theorem PaddedClientDataSuffix_marker_lost (buf : List Nat) (hn : buf.length ≤ 240) :
    (buf.length ≤ 232 → 36 + 43 + buf.length + 1 + 8 ≤ 64 * 5) ∧
    ((36 + 43 + buf.length) % 64 ≤ 55 →
      ∃ res count k m, PaddedClientDataSuffix buf = .ok (res, count) ∧ res.length = 241 ∧
        res = buf ++ [0x80] ++ List.replicate k 0 ++
          bigEndian 8 (8 * (36 + 43 + buf.length)) ++ List.replicate m 0 ∧
        36 + 43 + buf.length + 1 + k + 8 = 64 * count ∧ count ≤ 5) ∧
    ((36 + 43 + buf.length) % 64 = 56 →
      ∃ res count, PaddedClientDataSuffix buf = .ok (res, count) ∧
        res = buf ++ bigEndian 8 (8 * (36 + 43 + buf.length)) ++
          List.replicate (233 - buf.length) 0 ∧
        res.getD buf.length 0 = 0 ∧ 0x80 ∉ res.drop buf.length ∧
        64 * count < 36 + 43 + buf.length + 1 + 8) ∧
    (57 ≤ (36 + 43 + buf.length) % 64 →
      PaddedClientDataSuffix buf = .error .sliceBoundsOutOfRange) := by
  refine ⟨fun h => by omega, ?_, ?_, fun hr => PaddedClientDataSuffix_fault buf hn hr⟩
  · intro hr
    have hr2 : (79 + buf.length) % 64 ≤ 55 := hr
    refine ⟨_, _, _, _, PaddedClientDataSuffix_eq buf hn hr2, ?_, rfl, ?_, ?_⟩
    · simp only [List.length_append, List.length_replicate, List.length_singleton,
        bigEndian_length]
      omega
    · omega
    · omega
  · intro hr
    have hr2 : (79 + buf.length) % 64 = 56 := hr
    have hsmall : 8 * (36 + 43 + buf.length) < 256 ^ 7 := by
      have e : (256 : Nat) ^ 7 = 72057594037927936 := by norm_num
      omega
    have hdrop : (buf ++ bigEndian 8 (8 * (36 + 43 + buf.length)) ++
        List.replicate (233 - buf.length) 0).drop buf.length =
        [0] ++ bigEndian 7 (8 * (36 + 43 + buf.length)) ++
          List.replicate (233 - buf.length) 0 := by
      rw [List.append_assoc, List.drop_left, bigEndian_eight_small _ hsmall]
    refine ⟨_, _, PaddedClientDataSuffix_overwrite buf hn hr2, rfl, ?_, ?_, ?_⟩
    · rw [List.append_assoc, List.getD_append_right _ _ _ _ (le_refl _), Nat.sub_self,
        bigEndian_eight_small _ hsmall]
      rfl
    · rw [hdrop]
      intro hmem
      rw [List.mem_append, List.mem_append] at hmem
      rcases hmem with (h | h) | h
      · simp at h
      · have hcases : buf.length = 41 ∨ buf.length = 105 ∨ buf.length = 169 ∨
            buf.length = 233 := by omega
        rcases hcases with e | e | e | e <;> rw [e] at h <;> revert h <;> decide
      · have h0 := List.eq_of_mem_replicate h
        cases h0
    · omega

end signatures

namespace signatures

/-! ## Validation of a secp256k1 signature -/

theorem getVkBytes_error {E L : Type} (vk : Option (VerifyingKey L)) (e : SigError E)
    (h : getVkBytes vk = .error e) : e = .invalidVk ∨ ∃ c, e = .codec c := by
  unfold getVkBytes at h
  split at h
  · injection h with h
    exact Or.inl h.symm
  · split at h
    · injection h with h
      exact Or.inr ⟨_, h.symm⟩
    · cases h

theorem copyAt_length (dst : List Nat) (off : Nat) (src : List Nat) (h : off ≤ dst.length) :
    (copyAt dst off src).length = dst.length := by
  unfold copyAt
  simp only [List.length_append, List.length_take, List.length_drop]
  omega

/-- The payload of a public key has 256 bytes, so its chunking succeeds. -/
theorem publicKeyToCircuitData_ok (publicKey : PublicKey) :
    ∃ r, publicKeyToCircuitData publicKey = .ok r := by
  have hl : (ecdsaPublicKeyToData publicKey).length = 256 := by
    have l0 : (List.replicate 256 (0 : Nat)).length = 256 := List.length_replicate _ _
    have l1 : (copyAt (List.replicate 256 0) 0 (bigEndian 32 publicKey.X)).length = 256 := by
      rw [copyAt_length _ _ _ (Nat.zero_le _), l0]
    unfold ecdsaPublicKeyToData
    simp only
    rw [copyAt_length _ _ _ (by rw [l1]; omega), l1]
  unfold publicKeyToCircuitData
  obtain ⟨r, hr, _⟩ := DataToBytes31Chunks_values _ hl
  simp only [hr]
  exact ⟨_, rfl⟩

/-- The call `clc.Load(circuits.Secp256k1AccountMetadata, 0)` panics: the metadata has no
filename, and `Filename` indexes the first. -/
theorem clientLoad_secp256k1 {σ E F CC PP L : Type} (env : AdapterEnv σ E F CC PP L) (w : σ) :
    clientLoad env circuits.Secp256k1AccountMetadata 0 w =
      (.panicked (.runtime .indexOutOfRange), w) := rfl

/-- The adapter after validation, on a 65-byte signature: an error of public-key recovery
is returned as it is, and once a public key is recovered the call panics at
`clc.Load(circuits.Secp256k1AccountMetadata, 0)`. -/
theorem proveRecovered_outcome {σ E F CC PP L : Type} (env : AdapterEnv σ E F CC PP L)
    (newKey254 : Int) (signature : List Nat) (w : σ) (hlen : signature.length = 65) :
    (∀ e, env.SigToPub (bigIntBytes newKey254) signature = .error e →
      proveRecovered env newKey254 signature w = (.returned (.error (.external e)), w)) ∧
    (∀ pk, env.SigToPub (bigIntBytes newKey254) signature = .ok pk →
      proveRecovered env newKey254 signature w =
        (.panicked (.runtime .indexOutOfRange), w)) := by
  have hsplit : (splitSignature signature : Except (SigError E) (Nat × Nat)) =
      .ok (fromBigEndian (slice signature 0 32), fromBigEndian (slice signature 32 64)) := by
    simp [splitSignature, hlen]
  constructor
  · intro e he
    unfold proveRecovered
    rw [he]
  · intro pk hpk
    obtain ⟨r, hr⟩ := publicKeyToCircuitData_ok pk
    unfold proveRecovered
    rw [hpk]
    simp only [hr, hsplit, clientLoad_secp256k1]

/-- C8. `ProveSignatureSecp256k1` rejects every signature whose length is not 65 with
the invalid-signature-length error and every 65-byte signature whose last byte is neither
27 nor 28 with the invalid-recovery-id error, in both cases whatever the recovery, loading
and proving operations are and leaving the world state untouched.  On a 65-byte signature
ending in 27 (28) it runs the rest of the adapter on the signature with recovery byte 0
(1): public-key recovery is asked for that signature and for no other, an error of it is
what the adapter returns, and neither of the two validation errors is returned (once a
key is recovered, the call ends in the panic of
`clc.Load(circuits.Secp256k1AccountMetadata, 0)`, the metadata having no filename). -/
theorem secp256k1_validation {σ E F CC PP L : Type} (env : AdapterEnv σ E F CC PP L)
    (key newKey254 : Int) (signature : List Nat) (signatureType : String) (w : σ) :
    (signature.length ≠ 65 →
      ProveSignatureSecp256k1 env key newKey254 signature signatureType w =
        (.returned (.error .invalidSignatureLength), w)) ∧
    (signature.length = 65 → signature.getD 64 0 ≠ 27 → signature.getD 64 0 ≠ 28 →
      ProveSignatureSecp256k1 env key newKey254 signature signatureType w =
        (.returned (.error .invalidRecoveryId), w)) ∧
    (signature.length = 65 → signature.getD 64 0 = 27 →
      ProveSignatureSecp256k1 env key newKey254 signature signatureType w =
        proveRecovered env newKey254 (signature.set 64 0) w) ∧
    (signature.length = 65 → signature.getD 64 0 = 28 →
      ProveSignatureSecp256k1 env key newKey254 signature signatureType w =
        proveRecovered env newKey254 (signature.set 64 1) w) ∧
    (signature.length = 65 →
      ∀ v, (signature.getD 64 0 = 27 ∧ v = 0) ∨ (signature.getD 64 0 = 28 ∧ v = 1) →
        (∀ e, env.SigToPub (bigIntBytes newKey254) (signature.set 64 v) = .error e →
          ProveSignatureSecp256k1 env key newKey254 signature signatureType w =
            (.returned (.error (.external e)), w)) ∧
        (∀ pk, env.SigToPub (bigIntBytes newKey254) (signature.set 64 v) = .ok pk →
          ProveSignatureSecp256k1 env key newKey254 signature signatureType w =
            (.panicked (.runtime .indexOutOfRange), w)) ∧
        (∀ env2 : AdapterEnv σ E F CC PP L,
          env2.SigToPub (bigIntBytes newKey254) (signature.set 64 v) =
            env.SigToPub (bigIntBytes newKey254) (signature.set 64 v) →
          ProveSignatureSecp256k1 env2 key newKey254 signature signatureType w =
            ProveSignatureSecp256k1 env key newKey254 signature signatureType w)) ∧
    (signature.length = 65 → (signature.getD 64 0 = 27 ∨ signature.getD 64 0 = 28) →
      (ProveSignatureSecp256k1 env key newKey254 signature signatureType w).1 ≠
          .returned (.error .invalidSignatureLength) ∧
      (ProveSignatureSecp256k1 env key newKey254 signature signatureType w).1 ≠
          .returned (.error .invalidRecoveryId)) := by
  have h27 : ∀ env1 : AdapterEnv σ E F CC PP L, signature.length = 65 →
      signature.getD 64 0 = 27 →
      ProveSignatureSecp256k1 env1 key newKey254 signature signatureType w =
        proveRecovered env1 newKey254 (signature.set 64 0) w := by
    intro env1 hlen hv
    unfold ProveSignatureSecp256k1
    rw [if_neg (by simp [hlen]), if_neg (by rw [hv]; decide)]
    simp only [hv]
  have h28 : ∀ env1 : AdapterEnv σ E F CC PP L, signature.length = 65 →
      signature.getD 64 0 = 28 →
      ProveSignatureSecp256k1 env1 key newKey254 signature signatureType w =
        proveRecovered env1 newKey254 (signature.set 64 1) w := by
    intro env1 hlen hv
    unfold ProveSignatureSecp256k1
    rw [if_neg (by simp [hlen]), if_neg (by rw [hv]; decide)]
    simp only [hv]
  have hrun : ∀ env1 : AdapterEnv σ E F CC PP L, signature.length = 65 →
      ∀ v, (signature.getD 64 0 = 27 ∧ v = 0) ∨ (signature.getD 64 0 = 28 ∧ v = 1) →
      ProveSignatureSecp256k1 env1 key newKey254 signature signatureType w =
        proveRecovered env1 newKey254 (signature.set 64 v) w := by
    intro env1 hlen v hv
    rcases hv with ⟨h, rfl⟩ | ⟨h, rfl⟩
    · exact h27 env1 hlen h
    · exact h28 env1 hlen h
  have hout : signature.length = 65 →
      ∀ v, (signature.getD 64 0 = 27 ∧ v = 0) ∨ (signature.getD 64 0 = 28 ∧ v = 1) →
        (∀ e, env.SigToPub (bigIntBytes newKey254) (signature.set 64 v) = .error e →
          ProveSignatureSecp256k1 env key newKey254 signature signatureType w =
            (.returned (.error (.external e)), w)) ∧
        (∀ pk, env.SigToPub (bigIntBytes newKey254) (signature.set 64 v) = .ok pk →
          ProveSignatureSecp256k1 env key newKey254 signature signatureType w =
            (.panicked (.runtime .indexOutOfRange), w)) ∧
        (∀ env2 : AdapterEnv σ E F CC PP L,
          env2.SigToPub (bigIntBytes newKey254) (signature.set 64 v) =
            env.SigToPub (bigIntBytes newKey254) (signature.set 64 v) →
          ProveSignatureSecp256k1 env2 key newKey254 signature signatureType w =
            ProveSignatureSecp256k1 env key newKey254 signature signatureType w) := by
    intro hlen v hv
    have hl : (signature.set 64 v).length = 65 := by simp [hlen]
    have o1 := proveRecovered_outcome env newKey254 (signature.set 64 v) w hl
    refine ⟨?_, ?_, ?_⟩
    · intro e he
      rw [hrun env hlen v hv]
      exact o1.1 e he
    · intro pk hpk
      rw [hrun env hlen v hv]
      exact o1.2 pk hpk
    · intro env2 h2
      have o2 := proveRecovered_outcome env2 newKey254 (signature.set 64 v) w hl
      rw [hrun env hlen v hv, hrun env2 hlen v hv]
      cases hs : env.SigToPub (bigIntBytes newKey254) (signature.set 64 v) with
      | error e => rw [o1.1 e hs, o2.1 e (h2.trans hs)]
      | ok pk => rw [o1.2 pk hs, o2.2 pk (h2.trans hs)]
  refine ⟨?_, ?_, h27 env, h28 env, hout, ?_⟩
  · intro hlen
    simp [ProveSignatureSecp256k1, hlen]
  · intro hlen hv1 hv2
    unfold ProveSignatureSecp256k1
    rw [if_neg (by simp [hlen]), if_pos ⟨hv1, hv2⟩]
  · intro hlen hv
    obtain ⟨v, hv2⟩ : ∃ v, (signature.getD 64 0 = 27 ∧ v = 0) ∨
        (signature.getD 64 0 = 28 ∧ v = 1) := by
      rcases hv with h | h
      · exact ⟨0, Or.inl ⟨h, rfl⟩⟩
      · exact ⟨1, Or.inr ⟨h, rfl⟩⟩
    obtain ⟨o1, o2, _⟩ := hout hlen v hv2
    cases hs : env.SigToPub (bigIntBytes newKey254) (signature.set 64 v) with
    | error e =>
      rw [o1 e hs]
      constructor <;> intro hc <;> cases hc
    | ok pk =>
      rw [o2 pk hs]
      constructor <;> intro hc <;> cases hc

/-! ## The message handed to public-key recovery -/

theorem isBytes_natBytes (fuel : Nat) : ∀ n, IsBytes (natBytes fuel n) := by
  induction fuel with
  | zero =>
    intro n x hx
    cases hx
  | succ f ih =>
    intro n
    unfold natBytes
    split
    · intro x hx
      cases hx
    · rw [isBytes_append]
      refine ⟨ih _, ?_⟩
      intro x hx
      rw [List.mem_singleton] at hx
      rw [hx]
      exact Nat.mod_lt _ (by decide)

/-- The `w`-byte big-endian encoding is the minimal encoding behind zero bytes. -/
theorem bigEndian_natBytes (w : Nat) : ∀ n fuel, n < 256 ^ w → n < 256 ^ fuel →
    (natBytes fuel n).length ≤ w ∧
    bigEndian w n = List.replicate (w - (natBytes fuel n).length) 0 ++ natBytes fuel n := by
  induction w with
  | zero =>
    intro n fuel hn _
    have h0 : n = 0 := by simpa using hn
    subst h0
    cases fuel <;> simp [natBytes, bigEndian]
  | succ w ih =>
    intro n fuel hn hf
    by_cases h0 : n = 0
    · subst h0
      have e : natBytes fuel 0 = [] := by cases fuel <;> simp [natBytes]
      rw [e, bigEndian_zero]
      simp
    · cases fuel with
      | zero =>
        have h1 : n = 0 := by simpa using hf
        exact absurd h1 h0
      | succ f =>
        have hw : n / 256 < 256 ^ w := by
          rw [pow_succ] at hn
          exact Nat.div_lt_of_lt_mul (by rw [Nat.mul_comm]; exact hn)
        have hf2 : n / 256 < 256 ^ f := by
          rw [pow_succ] at hf
          exact Nat.div_lt_of_lt_mul (by rw [Nat.mul_comm]; exact hf)
        obtain ⟨i1, i2⟩ := ih (n / 256) f hw hf2
        have e : natBytes (f + 1) n = natBytes f (n / 256) ++ [n % 256] := by
          rw [natBytes, if_neg h0]
        rw [e, bigEndian, i2, List.length_append, List.length_singleton]
        refine ⟨by omega, ?_⟩
        have e2 : w + 1 - ((natBytes f (n / 256)).length + 1) =
            w - (natBytes f (n / 256)).length := by omega
        rw [e2, List.append_assoc]

theorem bigIntBytes_of_nonneg (k : Int) (hk0 : 0 ≤ k) :
    bigIntBytes k = natBytes k.toNat k.toNat := by
  unfold bigIntBytes
  have e : k.natAbs = k.toNat := by omega
  rw [e]

/-- The minimal encoding of a natural number below `256 ^ w`: at most `w` bytes, the
`w`-byte encoding without its leading zeros, and all of it from `256 ^ (w - 1)` on. -/
theorem bigIntBytes_bigEndian (w : Nat) (k : Int) (hk0 : 0 ≤ k) (hk : k.toNat < 256 ^ w) :
    (bigIntBytes k).length ≤ w ∧
    bigEndian w k.toNat = List.replicate (w - (bigIntBytes k).length) 0 ++ bigIntBytes k ∧
    (256 ^ (w - 1) ≤ k.toNat → 1 ≤ w → bigIntBytes k = bigEndian w k.toNat) := by
  rw [bigIntBytes_of_nonneg k hk0]
  obtain ⟨h1, h2⟩ := bigEndian_natBytes w k.toNat k.toNat hk (Nat.lt_pow_self (by decide) _)
  refine ⟨h1, h2, ?_⟩
  intro hge hw
  have hv : fromBigEndian (natBytes k.toNat k.toNat) = k.toNat := by
    have h3 := fromBigEndian_bigEndian_of_lt w k.toNat hk
    rw [h2, fromBigEndian_append, fromBigEndian_replicate_zero] at h3
    simpa using h3
  have hlt := fromBigEndian_lt _ (isBytes_natBytes k.toNat k.toNat)
  rw [hv] at hlt
  have hlen : w ≤ (natBytes k.toNat k.toNat).length := by
    by_contra hc
    have h4 : (natBytes k.toNat k.toNat).length ≤ w - 1 := by omega
    have h5 : 256 ^ (natBytes k.toNat k.toNat).length ≤ 256 ^ (w - 1) :=
      Nat.pow_le_pow_right (by decide) h4
    omega
  have e : w - (natBytes k.toNat k.toNat).length = 0 := by omega
  rw [h2, e]
  rfl

/-- On at most 32 bytes `BytesToHash` puts zero bytes in front, up to 32 bytes. -/
theorem BytesToHash_short (b : List Nat) (h : b.length ≤ 32) :
    BytesToHash b = List.replicate (32 - b.length) 0 ++ b := by
  have key := copyAt_mid (List.replicate (32 - b.length) 0) (List.replicate b.length 0) [] b
    (List.length_replicate _ _).symm
  have e2 : 32 - b.length + b.length = 32 := by omega
  rw [List.length_replicate, List.append_nil, List.append_nil, List.append_replicate_replicate,
    e2] at key
  unfold BytesToHash
  rw [if_neg (by omega)]
  exact key

/-- C24 does not hold of the code.  On a 65-byte signature ending in 27 or 28 and a key
`0 ≤ newKey254 < 2 ^ 254`, `ProveSignatureSecp256k1` calls public-key recovery on
`newKey254.Bytes()`, the encoding of minimal length, and on no other message: its result
is the same for any two recovery functions that agree on that message, and an error of
recovery on it is the error of the adapter, with nothing loaded or proved.  That message
is the 32-byte big-endian encoding without its leading zero bytes; it is the 32-byte
encoding only for `newKey254 ≥ 2 ^ 248`, and for `newKey254 < 2 ^ 248` it has at most 31
bytes, so that a recovery which rejects messages that are not 32 bytes long fails on every
such key.  The WebAuthn adapter encodes `common.BytesToHash(newKey254.Bytes())`, which is
the 32-byte encoding for every key. -/
theorem secp256k1_digest {σ E F CC PP L : Type} (env : AdapterEnv σ E F CC PP L)
    (key newKey254 : Int) (signature : List Nat) (signatureType : String) (w : σ)
    (hk0 : 0 ≤ newKey254) (hk : newKey254 < 2 ^ 254) (hlen : signature.length = 65)
    (hv : signature.getD 64 0 = 27 ∨ signature.getD 64 0 = 28) :
    (∀ env2 : AdapterEnv σ E F CC PP L,
      env2.SigToPub (bigIntBytes newKey254)
          (signature.set 64 ((signature.getD 64 0 + 256 - 27) % 256)) =
        env.SigToPub (bigIntBytes newKey254)
          (signature.set 64 ((signature.getD 64 0 + 256 - 27) % 256)) →
      ProveSignatureSecp256k1 env2 key newKey254 signature signatureType w =
        ProveSignatureSecp256k1 env key newKey254 signature signatureType w) ∧
    (∀ e, env.SigToPub (bigIntBytes newKey254)
          (signature.set 64 ((signature.getD 64 0 + 256 - 27) % 256)) = .error e →
      ProveSignatureSecp256k1 env key newKey254 signature signatureType w =
        (.returned (.error (.external e)), w)) ∧
    (bigIntBytes newKey254).length ≤ 32 ∧
    bigEndian 32 newKey254.toNat =
      List.replicate (32 - (bigIntBytes newKey254).length) 0 ++ bigIntBytes newKey254 ∧
    (2 ^ 248 ≤ newKey254 → bigIntBytes newKey254 = bigEndian 32 newKey254.toNat) ∧
    (newKey254 < 2 ^ 248 → (bigIntBytes newKey254).length ≤ 31 ∧
      bigIntBytes newKey254 ≠ bigEndian 32 newKey254.toNat ∧
      ((∀ msg sig, msg.length ≠ 32 → ∃ e, env.SigToPub msg sig = .error e) →
        ∃ e, ProveSignatureSecp256k1 env key newKey254 signature signatureType w =
          (.returned (.error (.external e)), w))) ∧
    challengeBytes newKey254 = bigEndian 32 newKey254.toNat := by
  have hrun : ∀ env1 : AdapterEnv σ E F CC PP L,
      ProveSignatureSecp256k1 env1 key newKey254 signature signatureType w =
        proveRecovered env1 newKey254
          (signature.set 64 ((signature.getD 64 0 + 256 - 27) % 256)) w := by
    intro env1
    unfold ProveSignatureSecp256k1
    rw [if_neg (by simp [hlen]), if_neg (by rcases hv with h | h <;> rw [h] <;> decide)]
  have hl : (signature.set 64 ((signature.getD 64 0 + 256 - 27) % 256)).length = 65 := by
    simp [hlen]
  have herr : ∀ e, env.SigToPub (bigIntBytes newKey254)
        (signature.set 64 ((signature.getD 64 0 + 256 - 27) % 256)) = .error e →
      ProveSignatureSecp256k1 env key newKey254 signature signatureType w =
        (.returned (.error (.external e)), w) := by
    intro e he
    rw [hrun]
    exact (proveRecovered_outcome env newKey254 _ w hl).1 e he
  have h32 : newKey254.toNat < 256 ^ 32 := by
    have e : (256 : Nat) ^ 32 = 2 ^ 256 := by norm_num
    have e2 : newKey254 < 2 ^ 256 := lt_trans hk (by norm_num)
    rw [e]
    omega
  obtain ⟨b1, b2, b3⟩ := bigIntBytes_bigEndian 32 newKey254 hk0 h32
  refine ⟨?_, herr, b1, b2, ?_, ?_, ?_⟩
  · intro env2 hS
    have o1 := proveRecovered_outcome env newKey254 _ w hl
    have o2 := proveRecovered_outcome env2 newKey254 _ w hl
    rw [hrun, hrun]
    cases hs : env.SigToPub (bigIntBytes newKey254)
        (signature.set 64 ((signature.getD 64 0 + 256 - 27) % 256)) with
    | error e => rw [o1.1 e hs, o2.1 e (hS.trans hs)]
    | ok pk => rw [o1.2 pk hs, o2.2 pk (hS.trans hs)]
  · intro hge
    refine b3 ?_ (by decide)
    have e : (256 : Nat) ^ (32 - 1) = 2 ^ 248 := by norm_num
    rw [e]
    omega
  · intro hlt
    have h31 : newKey254.toNat < 256 ^ 31 := by
      have e : (256 : Nat) ^ 31 = 2 ^ 248 := by norm_num
      rw [e]
      omega
    have c1 := (bigIntBytes_bigEndian 31 newKey254 hk0 h31).1
    have hne : bigIntBytes newKey254 ≠ bigEndian 32 newKey254.toNat := by
      intro h
      have hl := congrArg List.length h
      rw [bigEndian_length] at hl
      omega
    refine ⟨c1, hne, ?_⟩
    intro hrej
    obtain ⟨e, he⟩ := hrej (bigIntBytes newKey254)
      (signature.set 64 ((signature.getD 64 0 + 256 - 27) % 256)) (by omega)
    exact ⟨e, herr e he⟩
  · unfold challengeBytes
    rw [BytesToHash_short _ b1, ← b2]

end signatures

namespace proving

section ProveTheorems

variable {E Ccs Pk Vk W PW P PO VO : Type}

/-- C9. Whatever the backend's operations do, `Prove` returns a proof without error
exactly when the witness has a public part, that proof is the one the backend produced
from constraint system, proving key and full witness, and the backend's verification of
it against the compiled verifying key and the public part succeeded; and when the
verification fails, `Prove` returns that error and no proof. -/
theorem Prove_verified (bk : Backend E Ccs Pk Vk W PW P PO VO)
    (c : CompiledCircuit Ccs Pk Vk) (wit : W) (field outer : Int) :
    (∀ proof, Prove bk c wit field outer = .ok proof ↔
      ∃ publicWitness, bk.Public wit = .ok publicWitness ∧
        bk.Prove c.Ccs c.Pk wit (proverOptions bk field outer) = .ok proof ∧
        bk.Verify proof c.Vk publicWitness (verifierOptions bk field outer) = none) ∧
    (∀ publicWitness proof err, bk.Public wit = .ok publicWitness →
      bk.Prove c.Ccs c.Pk wit (proverOptions bk field outer) = .ok proof →
      bk.Verify proof c.Vk publicWitness (verifierOptions bk field outer) = some err →
      Prove bk c wit field outer = .error err) := by
  constructor
  · intro proof
    cases hp : bk.Public wit with
    | error e => simp [Prove, hp]
    | ok pw =>
      cases hq : bk.Prove c.Ccs c.Pk wit (proverOptions bk field outer) with
      | error e => simp [Prove, hp, hq]
      | ok pr =>
        cases hv : bk.Verify pr c.Vk pw (verifierOptions bk field outer) with
        | some e =>
          simp only [Prove, hp, hq, hv, Except.ok.injEq, exists_eq_left', false_iff, not_and,
            reduceCtorEq]
          intro h
          subst h
          simp [hv]
        | none =>
          simp only [Prove, hp, hq, hv, Except.ok.injEq, exists_eq_left']
          constructor
          · intro h
            subst h
            exact ⟨rfl, hv⟩
          · intro h
            exact h.1
  · intro pw proof err hp hq hv
    simp [Prove, hp, hq, hv]

end ProveTheorems

section LoaderTheorems

variable {σ E Ccs Pk Vk W PW P PO VO : Type}

/-- A load of a cached name returns the cached circuit and leaves store and cache as they
were. -/
theorem load_hit (env : LoadEnv σ E Ccs Pk Vk) (p : LockingCircuitLoader σ Ccs Pk Vk)
    (name : String) (field : Int) (c : CompiledCircuit Ccs Pk Vk)
    (h : p.loaded name = some c) :
    (LockingCircuitLoader.load env p name field).1 = .ok c ∧
    (LockingCircuitLoader.load env p name field).2.store = p.store ∧
    (LockingCircuitLoader.load env p name field).2.loaded = p.loaded := by
  unfold LockingCircuitLoader.load
  by_cases hl : p.locks name = false
  · simp [hl, h]
  · simp [hl, h]

/-- A successful load leaves the returned circuit in the cache. -/
theorem load_ok_loaded (env : LoadEnv σ E Ccs Pk Vk) (p p1 : LockingCircuitLoader σ Ccs Pk Vk)
    (name : String) (field : Int) (c : CompiledCircuit Ccs Pk Vk)
    (h : LockingCircuitLoader.load env p name field = (.ok c, p1)) :
    p1.loaded name = some c := by
  unfold LockingCircuitLoader.load at h
  by_cases hl : p.locks name = false
  · simp only [hl, if_true] at h
    split at h
    · rename_i c0 hc
      simp only [Prod.mk.injEq, Except.ok.injEq] at h
      obtain ⟨h1, h2⟩ := h
      subst h1 h2
      exact hc
    · split at h
      · simp at h
      · simp only [Prod.mk.injEq, Except.ok.injEq] at h
        obtain ⟨h1, h2⟩ := h
        subst h1 h2
        simp
  · simp only [hl, if_false] at h
    split at h
    · rename_i c0 hc
      simp only [Prod.mk.injEq, Except.ok.injEq] at h
      obtain ⟨h1, h2⟩ := h
      subst h1 h2
      exact hc
    · split at h
      · simp at h
      · simp only [Prod.mk.injEq, Except.ok.injEq] at h
        obtain ⟨h1, h2⟩ := h
        subst h1 h2
        simp

/-- A load, of any name, keeps every cached entry. -/
theorem load_keeps (env : LoadEnv σ E Ccs Pk Vk) (p : LockingCircuitLoader σ Ccs Pk Vk)
    (name : String) (field : Int) (n : String) (c : CompiledCircuit Ccs Pk Vk)
    (h : p.loaded n = some c) :
    (LockingCircuitLoader.load env p name field).2.loaded n = some c := by
  by_cases hn : name = n
  · subst hn
    rw [(load_hit env p name field c h).2.2]
    exact h
  · have hn2 : ¬ n = name := fun hc => hn hc.symm
    unfold LockingCircuitLoader.load
    by_cases hl : p.locks name = false
    · simp only [hl, if_true]
      split
      · exact h
      · split
        · exact h
        · simp [hn2, h]
    · simp only [hl, if_false]
      split
      · exact h
      · split
        · exact h
        · simp [hn2, h]

/-- A call to the loader keeps every cached entry. -/
theorem step_keeps (env : LoadEnv σ E Ccs Pk Vk) (bk : Backend E Ccs Pk Vk W PW P PO VO)
    (p : LockingCircuitLoader σ Ccs Pk Vk) (r : Request) (n : String)
    (c : CompiledCircuit Ccs Pk Vk) (h : p.loaded n = some c) :
    (step env bk p r).loaded n = some c := by
  cases r with
  | Load filename field =>
    have hk := load_keeps env p filename field n c h
    simp only [step, LockingCircuitLoader.Load]
    split
    · rename_i heq
      rw [heq] at hk
      exact hk
    · rename_i heq
      rw [heq] at hk
      exact hk
  | LoadAndProve filename field outer wit =>
    have hk := load_keeps env p filename field n c h
    simp only [step, LockingCircuitLoader.LoadAndProve]
    split
    · exact h
    · split
      · exact h
      · split
        · rename_i heq
          rw [heq] at hk
          exact hk
        · rename_i heq
          rw [heq] at hk
          split
          · exact hk
          · split
            · exact hk
            · exact hk

/-- A sequential run keeps every cached entry. -/
theorem run_keeps (env : LoadEnv σ E Ccs Pk Vk) (bk : Backend E Ccs Pk Vk W PW P PO VO)
    (reqs : List Request) (p : LockingCircuitLoader σ Ccs Pk Vk) (n : String)
    (c : CompiledCircuit Ccs Pk Vk) (h : p.loaded n = some c) :
    (run env bk p reqs).loaded n = some c := by
  induction reqs generalizing p with
  | nil => exact h
  | cons r rs ih =>
    simp only [run, List.foldl_cons]
    exact ih (step env bk p r) (step_keeps env bk p r n c h)

/-- C10. In a sequential run of the circuit cache, once a load of `name` has succeeded
with circuit `c`, then after any further calls the cache still holds `c` for `name`, and a
later load of `name` (with any field) returns `c`, through `load` and through `Load` with
the same constraint system, proving key and verifying key, without any read of the blob
store and without changing the cache. -/
theorem load_once_cached (env : LoadEnv σ E Ccs Pk Vk)
    (bk : Backend E Ccs Pk Vk W PW P PO VO) (p p1 : LockingCircuitLoader σ Ccs Pk Vk)
    (name : String) (field : Int) (c : CompiledCircuit Ccs Pk Vk)
    (h : LockingCircuitLoader.load env p name field = (.ok c, p1))
    (reqs : List Request) (field2 : Int) :
    (run env bk p1 reqs).loaded name = some c ∧
    (LockingCircuitLoader.load env (run env bk p1 reqs) name field2).1 = .ok c ∧
    (LockingCircuitLoader.load env (run env bk p1 reqs) name field2).2.store =
      (run env bk p1 reqs).store ∧
    (LockingCircuitLoader.load env (run env bk p1 reqs) name field2).2.loaded =
      (run env bk p1 reqs).loaded ∧
    (LockingCircuitLoader.Load env (run env bk p1 reqs) name field2).1.Err = none ∧
    (LockingCircuitLoader.Load env (run env bk p1 reqs) name field2).1.Circuit =
      some { Ccs := c.Ccs, Pk := c.Pk, Vk := c.Vk } ∧
    (LockingCircuitLoader.Load env (run env bk p1 reqs) name field2).2.store =
      (run env bk p1 reqs).store ∧
    (LockingCircuitLoader.Load env (run env bk p1 reqs) name field2).2.loaded =
      (run env bk p1 reqs).loaded := by
  have h1 : p1.loaded name = some c := load_ok_loaded env p p1 name field c h
  have h2 := run_keeps env bk reqs p1 name c h1
  obtain ⟨ha, hb, hc⟩ := load_hit env (run env bk p1 reqs) name field2 c h2
  refine ⟨h2, ha, hb, hc, ?_, ?_, ?_, ?_⟩
  all_goals
    unfold LockingCircuitLoader.Load
    split
    · rename_i heq
      rw [heq] at ha
      simp at ha
    · rename_i heq
      simp only [heq, Except.ok.injEq] at ha hb hc
      first
        | rfl
        | (subst ha; rfl)
        | exact hb
        | exact hc

/-! ### Failed loads and unsupported fields -/

/-- Loading one artifact asks the store for its key exactly once, whatever the outcome. -/
theorem loadArtifact_reads {T : Type} (env : LoadEnv σ E Ccs Pk Vk) (key : String)
    (buffer : Bool) (readFrom : ReadCloser E → Except E T) (w : World σ) :
    (loadArtifact env key buffer readFrom w).2.reads = w.reads ++ [key] := by
  have h : (loadArtifact env key buffer readFrom w).2 = (storeReader env key w).2 := by
    unfold loadArtifact
    rcases storeReader env key w with ⟨r, w1⟩
    cases r with
    | error e => rfl
    | ok reader =>
      simp only
      repeat' split
      all_goals rfl
  rw [h]
  rfl

/-- With a supported field, `Load` first asks the store for `filename.vk`. -/
theorem Load_reads_vk_first (env : LoadEnv σ E Ccs Pk Vk) (filename : String) (field : Int)
    (onlyVk : Bool) (w : World σ) (curve : Curve) (hc : curveOf field = some curve) :
    ∃ rest, (Load env filename field onlyVk w).2.reads =
      w.reads ++ (filename ++ "." ++ "vk") :: rest := by
  have h1 := loadArtifact_reads env (filename ++ "." ++ "vk") false (env.vkReadFrom curve) w
  unfold Load
  rw [hc]
  simp only
  rcases hv : loadArtifact env (filename ++ "." ++ "vk") false (env.vkReadFrom curve) w with
    ⟨r1, w1⟩
  rw [hv] at h1
  simp only at h1
  cases r1 with
  | error e => exact ⟨[], by simp [h1]⟩
  | ok vk =>
    simp only
    cases onlyVk with
    | true => exact ⟨[], by simp [h1]⟩
    | false =>
      have h2 := loadArtifact_reads env (filename ++ "." ++ "pk") false (env.pkReadFrom curve) w1
      simp only [Bool.false_eq_true, if_false]
      rcases hp : loadArtifact env (filename ++ "." ++ "pk") false (env.pkReadFrom curve) w1
        with ⟨r2, w2⟩
      rw [hp] at h2
      simp only at h2
      cases r2 with
      | error e => exact ⟨[filename ++ "." ++ "pk"], by simp [h2, h1]⟩
      | ok pk =>
        have h3 :=
          loadArtifact_reads env (filename ++ "." ++ "ccs") true (env.ccsReadFrom curve) w2
        simp only
        rcases hq : loadArtifact env (filename ++ "." ++ "ccs") true (env.ccsReadFrom curve) w2
          with ⟨r3, w3⟩
        rw [hq] at h3
        simp only at h3
        cases r3 with
        | error e =>
          exact ⟨[filename ++ "." ++ "pk", filename ++ "." ++ "ccs"], by simp [h3, h2, h1]⟩
        | ok ccs =>
          exact ⟨[filename ++ "." ++ "pk", filename ++ "." ++ "ccs"], by simp [h3, h2, h1]⟩

/-- A load of a name that is not cached is the `Load` of its artifacts: same error, same
store afterwards, and on an error the cache as it was. -/
theorem load_miss_error (env : LoadEnv σ E Ccs Pk Vk) (p : LockingCircuitLoader σ Ccs Pk Vk)
    (name : String) (field : Int) (hnone : p.loaded name = none) (err : LoadError E)
    (h : (Load env name field false p.store).1 = .error err) :
    (LockingCircuitLoader.load env p name field).1 = .error err ∧
    (LockingCircuitLoader.load env p name field).2.loaded = p.loaded ∧
    (LockingCircuitLoader.load env p name field).2.store =
      (Load env name field false p.store).2 := by
  unfold LockingCircuitLoader.load
  rcases hL : Load env name field false p.store with ⟨r, w⟩
  rw [hL] at h
  simp only at h
  subst h
  by_cases hl : p.locks name = false
  · simp [hl, hnone, hL]
  · simp [hl, hnone, hL]

/-- A load of a name that is not cached returns what `Load` returns, as a compiled
circuit, and leaves the store as `Load` leaves it. -/
theorem load_miss (env : LoadEnv σ E Ccs Pk Vk) (p : LockingCircuitLoader σ Ccs Pk Vk)
    (name : String) (field : Int) (hnone : p.loaded name = none) :
    (LockingCircuitLoader.load env p name field).1 =
      (Load env name field false p.store).1.map
        (fun t => { Ccs := t.1, Pk := t.2.1, Vk := t.2.2 }) ∧
    (LockingCircuitLoader.load env p name field).2.store =
      (Load env name field false p.store).2 := by
  unfold LockingCircuitLoader.load
  rcases hL : Load env name field false p.store with ⟨r, w⟩
  by_cases hl : p.locks name = false
  · cases r with
    | error e => simp [hl, hnone, hL, Except.map]
    | ok t => simp [hl, hnone, hL, Except.map]
  · cases r with
    | error e => simp [hl, hnone, hL, Except.map]
    | ok t => simp [hl, hnone, hL, Except.map]

/-- A load that returns an error was of a name that is not cached. -/
theorem load_error_uncached (env : LoadEnv σ E Ccs Pk Vk)
    (p : LockingCircuitLoader σ Ccs Pk Vk) (name : String) (field : Int) (err : LoadError E)
    (h : (LockingCircuitLoader.load env p name field).1 = .error err) :
    p.loaded name = none := by
  cases hc : p.loaded name with
  | none => rfl
  | some c =>
    rw [(load_hit env p name field c hc).1] at h
    cases h

/-- A load of a name that is not cached, with a supported field, first asks the store for
`name.vk`. -/
theorem load_miss_reads (env : LoadEnv σ E Ccs Pk Vk) (p : LockingCircuitLoader σ Ccs Pk Vk)
    (name : String) (field : Int) (curve : Curve) (hnone : p.loaded name = none)
    (hc : curveOf field = some curve) :
    ∃ rest, (LockingCircuitLoader.load env p name field).2.store.reads =
      p.store.reads ++ (name ++ "." ++ "vk") :: rest := by
  obtain ⟨rest, hr⟩ := Load_reads_vk_first env name field false p.store curve hc
  refine ⟨rest, ?_⟩
  rw [← hr]
  unfold LockingCircuitLoader.load
  rcases hL : Load env name field false p.store with ⟨r, w⟩
  by_cases hl : p.locks name = false
  · cases r with
    | error e => simp [hl, hnone, hL]
    | ok t => simp [hl, hnone, hL]
  · cases r with
    | error e => simp [hl, hnone, hL]
    | ok t => simp [hl, hnone, hL]

/-- C11. For a load of a name that is not cached: an error of the store when it is asked
for a key, an error reading a buffered blob and an error of a decoder are each the error of
that artifact; the error of the first of `name.vk`, `name.pk`, `name.ccs` that fails is the
error of `Load`; `load` returns that error and leaves the cache map exactly as it was; and
the next load of the same name with a supported field asks the store again, starting with
`name.vk`. -/
theorem load_failure_retries (env : LoadEnv σ E Ccs Pk Vk)
    (p : LockingCircuitLoader σ Ccs Pk Vk) (name : String) (field : Int)
    (hnone : p.loaded name = none) :
    (∀ (T : Type) (key : String) (buffer : Bool) (readFrom : ReadCloser E → Except E T)
        (w : World σ) (e : E),
      ((env.Reader key w.store).1 = .error e →
        (loadArtifact env key buffer readFrom w).1 = .error (.external e)) ∧
      (∀ r, (env.Reader key w.store).1 = .ok r → buffer = true → r.contents = .error e →
        (loadArtifact env key buffer readFrom w).1 = .error (.external e)) ∧
      (∀ r c, (env.Reader key w.store).1 = .ok r → buffer = true → r.contents = .ok c →
        r.closeResult = none → readFrom { contents := .ok c, closeResult := none } = .error e →
        (loadArtifact env key buffer readFrom w).1 = .error (.external e)) ∧
      (∀ r, (env.Reader key w.store).1 = .ok r → buffer = false → readFrom r = .error e →
        (loadArtifact env key buffer readFrom w).1 = .error (.external e))) ∧
    (∀ curve, curveOf field = some curve →
      (∀ err,
        (loadArtifact env (name ++ "." ++ "vk") false (env.vkReadFrom curve) p.store).1 =
          .error err →
        (Load env name field false p.store).1 = .error err) ∧
      (∀ vk err,
        (loadArtifact env (name ++ "." ++ "vk") false (env.vkReadFrom curve) p.store).1 =
          .ok vk →
        (loadArtifact env (name ++ "." ++ "pk") false (env.pkReadFrom curve)
          (loadArtifact env (name ++ "." ++ "vk") false (env.vkReadFrom curve) p.store).2).1 =
          .error err →
        (Load env name field false p.store).1 = .error err) ∧
      (∀ vk pk err,
        (loadArtifact env (name ++ "." ++ "vk") false (env.vkReadFrom curve) p.store).1 =
          .ok vk →
        (loadArtifact env (name ++ "." ++ "pk") false (env.pkReadFrom curve)
          (loadArtifact env (name ++ "." ++ "vk") false (env.vkReadFrom curve) p.store).2).1 =
          .ok pk →
        (loadArtifact env (name ++ "." ++ "ccs") true (env.ccsReadFrom curve)
          (loadArtifact env (name ++ "." ++ "pk") false (env.pkReadFrom curve)
            (loadArtifact env (name ++ "." ++ "vk") false (env.vkReadFrom curve)
              p.store).2).2).1 = .error err →
        (Load env name field false p.store).1 = .error err)) ∧
    (∀ err, (Load env name field false p.store).1 = .error err →
      (LockingCircuitLoader.load env p name field).1 = .error err ∧
      (LockingCircuitLoader.load env p name field).2.loaded = p.loaded) ∧
    (∀ err, (LockingCircuitLoader.load env p name field).1 = .error err →
      ∀ field2 curve2, curveOf field2 = some curve2 →
        ∃ rest,
          (LockingCircuitLoader.load env (LockingCircuitLoader.load env p name field).2 name
            field2).2.store.reads =
          (LockingCircuitLoader.load env p name field).2.store.reads ++
            (name ++ "." ++ "vk") :: rest) := by
  refine ⟨?_, ?_, ?_, ?_⟩
  · intro T key buffer readFrom w e
    refine ⟨?_, ?_, ?_, ?_⟩
    · intro h
      simp [loadArtifact, storeReader, h]
    · intro r h hb hcont
      simp [loadArtifact, storeReader, h, hb, hcont]
    · intro r c h hb hcont hclose hread
      simp [loadArtifact, storeReader, h, hb, hcont, hclose, hread]
    · intro r h hb hread
      simp [loadArtifact, storeReader, h, hb, hread]
  · intro curve hc
    refine ⟨?_, ?_, ?_⟩
    · intro err h1
      unfold Load
      rw [hc]
      rcases hv : loadArtifact env (name ++ "." ++ "vk") false (env.vkReadFrom curve) p.store
        with ⟨r1, w1⟩
      rw [hv] at h1
      simp only at h1
      subst h1
      simp [hv]
    · intro vk err h1 h2
      unfold Load
      rw [hc]
      rcases hv : loadArtifact env (name ++ "." ++ "vk") false (env.vkReadFrom curve) p.store
        with ⟨r1, w1⟩
      rw [hv] at h1 h2
      simp only at h1 h2
      subst h1
      rcases hp : loadArtifact env (name ++ "." ++ "pk") false (env.pkReadFrom curve) w1
        with ⟨r2, w2⟩
      rw [hp] at h2
      simp only at h2
      subst h2
      simp [hv, hp]
    · intro vk pk err h1 h2 h3
      unfold Load
      rw [hc]
      rcases hv : loadArtifact env (name ++ "." ++ "vk") false (env.vkReadFrom curve) p.store
        with ⟨r1, w1⟩
      rw [hv] at h1 h2 h3
      simp only at h1 h2 h3
      subst h1
      rcases hp : loadArtifact env (name ++ "." ++ "pk") false (env.pkReadFrom curve) w1
        with ⟨r2, w2⟩
      rw [hp] at h2 h3
      simp only at h2 h3
      subst h2
      rcases hq : loadArtifact env (name ++ "." ++ "ccs") true (env.ccsReadFrom curve) w2
        with ⟨r3, w3⟩
      rw [hq] at h3
      simp only at h3
      subst h3
      simp [hv, hp, hq]
  · intro err h
    exact ⟨(load_miss_error env p name field hnone err h).1,
      (load_miss_error env p name field hnone err h).2.1⟩
  · intro err h field2 curve2 hc2
    have hL : (Load env name field false p.store).1 = .error err := by
      rw [(load_miss env p name field hnone).1] at h
      cases hr : (Load env name field false p.store).1 with
      | error e =>
        rw [hr] at h
        simpa [Except.map] using h
      | ok t =>
        rw [hr] at h
        simp [Except.map] at h
    have hkeep := (load_miss_error env p name field hnone err hL).2.1
    have hnone1 : (LockingCircuitLoader.load env p name field).2.loaded name = none := by
      rw [hkeep]
      exact hnone
    exact load_miss_reads env _ name field2 curve2 hnone1 hc2

/-- C12, as amended.  A load with a scalar field that is none of BLS12-377, BN254 and
BW6-761 performs no blob-store read and leaves the cache as it was; it returns the
unsupported-field error when the name is not cached, and the cached circuit when it is. -/
theorem unsupported_field_load (env : LoadEnv σ E Ccs Pk Vk)
    (p : LockingCircuitLoader σ Ccs Pk Vk) (name : String) (field : Int)
    (h1 : field ≠ bls12377ScalarField) (h2 : field ≠ bn254ScalarField)
    (h3 : field ≠ bw6761ScalarField) :
    (p.loaded name = none →
      (LockingCircuitLoader.load env p name field).1 = .error .unsupportedField) ∧
    (∀ c, p.loaded name = some c → (LockingCircuitLoader.load env p name field).1 = .ok c) ∧
    (LockingCircuitLoader.load env p name field).2.store = p.store ∧
    (LockingCircuitLoader.load env p name field).2.loaded = p.loaded := by
  have hcurve : curveOf field = none := by simp [curveOf, h1, h2, h3]
  have hL : Load env name field false p.store = (.error .unsupportedField, p.store) := by
    simp [Load, hcurve]
  cases hc : p.loaded name with
  | some c =>
    obtain ⟨ha, hb, hd⟩ := load_hit env p name field c hc
    refine ⟨?_, ?_, hb, hd⟩
    · intro h
      cases h
    · intro c2 h
      cases h
      exact ha
  | none =>
    obtain ⟨ha, hb, hd⟩ :=
      load_miss_error env p name field hc .unsupportedField (by rw [hL])
    refine ⟨fun _ => ha, ?_, ?_, hb⟩
    · intro c h
      cases h
    · rw [hd, hL]

end LoaderTheorems

/-! ## Runtime faults and concurrent loads -/

section FaultTheorems

variable {σ E F A Ccs Pk Vk W PW P PO VO : Type}

/-- On a backend that never panics, `ProveRun` returns what `Prove` returns. -/
theorem ProveRun_no_fault (bk : Backend E Ccs Pk Vk W PW P PO VO)
    (bf : BackendFaults F Ccs Pk Vk W PW P PO VO) (c : CompiledCircuit Ccs Pk Vk) (wit : W)
    (field outer : Int) (hp : ∀ ccs pk w o, bf.ProveFault ccs pk w o = none)
    (hv : ∀ p vk pw o, bf.VerifyFault p vk pw o = none) :
    ProveRun bk bf c wit field outer = .returned (Prove bk c wit field outer) := by
  unfold ProveRun Prove
  simp only [hp, hv]
  repeat' split
  all_goals rfl

/-- A panic of `plonk.Prove` is a panic of `Prove`. -/
theorem ProveRun_fault (bk : Backend E Ccs Pk Vk W PW P PO VO)
    (bf : BackendFaults F Ccs Pk Vk W PW P PO VO) (c : CompiledCircuit Ccs Pk Vk) (wit : W)
    (field outer : Int) (pw : PW) (v : F) (h5 : bk.Public wit = .ok pw)
    (h6 : bf.ProveFault c.Ccs c.Pk wit (proverOptions bk field outer) = some v) :
    ProveRun bk bf c wit field outer = .panicked (.backend v) := by
  unfold ProveRun
  simp only [h5, h6]

/-- The deferred `recover` leaves no panic of the calling goroutine. -/
theorem recoverToError_not_panicked {α : Type} (stack : String)
    (r : Run F (Except (EntryError E F) α)) (v : PanicValue F) :
    recoverToError stack r ≠ .panicked v := by
  cases r <;> simp [recoverToError]

/-- C19 does not hold of the code.  When `plonk.Prove` panics with a value `v` on the
witness of an assignment (witness creation and decoding succeeding), the panic is raised in
the goroutine started by `ProveAsync`, respectively `LockingCircuitLoader.LoadAndProve`,
where nothing recovers it: `ProveAssignment` and `CircuitLoaderClient.LoadAndProve` (for a
filename whose load succeeds with the circuit) end with the program crashed by `v` and
return no error.  The deferred `recover` of the two entry points only converts panics of
their own goroutine, so neither ever ends in a panic of the caller. -/
theorem backend_fault_escapes (fe : Frontend E A W P) (bk : Backend E Ccs Pk Vk W PW P PO VO)
    (bf : BackendFaults F Ccs Pk Vk W PW P PO VO) (cm : circuits.Metadata)
    (compiled : CompiledCircuit Ccs Pk Vk) (assignment : A) (w w1 w2 : W) (wit : List Nat)
    (pw : PW) (v : F)
    (h1 : fe.NewWitness assignment cm.Field = .ok w) (h2 : fe.MarshalBinary w = .ok wit)
    (h3 : bk.NewWitness cm.Field = .ok w1) (h4 : bk.UnmarshalBinary w1 wit = .ok w2)
    (h5 : bk.Public w2 = .ok pw)
    (h6 : bf.ProveFault compiled.Ccs compiled.Pk w2 (proverOptions bk cm.Field cm.Outer) =
      some v) :
    ProveAssignment fe bk bf cm compiled assignment = .crashed (.backend v) ∧
    (∀ e, ProveAssignment fe bk bf cm compiled assignment ≠ .returned (.error e)) ∧
    (∀ (env : LoadEnv σ E Ccs Pk Vk) (p p1 : LockingCircuitLoader σ Ccs Pk Vk) (txCount : Int)
        (filename : String),
      cm.Filename ((if !cm.MultiTx then 1 else txCount) - 1) = .ok filename →
      LockingCircuitLoader.load env p filename cm.Field = (.ok compiled, p1) →
      (CircuitLoaderClient.LoadAndProve fe env bk bf p cm txCount assignment).1 =
        .crashed (.backend v)) ∧
    (∀ u, ProveAssignment fe bk bf cm compiled assignment ≠ .panicked u) ∧
    (∀ (env : LoadEnv σ E Ccs Pk Vk) (p : LockingCircuitLoader σ Ccs Pk Vk) (txCount : Int) u,
      (CircuitLoaderClient.LoadAndProve fe env bk bf p cm txCount assignment).1 ≠
        .panicked u) := by
  have hrun := ProveRun_fault bk bf compiled w2 cm.Field cm.Outer pw v h5 h6
  have hA : ProveAssignment fe bk bf cm compiled assignment = .crashed (.backend v) := by
    unfold ProveAssignment proveAssignment ProveAsync proveAsyncBody
    simp only [h1, h2, h3, h4, hrun]
    rfl
  refine ⟨hA, ?_, ?_, ?_, ?_⟩
  · intro e
    rw [hA]
    intro h
    cases h
  · intro env p p1 txCount filename hf hl
    unfold CircuitLoaderClient.LoadAndProve CircuitLoaderClient.loadAndProve
      LockingCircuitLoader.loadAndProveBody
    simp only [h1, h2, h3, h4, hf, hl, hrun]
    rfl
  · intro u
    exact recoverToError_not_panicked _ _ u
  · intro env p txCount u
    exact recoverToError_not_panicked _ _ u

end FaultTheorems

section ConcurrentTheorems

variable {σ E Ccs Pk Vk : Type}

/-- The two critical sections, one after the other, are `load`. -/
theorem load_eq_sections (env : LoadEnv σ E Ccs Pk Vk) (p : LockingCircuitLoader σ Ccs Pk Vk)
    (filename : String) (field : Int) :
    LockingCircuitLoader.load env p filename field =
      LockingCircuitLoader.loadLocked env (p.ensureLock filename) filename field := rfl

/-- A successful `Load` of all artifacts asks the store for the three keys, in the order
`vk`, `pk`, `ccs`, and for nothing else. -/
theorem Load_ok_reads (env : LoadEnv σ E Ccs Pk Vk) (filename : String) (field : Int)
    (w w1 : World σ) (t : Ccs × Pk × Vk)
    (h : Load env filename field false w = (.ok t, w1)) :
    w1.reads = w.reads ++
      [filename ++ "." ++ "vk", filename ++ "." ++ "pk", filename ++ "." ++ "ccs"] := by
  unfold Load at h
  cases hc : curveOf field with
  | none =>
    rw [hc] at h
    simp only [Prod.mk.injEq] at h
    cases h.1
  | some curve =>
    rw [hc] at h
    simp only at h
    have h1 := loadArtifact_reads env (filename ++ "." ++ "vk") false (env.vkReadFrom curve) w
    rcases hv : loadArtifact env (filename ++ "." ++ "vk") false (env.vkReadFrom curve) w with
      ⟨r1, w2⟩
    rw [hv] at h h1
    cases r1 with
    | error e =>
      simp only [Prod.mk.injEq] at h
      cases h.1
    | ok vk =>
      simp only [Bool.false_eq_true, if_false] at h h1
      have h2 :=
        loadArtifact_reads env (filename ++ "." ++ "pk") false (env.pkReadFrom curve) w2
      rcases hp : loadArtifact env (filename ++ "." ++ "pk") false (env.pkReadFrom curve) w2
        with ⟨r2, w3⟩
      rw [hp] at h h2
      cases r2 with
      | error e =>
        simp only [Prod.mk.injEq] at h
        cases h.1
      | ok pk =>
        simp only at h h2
        have h3 :=
          loadArtifact_reads env (filename ++ "." ++ "ccs") true (env.ccsReadFrom curve) w3
        rcases hq : loadArtifact env (filename ++ "." ++ "ccs") true (env.ccsReadFrom curve) w3
          with ⟨r3, w4⟩
        rw [hq] at h h3
        cases r3 with
        | error e =>
          simp only [Prod.mk.injEq] at h
          cases h.1
        | ok ccs =>
          simp only [Prod.mk.injEq] at h h3
          rw [← h.2, h3, h2, h1]
          simp

theorem ensureLock_loaded (p : LockingCircuitLoader σ Ccs Pk Vk) (filename : String) :
    (p.ensureLock filename).loaded = p.loaded ∧ (p.ensureLock filename).store = p.store := by
  unfold LockingCircuitLoader.ensureLock
  split <;> exact ⟨rfl, rfl⟩

theorem loadLocked_hit (env : LoadEnv σ E Ccs Pk Vk) (p : LockingCircuitLoader σ Ccs Pk Vk)
    (filename : String) (field : Int) (c : CompiledCircuit Ccs Pk Vk)
    (h : p.loaded filename = some c) :
    LockingCircuitLoader.loadLocked env p filename field = (.ok c, p) := by
  unfold LockingCircuitLoader.loadLocked
  rw [h]

theorem loadLocked_miss (env : LoadEnv σ E Ccs Pk Vk) (p : LockingCircuitLoader σ Ccs Pk Vk)
    (filename : String) (field : Int) (ccs : Ccs) (pk : Pk) (vk : Vk) (w1 : World σ)
    (h : p.loaded filename = none)
    (hload : Load env filename field false p.store = (.ok (ccs, pk, vk), w1)) :
    (LockingCircuitLoader.loadLocked env p filename field).1 =
      .ok { Ccs := ccs, Pk := pk, Vk := vk } ∧
    (LockingCircuitLoader.loadLocked env p filename field).2.store = w1 ∧
    (LockingCircuitLoader.loadLocked env p filename field).2.loaded filename =
      some { Ccs := ccs, Pk := pk, Vk := vk } := by
  unfold LockingCircuitLoader.loadLocked
  rw [h]
  simp [hload]

/-- A mutex whose holders are the goroutines that satisfy `P`, when the goroutine that
moves neither takes nor releases it. -/
theorem holders_same (P : Pc E Ccs Pk Vk → Bool) (pcs : Nat → Pc E Ccs Pk Vk) (i : Nat)
    (pc : Pc E Ccs Pk Vk) (held held1 : Prop) (hP : P pc = P (pcs i)) (hheld : held1 ↔ held)
    (h : held ↔ ∃ j, P (pcs j) = true)
    (hu : ∀ j k, P (pcs j) = true → P (pcs k) = true → j = k) :
    (held1 ↔ ∃ j, P (Function.update pcs i pc j) = true) ∧
    (∀ j k, P (Function.update pcs i pc j) = true → P (Function.update pcs i pc k) = true →
      j = k) := by
  have e : ∀ j, P (Function.update pcs i pc j) = P (pcs j) := by
    intro j
    by_cases hj : j = i
    · subst hj
      simp [hP]
    · simp [Function.update_noteq hj]
  simp only [e]
  exact ⟨hheld.trans h, hu⟩

/-- The goroutine that moves takes a mutex that is free. -/
theorem holders_acquire (P : Pc E Ccs Pk Vk → Bool) (pcs : Nat → Pc E Ccs Pk Vk) (i : Nat)
    (pc : Pc E Ccs Pk Vk) (held held1 : Prop) (hfree : ¬ held) (hP : P pc = true)
    (hheld : held1) (h : held ↔ ∃ j, P (pcs j) = true) :
    (held1 ↔ ∃ j, P (Function.update pcs i pc j) = true) ∧
    (∀ j k, P (Function.update pcs i pc j) = true → P (Function.update pcs i pc k) = true →
      j = k) := by
  have none : ∀ j, P (pcs j) ≠ true := fun j hj => hfree (h.2 ⟨j, hj⟩)
  have e : ∀ j, P (Function.update pcs i pc j) = true → j = i := by
    intro j hj
    by_contra hne
    rw [Function.update_noteq hne] at hj
    exact none j hj
  refine ⟨⟨fun _ => ⟨i, by simp [hP]⟩, fun _ => hheld⟩, ?_⟩
  intro j k hj hk
  rw [e j hj, e k hk]

/-- The goroutine that moves releases the mutex it holds. -/
theorem holders_release (P : Pc E Ccs Pk Vk → Bool) (pcs : Nat → Pc E Ccs Pk Vk) (i : Nat)
    (pc : Pc E Ccs Pk Vk) (held1 : Prop) (hi : P (pcs i) = true) (hP : P pc = false)
    (hheld : ¬ held1)
    (hu : ∀ j k, P (pcs j) = true → P (pcs k) = true → j = k) :
    (held1 ↔ ∃ j, P (Function.update pcs i pc j) = true) ∧
    (∀ j k, P (Function.update pcs i pc j) = true → P (Function.update pcs i pc k) = true →
      j = k) := by
  have e : ∀ j, P (Function.update pcs i pc j) ≠ true := by
    intro j hj
    by_cases hne : j = i
    · subst hne
      simp [hP] at hj
    · rw [Function.update_noteq hne] at hj
      exact hne (hu j i hj hi)
  refine ⟨⟨fun x => absurd x hheld, fun ⟨j, hj⟩ => absurd hj (e j)⟩, ?_⟩
  intro j k hj
  exact absurd hj (e j)

/-- A goroutine that stays where it is and leaves the shared loader as it is changes
nothing. -/
theorem Concurrent.move_self (s : Concurrent σ E Ccs Pk Vk) (i : Nat) (pc : Pc E Ccs Pk Vk)
    (h : s.pcs i = pc) : s.move i s.loader pc = s := by
  unfold Concurrent.move
  rw [← h, Function.update_eq_self]

/-- A move of goroutine `i` keeps the invariant when it treats the two mutexes as `Lock`
and `Unlock` do, the shared data allow the statement it goes on at, and it has changed the
data only while holding the mutex of the name with no cache entry. -/
theorem Concurrent.Inv.move {filename : String} {n : Nat} {w0 wa wb w1 : World σ}
    {curve : Curve} {ccs : Ccs} {pk : Pk} {vk : Vk} {s : Concurrent σ E Ccs Pk Vk}
    (h : Concurrent.Inv filename n w0 wa wb w1 curve ccs pk vk s) (i : Nat) (hi : i < n)
    (l : SharedLoader σ Ccs Pk Vk) (pc : Pc E Ccs Pk Vk)
    (hg : (pc.holdsGlobal = (s.pcs i).holdsGlobal ∧ l.lock = s.loader.lock) ∨
      (s.loader.lock = false ∧ pc.holdsGlobal = true ∧ l.lock = true) ∨
      ((s.pcs i).holdsGlobal = true ∧ pc.holdsGlobal = false ∧ l.lock = false))
    (hm : (pc.holdsName = (s.pcs i).holdsName ∧
        (l.locks filename = some true ↔ s.loader.locks filename = some true)) ∨
      (s.loader.locks filename ≠ some true ∧ pc.holdsName = true ∧
        l.locks filename = some true) ∨
      ((s.pcs i).holdsName = true ∧ pc.holdsName = false ∧ l.locks filename ≠ some true))
    (hc1 : s.loader.locks filename ≠ none → l.locks filename ≠ none)
    (hc2 : pc.pastEnsure = true → l.locks filename ≠ none)
    (ha : pc.Allowed w0 wa wb w1 curve ccs pk vk l.store (l.loaded filename))
    (hs : (l.store = s.loader.store ∧ l.loaded filename = s.loader.loaded filename) ∨
      ((s.pcs i).holdsName = true ∧ s.loader.loaded filename = none))
    (hf : l.locks filename ≠ some true →
      (l.loaded filename = none ∧ l.store = w0) ∨
        (l.loaded filename = some { Ccs := ccs, Pk := pk, Vk := vk } ∧ l.store = w1)) :
    Concurrent.Inv filename n w0 wa wb w1 curve ccs pk vk (s.move i l pc) := by
  have G : (l.lock = true ↔ ∃ j, (Function.update s.pcs i pc j).holdsGlobal = true) ∧
      (∀ j k, (Function.update s.pcs i pc j).holdsGlobal = true →
        (Function.update s.pcs i pc k).holdsGlobal = true → j = k) := by
    rcases hg with ⟨a, b⟩ | ⟨a, b, c⟩ | ⟨a, b, c⟩
    · exact holders_same Pc.holdsGlobal s.pcs i pc _ _ a (by rw [b]) h.global h.globalUnique
    · exact holders_acquire Pc.holdsGlobal s.pcs i pc (s.loader.lock = true) _ (by simp [a]) b c
        h.global
    · exact holders_release Pc.holdsGlobal s.pcs i pc _ a b (by simp [c]) h.globalUnique
  have N : (l.locks filename = some true ↔
        ∃ j, (Function.update s.pcs i pc j).holdsName = true) ∧
      (∀ j k, (Function.update s.pcs i pc j).holdsName = true →
        (Function.update s.pcs i pc k).holdsName = true → j = k) := by
    rcases hm with ⟨a, b⟩ | ⟨a, b, c⟩ | ⟨a, b, c⟩
    · exact holders_same Pc.holdsName s.pcs i pc _ _ a b h.name h.nameUnique
    · exact holders_acquire Pc.holdsName s.pcs i pc (s.loader.locks filename = some true) _ a b c
        h.name
    · exact holders_release Pc.holdsName s.pcs i pc _ a b c h.nameUnique
  refine ⟨?_, G.1, G.2, N.1, N.2, ?_, ?_, hf⟩
  · intro j hj
    have hne : j ≠ i := by omega
    show Function.update s.pcs i pc j = _
    rw [Function.update_noteq hne]
    exact h.outside j hj
  · intro j hj
    change (Function.update s.pcs i pc j).pastEnsure = true at hj
    show l.locks filename ≠ none
    by_cases hne : j = i
    · subst hne
      rw [Function.update_same] at hj
      exact hc2 hj
    · rw [Function.update_noteq hne] at hj
      exact hc1 (h.created j hj)
  · intro j
    show (Function.update s.pcs i pc j).Allowed w0 wa wb w1 curve ccs pk vk l.store
      (l.loaded filename)
    by_cases hne : j = i
    · subst hne
      rw [Function.update_same]
      exact ha
    · rw [Function.update_noteq hne]
      have hj := h.allowed j
      rcases hs with ⟨a, b⟩ | ⟨a, b⟩
      · rw [a, b]
        exact hj
      · have hnot : (s.pcs j).holdsName ≠ true := fun x => hne (h.nameUnique j i x a)
        rw [b] at hj
        cases hpc : s.pcs j <;> rw [hpc] at hj hnot <;>
          simp [Pc.Allowed, Pc.holdsName] at hj hnot ⊢

/-- Under the invariant, a goroutine that has returned or stopped has returned with the
circuit. -/
theorem Concurrent.Inv.returned {filename : String} {n : Nat} {w0 wa wb w1 : World σ}
    {curve : Curve} {ccs : Ccs} {pk : Pk} {vk : Vk} {s : Concurrent σ E Ccs Pk Vk}
    (h : Concurrent.Inv filename n w0 wa wb w1 curve ccs pk vk s) (i : Nat)
    (hr : (s.pcs i).rank = 0) :
    s.pcs i = .done (.ok { Ccs := ccs, Pk := pk, Vk := vk }) := by
  have ha := h.allowed i
  cases hpc : s.pcs i <;> rw [hpc] at ha hr <;> simp [Pc.rank, Pc.Allowed] at ha hr ⊢
  exact ha.1

/-- Consecutive statements of goroutine `i` are its statements on the shared loader. -/
theorem Concurrent.run_turn (env : LoadEnv σ E Ccs Pk Vk) (filename : String) (field : Int)
    (n : Nat) (i : Nat) (hi : i < n) (k : Nat) (s : Concurrent σ E Ccs Pk Vk) :
    Concurrent.run env filename field n s (List.replicate k i) =
      s.move i (Pc.nexts env filename field k (s.loader, s.pcs i)).1
        (Pc.nexts env filename field k (s.loader, s.pcs i)).2 := by
  induction k generalizing s with
  | zero => exact (Concurrent.move_self s i _ rfl).symm
  | succ k ih =>
    show Concurrent.run env filename field n (Concurrent.step env filename field n s i)
      (List.replicate k i) = _
    rw [ih]
    unfold Concurrent.step
    rw [if_pos hi]
    simp [Concurrent.move, Pc.nexts]

/-- From a shared loader on which no mutex is held, the ten statements of `load`, with no
statement of another goroutine between them, are `load`: the goroutine returns what `load`
returns and leaves the loader as `load` leaves it, with no mutex held. -/
theorem Pc.nexts_load (env : LoadEnv σ E Ccs Pk Vk) (l : SharedLoader σ Ccs Pk Vk)
    (filename : String) (field : Int) (hl : l.lock = false)
    (hlk : l.locks filename ≠ some true) :
    (Pc.nexts env filename field 10 (l, .lockGlobal)).2 =
      .done (LockingCircuitLoader.load env l.atRest filename field).1 ∧
    (Pc.nexts env filename field 10 (l, .lockGlobal)).1.atRest =
      (LockingCircuitLoader.load env l.atRest filename field).2 ∧
    (Pc.nexts env filename field 10 (l, .lockGlobal)).1.lock = false ∧
    (Pc.nexts env filename field 10 (l, .lockGlobal)).1.locks filename = some false := by
  have hk2 : l.locks filename = none ∨ l.locks filename = some false := by
    cases hk : l.locks filename with
    | none => exact Or.inl rfl
    | some b =>
      cases b
      · exact Or.inr rfl
      · exact absurd hk hlk
  unfold LockingCircuitLoader.load Load
  rcases hk2 with hk | hk
  · cases hld : l.loaded filename with
    | some c =>
      simp [Pc.nexts, Pc.next, SharedLoader.atRest, hl, hk, hld]
      funext n
      by_cases e : n = filename <;> simp [e, hk]
    | none =>
      cases hcv : curveOf field with
      | none =>
        simp [Pc.nexts, Pc.next, SharedLoader.atRest, hl, hk, hld, hcv]
        funext n
        by_cases e : n = filename <;> simp [e, hk]
      | some cv =>
        rcases hr1 : loadArtifact env (filename ++ "." ++ "vk") false (env.vkReadFrom cv)
          l.store with ⟨r1, w2⟩
        cases r1 with
        | error e1 =>
          simp [Pc.nexts, Pc.next, SharedLoader.atRest, hl, hk, hld, hcv, hr1]
          funext n
          by_cases e : n = filename <;> simp [e, hk]
        | ok vk =>
          rcases hr2 : loadArtifact env (filename ++ "." ++ "pk") false (env.pkReadFrom cv)
            w2 with ⟨r2, w3⟩
          cases r2 with
          | error e1 =>
            simp [Pc.nexts, Pc.next, SharedLoader.atRest, hl, hk, hld, hcv, hr1, hr2]
            funext n
            by_cases e : n = filename <;> simp [e, hk]
          | ok pk =>
            rcases hr3 : loadArtifact env (filename ++ "." ++ "ccs") true (env.ccsReadFrom cv)
              w3 with ⟨r3, w4⟩
            cases r3 with
            | error e1 =>
              simp [Pc.nexts, Pc.next, SharedLoader.atRest, hl, hk, hld, hcv, hr1, hr2, hr3]
              funext n
              by_cases e : n = filename <;> simp [e, hk]
            | ok ccs =>
              simp [Pc.nexts, Pc.next, SharedLoader.atRest, hl, hk, hld, hcv, hr1, hr2, hr3]
              funext n
              by_cases e : n = filename <;> simp [e, hk]
  · cases hld : l.loaded filename with
    | some c =>
      simp [Pc.nexts, Pc.next, SharedLoader.atRest, hl, hk, hld]
      funext n
      by_cases e : n = filename <;> simp [e, hk]
    | none =>
      cases hcv : curveOf field with
      | none =>
        simp [Pc.nexts, Pc.next, SharedLoader.atRest, hl, hk, hld, hcv]
        funext n
        by_cases e : n = filename <;> simp [e, hk]
      | some cv =>
        rcases hr1 : loadArtifact env (filename ++ "." ++ "vk") false (env.vkReadFrom cv)
          l.store with ⟨r1, w2⟩
        cases r1 with
        | error e1 =>
          simp [Pc.nexts, Pc.next, SharedLoader.atRest, hl, hk, hld, hcv, hr1]
          funext n
          by_cases e : n = filename <;> simp [e, hk]
        | ok vk =>
          rcases hr2 : loadArtifact env (filename ++ "." ++ "pk") false (env.pkReadFrom cv)
            w2 with ⟨r2, w3⟩
          cases r2 with
          | error e1 =>
            simp [Pc.nexts, Pc.next, SharedLoader.atRest, hl, hk, hld, hcv, hr1, hr2]
            funext n
            by_cases e : n = filename <;> simp [e, hk]
          | ok pk =>
            rcases hr3 : loadArtifact env (filename ++ "." ++ "ccs") true (env.ccsReadFrom cv)
              w3 with ⟨r3, w4⟩
            cases r3 with
            | error e1 =>
              simp [Pc.nexts, Pc.next, SharedLoader.atRest, hl, hk, hld, hcv, hr1, hr2, hr3]
              funext n
              by_cases e : n = filename <;> simp [e, hk]
            | ok ccs =>
              simp [Pc.nexts, Pc.next, SharedLoader.atRest, hl, hk, hld, hcv, hr1, hr2, hr3]
              funext n
              by_cases e : n = filename <;> simp [e, hk]

theorem LockingCircuitLoader.shared_atRest (p : LockingCircuitLoader σ Ccs Pk Vk) :
    p.shared.atRest = p := by
  cases p with
  | mk store loaded locks =>
    simp only [LockingCircuitLoader.shared, SharedLoader.atRest,
      LockingCircuitLoader.mk.injEq, true_and]
    funext n
    by_cases e : locks n = true
    · simp [e]
    · simp [e]

/-- A goroutine that executes its ten statements with no statement of another goroutine
between them, from a state in which no mutex is held, returns what `load` returns and
leaves the loader as `load` leaves it, with no mutex held. -/
theorem Concurrent.turn_load (env : LoadEnv σ E Ccs Pk Vk) (filename : String) (field : Int)
    (n : Nat) (s : Concurrent σ E Ccs Pk Vk) (i : Nat) (hi : i < n)
    (hpc : s.pcs i = .lockGlobal) (hl : s.loader.lock = false)
    (hlk : s.loader.locks filename ≠ some true) :
    (Concurrent.run env filename field n s (List.replicate 10 i)).pcs i =
      .done (LockingCircuitLoader.load env s.loader.atRest filename field).1 ∧
    (Concurrent.run env filename field n s (List.replicate 10 i)).loader.atRest =
      (LockingCircuitLoader.load env s.loader.atRest filename field).2 ∧
    (Concurrent.run env filename field n s (List.replicate 10 i)).loader.lock = false ∧
    (Concurrent.run env filename field n s (List.replicate 10 i)).loader.locks filename =
      some false := by
  rw [Concurrent.run_turn env filename field n i hi 10 s, hpc]
  have h := Pc.nexts_load env s.loader filename field hl hlk
  exact ⟨by simpa [Concurrent.move] using h.1, h.2.1, h.2.2.1, h.2.2.2⟩

end ConcurrentTheorems

/-! ## Filenames asked of the loader -/

section ClientTheorems

variable {σ E F A Ccs Pk Vk W PW P PO VO : Type}

/-- A load leaves a lock for the name it was asked for, and creates no other lock. -/
theorem load_locks (env : LoadEnv σ E Ccs Pk Vk) (p : LockingCircuitLoader σ Ccs Pk Vk)
    (filename : String) (field : Int) :
    (LockingCircuitLoader.load env p filename field).2.locks filename = true ∧
    ∀ other, other ≠ filename →
      (LockingCircuitLoader.load env p filename field).2.locks other = p.locks other := by
  have h : (LockingCircuitLoader.load env p filename field).2.locks =
      (p.ensureLock filename).locks := by
    rw [load_eq_sections]
    unfold LockingCircuitLoader.loadLocked
    repeat' split
    all_goals rfl
  rw [h]
  unfold LockingCircuitLoader.ensureLock
  by_cases hl : p.locks filename = false
  · rw [if_pos hl]
    refine ⟨by simp, ?_⟩
    intro other ho
    simp [ho]
  · rw [if_neg hl]
    exact ⟨by simpa using hl, fun _ _ => rfl⟩

theorem Load_state (env : LoadEnv σ E Ccs Pk Vk) (p : LockingCircuitLoader σ Ccs Pk Vk)
    (filename : String) (field : Int) :
    (LockingCircuitLoader.Load env p filename field).2 =
      (LockingCircuitLoader.load env p filename field).2 := by
  unfold LockingCircuitLoader.Load
  split <;> simp_all

/-- The goroutine of `LockingCircuitLoader.LoadAndProve` leaves the loader as it was or as
its `load` of the filename leaves it. -/
theorem loadAndProveBody_state (env : LoadEnv σ E Ccs Pk Vk)
    (bk : Backend E Ccs Pk Vk W PW P PO VO) (bf : BackendFaults F Ccs Pk Vk W PW P PO VO)
    (p : LockingCircuitLoader σ Ccs Pk Vk) (filename : String) (field outer : Int)
    (wit : List Nat) :
    (LockingCircuitLoader.loadAndProveBody env bk bf p filename field outer wit).2 = p ∨
    (LockingCircuitLoader.loadAndProveBody env bk bf p filename field outer wit).2 =
      (LockingCircuitLoader.load env p filename field).2 := by
  unfold LockingCircuitLoader.loadAndProveBody
  split
  · exact Or.inl rfl
  · split
    · exact Or.inl rfl
    · rcases LockingCircuitLoader.load env p filename field with ⟨r, p1⟩
      refine Or.inr ?_
      cases r with
      | error e => rfl
      | ok c =>
        simp only
        repeat' split
        all_goals rfl

/-- C23 does not hold of the code.  `CircuitLoaderClient.Load(cm, n)` asks the loader for
`cm.Filename(n)`, while `CircuitLoaderClient.LoadAndProve(cm, n, assignment)` sets `n` to 1
for a single-variant family and then asks for `cm.Filename(n - 1)`.  For a single-variant
family both are the first filename.  For a multi-variant family and `2 ≤ n ≤` number of
filenames, `Load` asks for entry `n - 1` (0-based) and `LoadAndProve` for entry `n - 2`;
for `n = 1`, which `Load` accepts, the filename expression of `LoadAndProve` is an index
fault, which its deferred `recover` returns as an error, the loader not being asked at
all.  After `Load` the loader has a lock for `cm.Filename(n)`; after `LoadAndProve`, when
its filename is another one, the loader has none for it unless it had one before. -/
theorem client_filenames (fe : Frontend E A W P) (env : LoadEnv σ E Ccs Pk Vk)
    (bk : Backend E Ccs Pk Vk W PW P PO VO) (bf : BackendFaults F Ccs Pk Vk W PW P PO VO)
    (p : LockingCircuitLoader σ Ccs Pk Vk) (cm : circuits.Metadata) (n : Int)
    (assignment : A) (w : W) (wit : List Nat)
    (h1 : fe.NewWitness assignment cm.Field = .ok w) (h2 : fe.MarshalBinary w = .ok wit) :
    (∀ f, cm.Filename n = .ok f →
      (CircuitLoaderClient.Load F env p cm n).2 =
        (LockingCircuitLoader.Load env p f cm.Field).2) ∧
    (∀ g, cm.Filename ((if !cm.MultiTx then 1 else n) - 1) = .ok g →
      (CircuitLoaderClient.LoadAndProve fe env bk bf p cm n assignment).2 =
        (LockingCircuitLoader.loadAndProveBody env bk bf p g cm.Field cm.Outer wit).2) ∧
    (cm.MultiTx = false → cm.Filename ((if !cm.MultiTx then 1 else n) - 1) = cm.Filename n) ∧
    (cm.MultiTx = true → 2 ≤ n → n ≤ cm.Filenames.length →
      ∃ f g, cm.Filenames.get? (n - 1).toNat = some f ∧
        cm.Filenames.get? (n - 2).toNat = some g ∧ cm.Filename n = .ok f ∧
        cm.Filename ((if !cm.MultiTx then 1 else n) - 1) = .ok g) ∧
    (cm.MultiTx = true → n = 1 → 1 ≤ cm.Filenames.length →
      (∃ f, cm.Filenames.get? 0 = some f ∧ cm.Filename n = .ok f) ∧
      (CircuitLoaderClient.LoadAndProve fe env bk bf p cm n assignment).1 =
        .returned (.error (.recovered (.runtime .indexOutOfRange) fe.Stack)) ∧
      (CircuitLoaderClient.LoadAndProve fe env bk bf p cm n assignment).2 = p) ∧
    (∀ f, cm.Filename n = .ok f → (CircuitLoaderClient.Load F env p cm n).2.locks f = true) ∧
    (∀ f g, cm.Filename n = .ok f →
      cm.Filename ((if !cm.MultiTx then 1 else n) - 1) = .ok g → f ≠ g → p.locks f = false →
      (CircuitLoaderClient.LoadAndProve fe env bk bf p cm n assignment).2.locks f = false) := by
  have hLoad : ∀ f, cm.Filename n = .ok f →
      (CircuitLoaderClient.Load F env p cm n).2 =
        (LockingCircuitLoader.Load env p f cm.Field).2 := by
    intro f hf
    unfold CircuitLoaderClient.Load
    rw [hf]
    simp only
    split <;> rfl
  have hProve : ∀ g, cm.Filename ((if !cm.MultiTx then 1 else n) - 1) = .ok g →
      (CircuitLoaderClient.LoadAndProve fe env bk bf p cm n assignment).2 =
        (LockingCircuitLoader.loadAndProveBody env bk bf p g cm.Field cm.Outer wit).2 := by
    intro g hg
    unfold CircuitLoaderClient.LoadAndProve CircuitLoaderClient.loadAndProve
    simp only [h1, h2, hg]
    rcases LockingCircuitLoader.loadAndProveBody env bk bf p g cm.Field cm.Outer wit with
      ⟨body, p1⟩
    cases body <;> rfl
  refine ⟨hLoad, hProve, ?_, ?_, ?_, ?_, ?_⟩
  rotate_left 3
  · intro f hf
    rw [hLoad f hf, Load_state]
    exact (load_locks env p f cm.Field).1
  · intro f g hf hg hne hl
    rw [hProve g hg]
    rcases loadAndProveBody_state env bk bf p g cm.Field cm.Outer wit with h | h
    · rw [h]
      exact hl
    · rw [h, (load_locks env p g cm.Field).2 f hne]
      exact hl
  · intro hm
    simp [circuits.Metadata.Filename, hm]
  · intro hm h2n hn
    have hlt : (n - 1).toNat < cm.Filenames.length := by omega
    have hlt2 : (n - 2).toNat < cm.Filenames.length := by omega
    have hnn : ¬ (n - 1 < 0) := by omega
    have hnn2 : ¬ (n - 2 < 0) := by omega
    have e : n - 1 - 1 = n - 2 := by omega
    refine ⟨_, _, List.get?_eq_get hlt, List.get?_eq_get hlt2, ?_, ?_⟩
    · simp only [circuits.Metadata.Filename, circuits.index, hm, Bool.not_true,
        Bool.false_eq_true, if_false, hnn, List.get?_eq_get hlt]
    · simp only [circuits.Metadata.Filename, circuits.index, hm, Bool.not_true,
        Bool.false_eq_true, if_false, hnn2, e, List.get?_eq_get hlt2]
  · intro hm hn hlen
    subst hn
    have hlt : 0 < cm.Filenames.length := by omega
    have hf : cm.Filename ((if !cm.MultiTx then 1 else 1) - 1) = .error .indexOutOfRange := by
      simp [circuits.Metadata.Filename, circuits.index, hm]
    obtain ⟨f, hf0⟩ : ∃ f, cm.Filenames.get? 0 = some f := ⟨_, List.get?_eq_get hlt⟩
    have hf1 : cm.Filenames[0]? = some f := by
      rw [← List.get?_eq_getElem?]
      exact hf0
    refine ⟨⟨f, hf0, ?_⟩, ?_, ?_⟩
    · simp [circuits.Metadata.Filename, circuits.index, hm, hf1]
    · unfold CircuitLoaderClient.LoadAndProve CircuitLoaderClient.loadAndProve
      simp only [h1, h2, hf]
      rfl
    · unfold CircuitLoaderClient.LoadAndProve CircuitLoaderClient.loadAndProve
      simp only [h1, h2, hf]

end ClientTheorems

end proving

namespace circuits

/-! ## Artifact filenames -/

/-- C13, as amended.  `Filename(n)` returns, for every `n`, the first filename when the
family is not multi-variant and has at least one filename, and is an index fault when it
has none; when the family is multi-variant and `1 ≤ n ≤` number of filenames it returns
entry `n - 1` (0-based) of the list, and for `n < 1` or `n` beyond the list it is an index
fault, never a filename. -/
theorem Filename_cases (c : Metadata) (n : Int) :
    (c.MultiTx = false → ∀ f rest, c.Filenames = f :: rest → c.Filename n = .ok f) ∧
    (c.MultiTx = false → c.Filenames = [] → c.Filename n = .error .indexOutOfRange) ∧
    (c.MultiTx = true → 1 ≤ n → n ≤ c.Filenames.length →
      ∃ f, c.Filenames.get? (n - 1).toNat = some f ∧ c.Filename n = .ok f) ∧
    (c.MultiTx = true → (n < 1 ∨ (c.Filenames.length : Int) < n) →
      c.Filename n = .error .indexOutOfRange) := by
  refine ⟨?_, ?_, ?_, ?_⟩
  · intro hm f rest hf
    simp [Metadata.Filename, index, hm, hf]
  · intro hm hf
    simp [Metadata.Filename, index, hm, hf]
  · intro hm h1 h2
    have hlt : (n - 1).toNat < c.Filenames.length := by omega
    obtain ⟨f, hf⟩ : ∃ f, c.Filenames.get? (n - 1).toNat = some f :=
      ⟨_, List.get?_eq_get hlt⟩
    refine ⟨f, hf, ?_⟩
    have hnn : ¬ (n - 1 < 0) := by omega
    simp only [Metadata.Filename, index, hm, Bool.not_true, Bool.false_eq_true, if_false, hnn, hf]
  · intro hm h
    rcases h with h | h
    · have hneg : n - 1 < 0 := by omega
      simp only [Metadata.Filename, index, hm, Bool.not_true, Bool.false_eq_true, if_false, hneg,
        if_true]
    · have hnn : ¬ (n - 1 < 0) := by omega
      have hge : c.Filenames.length ≤ (n - 1).toNat := by omega
      have hnone : c.Filenames.get? (n - 1).toNat = none := List.get?_eq_none.mpr hge
      simp only [Metadata.Filename, index, hm, Bool.not_true, Bool.false_eq_true, if_false, hnn,
        hnone]

end circuits

/-! ## The theorems at concrete inputs -/

namespace signatures

theorem vk_roundtrip_witness :
    ∃ b, VkToBytes exampleVk = .ok b ∧ BytesToVk exampleLines b = .ok exampleVk :=
  vk_roundtrip exampleLines exampleVk (by decide) (by decide) (by decide) (by decide)
    (by decide)

theorem proof_roundtrip_witness :
    ∃ b, ProofToBytes exampleProof = .ok b ∧ BytesToProof b = .ok exampleProof :=
  proof_roundtrip exampleProof (by decide) (by decide) (by decide)

theorem data_roundtrip_witness :
    ∃ r, DataToBytes31Chunks (List.range 256) = .ok r ∧ r.e.length = 9 ∧
      DataToUints8 384 r.e = List.range 256 :=
  data_roundtrip 384 (by decide) (List.range 256) (List.length_range 256)
    (fun _ hx => List.mem_range.mp hx)

theorem VkToBytes_layout_witness :
    ∃ b, VkToBytes exampleVk = .ok b ∧ b.length = 1664 ∧ IsBytes b ∧
      (∀ w v, (bigEndian w v).length = w ∧ fromBigEndian (bigEndian w v) = v % 256 ^ w) ∧
    slice b 0 8 = bigEndian 8 exampleVk.Size ∧
    slice b 8 40 = bigEndian 32 exampleVk.SizeInv ∧
    slice b 40 72 = bigEndian 32 exampleVk.Generator ∧
    slice b 72 104 = bigEndian 32 exampleVk.CosetShift ∧
    slice b 104 112 = bigEndian 8 100 ∧
    slice b 112 120 = bigEndian 8 200 ∧
    slice b 120 128 = bigEndian 8 18446744073709551615 ∧
    slice b 128 176 = bigEndian 48 exampleVk.Kzg.G2.e0.X.A0 ∧
    slice b 176 224 = bigEndian 48 exampleVk.Kzg.G2.e0.X.A1 ∧
    slice b 224 272 = bigEndian 48 exampleVk.Kzg.G2.e0.Y.A0 ∧
    slice b 272 320 = bigEndian 48 exampleVk.Kzg.G2.e0.Y.A1 ∧
    slice b 320 368 = bigEndian 48 exampleVk.Kzg.G2.e1.X.A0 ∧
    slice b 368 416 = bigEndian 48 exampleVk.Kzg.G2.e1.X.A1 ∧
    slice b 416 464 = bigEndian 48 exampleVk.Kzg.G2.e1.Y.A0 ∧
    slice b 464 512 = bigEndian 48 exampleVk.Kzg.G2.e1.Y.A1 ∧
    slice b 512 560 = bigEndian 48 exampleVk.Kzg.G1.X ∧
    slice b 560 608 = bigEndian 48 exampleVk.Kzg.G1.Y ∧
    slice b 608 656 = bigEndian 48 exampleVk.S.e0.X ∧
    slice b 656 704 = bigEndian 48 exampleVk.S.e0.Y ∧
    slice b 704 752 = bigEndian 48 exampleVk.S.e1.X ∧
    slice b 752 800 = bigEndian 48 exampleVk.S.e1.Y ∧
    slice b 800 848 = bigEndian 48 exampleVk.S.e2.X ∧
    slice b 848 896 = bigEndian 48 exampleVk.S.e2.Y ∧
    slice b 896 944 = bigEndian 48 exampleVk.Ql.X ∧
    slice b 944 992 = bigEndian 48 exampleVk.Ql.Y ∧
    slice b 992 1040 = bigEndian 48 exampleVk.Qr.X ∧
    slice b 1040 1088 = bigEndian 48 exampleVk.Qr.Y ∧
    slice b 1088 1136 = bigEndian 48 exampleVk.Qm.X ∧
    slice b 1136 1184 = bigEndian 48 exampleVk.Qm.Y ∧
    slice b 1184 1232 = bigEndian 48 exampleVk.Qo.X ∧
    slice b 1232 1280 = bigEndian 48 exampleVk.Qo.Y ∧
    slice b 1280 1328 = bigEndian 48 exampleVk.Qk.X ∧
    slice b 1328 1376 = bigEndian 48 exampleVk.Qk.Y ∧
    slice b 1376 1424 = bigEndian 48 (G1Affine.mk 37 38).X ∧
    slice b 1424 1472 = bigEndian 48 (G1Affine.mk 37 38).Y ∧
    slice b 1472 1520 = bigEndian 48 (G1Affine.mk 39 40).X ∧
    slice b 1520 1568 = bigEndian 48 (G1Affine.mk 39 40).Y ∧
    slice b 1568 1616 = bigEndian 48 (G1Affine.mk 41 42).X ∧
    slice b 1616 1664 = bigEndian 48 (G1Affine.mk 41 42).Y :=
  VkToBytes_layout exampleVk 100 200 18446744073709551615 ⟨37, 38⟩ ⟨39, 40⟩ ⟨41, 42⟩ rfl rfl rfl

theorem ProofToBytes_layout_witness :
    ∃ b, ProofToBytes exampleProof = .ok b ∧ b.length = 1504 ∧ IsBytes b ∧
      (∀ w v, (bigEndian w v).length = w ∧ fromBigEndian (bigEndian w v) = v % 256 ^ w) ∧
    slice b 0 48 = bigEndian 48 exampleProof.LRO.e0.X ∧
    slice b 48 96 = bigEndian 48 exampleProof.LRO.e0.Y ∧
    slice b 96 144 = bigEndian 48 exampleProof.LRO.e1.X ∧
    slice b 144 192 = bigEndian 48 exampleProof.LRO.e1.Y ∧
    slice b 192 240 = bigEndian 48 exampleProof.LRO.e2.X ∧
    slice b 240 288 = bigEndian 48 exampleProof.LRO.e2.Y ∧
    slice b 288 336 = bigEndian 48 exampleProof.Z.X ∧
    slice b 336 384 = bigEndian 48 exampleProof.Z.Y ∧
    slice b 384 432 = bigEndian 48 exampleProof.H.e0.X ∧
    slice b 432 480 = bigEndian 48 exampleProof.H.e0.Y ∧
    slice b 480 528 = bigEndian 48 exampleProof.H.e1.X ∧
    slice b 528 576 = bigEndian 48 exampleProof.H.e1.Y ∧
    slice b 576 624 = bigEndian 48 exampleProof.H.e2.X ∧
    slice b 624 672 = bigEndian 48 exampleProof.H.e2.Y ∧
    slice b 672 720 = bigEndian 48 (G1Affine.mk 15 16).X ∧
    slice b 720 768 = bigEndian 48 (G1Affine.mk 15 16).Y ∧
    slice b 768 816 = bigEndian 48 (G1Affine.mk 17 18).X ∧
    slice b 816 864 = bigEndian 48 (G1Affine.mk 17 18).Y ∧
    slice b 864 912 = bigEndian 48 (G1Affine.mk 19 20).X ∧
    slice b 912 960 = bigEndian 48 (G1Affine.mk 19 20).Y ∧
    slice b 960 1008 = bigEndian 48 exampleProof.BatchedProof.H.X ∧
    slice b 1008 1056 = bigEndian 48 exampleProof.BatchedProof.H.Y ∧
    slice b 1056 1104 = bigEndian 48 exampleProof.ZShiftedOpening.H.X ∧
    slice b 1104 1152 = bigEndian 48 exampleProof.ZShiftedOpening.H.Y ∧
    slice b 1152 1184 = bigEndian 32 101 ∧
    slice b 1184 1216 = bigEndian 32 102 ∧
    slice b 1216 1248 = bigEndian 32 103 ∧
    slice b 1248 1280 = bigEndian 32 104 ∧
    slice b 1280 1312 = bigEndian 32 105 ∧
    slice b 1312 1344 = bigEndian 32 106 ∧
    slice b 1344 1376 = bigEndian 32 107 ∧
    slice b 1376 1408 = bigEndian 32 108 ∧
    slice b 1408 1440 = bigEndian 32 109 ∧
    slice b 1440 1472 = bigEndian 32 8444461749428370424248824938781546531375899335154063827935233455917409239040 ∧
    slice b 1472 1504 = bigEndian 32 exampleProof.ZShiftedOpening.ClaimedValue :=
  ProofToBytes_layout exampleProof ⟨15, 16⟩ ⟨17, 18⟩ ⟨19, 20⟩ 101 102 103 104 105 106 107 108
    109 8444461749428370424248824938781546531375899335154063827935233455917409239040 rfl rfl

theorem length_checks_witness :
    BytesToVk exampleLines (List.replicate 1663 0) = .error .ErrInvalidVk ∧
    (∃ vk, BytesToVk exampleLines (List.replicate 1664 0) = .ok vk) ∧
    BytesToProof (List.replicate 1505 0) = .error .ErrInvalidProof ∧
    (∃ p, BytesToProof (List.replicate 1504 0) = .ok p) ∧
    DataToBytes31Chunks (List.replicate 255 0) = .error .ErrInvalidData ∧
    DataToBytes31Chunks (List.replicate 257 0) = .error .ErrInvalidData ∧
    (∃ r, DataToBytes31Chunks (List.replicate 256 0) = .ok r) :=
  ⟨(length_checks exampleLines (List.replicate 1663 0)).1.2 (by rw [List.length_replicate]; decide),
   (length_checks exampleLines (List.replicate 1664 0)).2.1.2 (List.length_replicate _ _),
   (length_checks exampleLines (List.replicate 1505 0)).2.2.1.2 (by rw [List.length_replicate]; decide),
   (length_checks exampleLines (List.replicate 1504 0)).2.2.2.1.2 (List.length_replicate _ _),
   (length_checks exampleLines (List.replicate 255 0)).2.2.2.2.1.2 (by rw [List.length_replicate]; decide),
   (length_checks exampleLines (List.replicate 257 0)).2.2.2.2.1.2 (by rw [List.length_replicate]; decide),
   (length_checks exampleLines (List.replicate 256 0)).2.2.2.2.2.2 (List.length_replicate _ _)⟩

theorem shape_checks_witness :
    VkToBytes { exampleVk with NbPublicVariables := 9 } = .error .ErrInvalidVk ∧
    ProofToBytes { exampleProof with Bsb22Commitments := [] } = .error .ErrInvalidProof ∧
    ProofToBigInts { exampleProof with Bsb22Commitments := [] } = .error .ErrInvalidProof := by
  obtain ⟨e1, h1⟩ :=
    (shape_checks { exampleVk with NbPublicVariables := 9 } exampleProof).1.2
      (Or.inl (by decide))
  obtain ⟨e2, h2⟩ :=
    (shape_checks exampleVk { exampleProof with Bsb22Commitments := [] }).2.2.1.2
      (Or.inl (by decide))
  obtain ⟨e3, h3⟩ :=
    (shape_checks exampleVk { exampleProof with Bsb22Commitments := [] }).2.2.2.2.1.2
      (Or.inl (by decide))
  have g1 := (shape_checks { exampleVk with NbPublicVariables := 9 } exampleProof).2.1 e1 h1
  have g2 :=
    (shape_checks exampleVk { exampleProof with Bsb22Commitments := [] }).2.2.2.1 e2 h2
  have g3 :=
    (shape_checks exampleVk { exampleProof with Bsb22Commitments := [] }).2.2.2.2.2 e3 h3
  subst g1 g2 g3
  exact ⟨h1, h2, h3⟩

end signatures

namespace proving

theorem Prove_verified_witness :
    Prove exampleBackend { Ccs := 1, Pk := 2, Vk := 3 } 5 7 7 = .ok 8 ∧
    Prove exampleBackend { Ccs := 1, Pk := 2, Vk := 3 } 4 7 9 = .error "verification failed" :=
  ⟨((Prove_verified exampleBackend { Ccs := 1, Pk := 2, Vk := 3 } 5 7 7).1 8).2
      ⟨1, rfl, rfl, rfl⟩,
   (Prove_verified exampleBackend { Ccs := 1, Pk := 2, Vk := 3 } 4 7 9).2 0 7
      "verification failed" rfl rfl rfl⟩

theorem load_once_cached_witness :
    (run exampleLoadEnv exampleBackend exampleLoader1 exampleRequests).loaded "circuitA" =
      some { Ccs := 212, Pk := 111, Vk := 11 } ∧
    (LockingCircuitLoader.load exampleLoadEnv
      (run exampleLoadEnv exampleBackend exampleLoader1 exampleRequests) "circuitA" 5).1 =
      .ok { Ccs := 212, Pk := 111, Vk := 11 } ∧
    (LockingCircuitLoader.load exampleLoadEnv
      (run exampleLoadEnv exampleBackend exampleLoader1 exampleRequests) "circuitA" 5).2.store =
      (run exampleLoadEnv exampleBackend exampleLoader1 exampleRequests).store ∧
    (LockingCircuitLoader.load exampleLoadEnv
      (run exampleLoadEnv exampleBackend exampleLoader1 exampleRequests) "circuitA" 5).2.loaded =
      (run exampleLoadEnv exampleBackend exampleLoader1 exampleRequests).loaded ∧
    (LockingCircuitLoader.Load exampleLoadEnv
      (run exampleLoadEnv exampleBackend exampleLoader1 exampleRequests) "circuitA" 5).1.Err =
      none ∧
    (LockingCircuitLoader.Load exampleLoadEnv
      (run exampleLoadEnv exampleBackend exampleLoader1 exampleRequests) "circuitA"
        5).1.Circuit = some { Ccs := 212, Pk := 111, Vk := 11 } ∧
    (LockingCircuitLoader.Load exampleLoadEnv
      (run exampleLoadEnv exampleBackend exampleLoader1 exampleRequests) "circuitA" 5).2.store =
      (run exampleLoadEnv exampleBackend exampleLoader1 exampleRequests).store ∧
    (LockingCircuitLoader.Load exampleLoadEnv
      (run exampleLoadEnv exampleBackend exampleLoader1 exampleRequests) "circuitA"
        5).2.loaded =
      (run exampleLoadEnv exampleBackend exampleLoader1 exampleRequests).loaded :=
  load_once_cached exampleLoadEnv exampleBackend exampleLoader exampleLoader1 "circuitA"
    bls12377ScalarField { Ccs := 212, Pk := 111, Vk := 11 } rfl exampleRequests 5

end proving

namespace proving

theorem load_failure_retries_witness :
    (LockingCircuitLoader.load failingLoadEnv exampleLoader "circuitA"
      bls12377ScalarField).1 = .error (.external "read failed") ∧
    (LockingCircuitLoader.load failingLoadEnv exampleLoader "circuitA"
      bls12377ScalarField).2.loaded = exampleLoader.loaded ∧
    (LockingCircuitLoader.load failingLoadEnv exampleLoader "circuitA"
      bls12377ScalarField).2.store.reads = ["circuitA.vk", "circuitA.pk"] ∧
    ∃ rest,
      (LockingCircuitLoader.load failingLoadEnv
        (LockingCircuitLoader.load failingLoadEnv exampleLoader "circuitA"
          bls12377ScalarField).2 "circuitA" bls12377ScalarField).2.store.reads =
      (LockingCircuitLoader.load failingLoadEnv exampleLoader "circuitA"
        bls12377ScalarField).2.store.reads ++ ("circuitA" ++ "." ++ "vk") :: rest :=
  ⟨((load_failure_retries failingLoadEnv exampleLoader "circuitA" bls12377ScalarField
      rfl).2.2.1 (.external "read failed") rfl).1,
   ((load_failure_retries failingLoadEnv exampleLoader "circuitA" bls12377ScalarField
      rfl).2.2.1 (.external "read failed") rfl).2,
   rfl,
   (load_failure_retries failingLoadEnv exampleLoader "circuitA" bls12377ScalarField
      rfl).2.2.2 (.external "read failed") rfl bls12377ScalarField .BLS12_377 rfl⟩

/-- C12 fails as stated: after one `Load` of `circuitA` on a new loader, a load of
`circuitA` with the unsupported field 5 returns the cached circuit. -/
theorem unsupported_field_cached_counterexample :
    (5 : Int) ≠ bls12377ScalarField ∧ (5 : Int) ≠ bn254ScalarField ∧
    (5 : Int) ≠ bw6761ScalarField ∧
    exampleLoader1 =
      run exampleLoadEnv exampleBackend exampleLoader [.Load "circuitA" bls12377ScalarField] ∧
    (LockingCircuitLoader.load exampleLoadEnv exampleLoader1 "circuitA" 5).1 =
      .ok { Ccs := 212, Pk := 111, Vk := 11 } ∧
    (LockingCircuitLoader.load exampleLoadEnv exampleLoader1 "circuitA" 5).1 ≠
      .error .unsupportedField :=
  ⟨by decide, by decide, by decide, rfl, rfl, by rw [show
    (LockingCircuitLoader.load exampleLoadEnv exampleLoader1 "circuitA" 5).1 =
      .ok { Ccs := 212, Pk := 111, Vk := 11 } from rfl]; simp⟩

theorem unsupported_field_load_witness :
    (LockingCircuitLoader.load exampleLoadEnv exampleLoader "circuitA" 5).1 =
      .error .unsupportedField ∧
    (LockingCircuitLoader.load exampleLoadEnv exampleLoader1 "circuitA" 5).1 =
      .ok { Ccs := 212, Pk := 111, Vk := 11 } ∧
    (LockingCircuitLoader.load exampleLoadEnv exampleLoader1 "circuitA" 5).2.store =
      exampleLoader1.store ∧
    (LockingCircuitLoader.load exampleLoadEnv exampleLoader1 "circuitA" 5).2.loaded =
      exampleLoader1.loaded :=
  ⟨(unsupported_field_load exampleLoadEnv exampleLoader "circuitA" 5 (by decide) (by decide)
      (by decide)).1 rfl,
   (unsupported_field_load exampleLoadEnv exampleLoader1 "circuitA" 5 (by decide) (by decide)
      (by decide)).2.1 _ rfl,
   (unsupported_field_load exampleLoadEnv exampleLoader1 "circuitA" 5 (by decide) (by decide)
      (by decide)).2.2.1,
   (unsupported_field_load exampleLoadEnv exampleLoader1 "circuitA" 5 (by decide) (by decide)
      (by decide)).2.2.2⟩

end proving

namespace circuits

/-- C13 fails as stated: the secp256k1 metadata is not multi-variant and has no filename,
and `Filename` on it is an index fault. -/
theorem Filename_empty_counterexample :
    Secp256k1AccountMetadata.MultiTx = false ∧
    Secp256k1AccountMetadata.Filename 0 = .error .indexOutOfRange ∧
    Secp256k1AccountMetadata.Filename 1 = .error .indexOutOfRange := by
  decide

theorem Filename_cases_witness :
    { exampleMultiMetadata with MultiTx := false }.Filename 7 = .ok "tx1" ∧
    Secp256k1AccountMetadata.Filename 7 = .error .indexOutOfRange ∧
    (∃ f, exampleMultiMetadata.Filenames.get? ((2 : Int) - 1).toNat = some f ∧
      exampleMultiMetadata.Filename 2 = .ok f) ∧
    exampleMultiMetadata.Filename 0 = .error .indexOutOfRange ∧
    exampleMultiMetadata.Filename 4 = .error .indexOutOfRange :=
  ⟨(Filename_cases { exampleMultiMetadata with MultiTx := false } 7).1 rfl "tx1"
      ["tx2", "tx3"] rfl,
   (Filename_cases Secp256k1AccountMetadata 7).2.1 rfl rfl,
   (Filename_cases exampleMultiMetadata 2).2.2.1 rfl (by decide) (by decide),
   (Filename_cases exampleMultiMetadata 0).2.2.2 rfl (Or.inl (by decide)),
   (Filename_cases exampleMultiMetadata 4).2.2.2 rfl (Or.inr (by decide))⟩

end circuits

namespace signatures

theorem chunk_values_witness :
    ∃ r, DataToBytes31Chunks (List.range 256) = .ok r ∧ r.i.length = 9 ∧
      (∀ j < 8, r.i.get? j =
        some (fromBigEndian (slice (List.range 256) (31 * j) (31 * j + 31)))) ∧
      r.i.get? 8 = some (fromBigEndian (slice (List.range 256) 248 256)) ∧
      (∀ x ∈ r.i, x < 2 ^ 248 ∧ x < frModulus) ∧ r.v = r.i ∧ r.e = r.i :=
  chunk_values (List.range 256) (List.length_range 256) (fun _ hx => List.mem_range.mp hx)

end signatures

namespace signatures

/-- C18 fails as stated: the buffer whose size-inverse slot holds the `fr` modulus decodes
to the same key as the all-zero buffer, and encoding that key gives the all-zero buffer,
not the buffer itself. -/
theorem BytesToVk_not_lossless_counterexample :
    nonCanonicalVkBytes.length = 1664 ∧ IsBytes nonCanonicalVkBytes ∧
    nonCanonicalVkBytes ≠ List.replicate 1664 0 ∧
    BytesToVk exampleLines nonCanonicalVkBytes = .ok zeroVk ∧
    BytesToVk exampleLines (List.replicate 1664 0) = .ok zeroVk ∧
    VkToBytes zeroVk = .ok (List.replicate 1664 0) := by
  have hm : frSetBytes (bigEndian 32 frModulus) = 0 := by
    unfold frSetBytes
    rw [fromBigEndian_bigEndian_of_lt 32 frModulus frModulus_lt]
    exact Nat.mod_self _
  have hz : frSetBytes (List.replicate 32 0) = 0 := by
    unfold frSetBytes
    rw [fromBigEndian_replicate_zero]
    rfl
  refine ⟨?_, ?_, ?_, ?_, ?_, ?_⟩
  · unfold nonCanonicalVkBytes
    rw [List.length_append, List.length_append, List.length_replicate, List.length_replicate,
      bigEndian_length]
  · unfold nonCanonicalVkBytes
    rw [isBytes_append, isBytes_append]
    exact ⟨⟨isBytes_replicate_zero 8, isBytes_bigEndian 32 frModulus⟩,
      isBytes_replicate_zero 1624⟩
  · intro h
    have h8 : nonCanonicalVkBytes.getD 8 0 = (List.replicate 1664 0).getD 8 0 := by rw [h]
    revert h8
    decide
  · simp [BytesToVk, nonCanonicalVkBytes, zeroVk, exampleLines, slice_append_skip,
      slice_append_here, bigEndian_length, slice_replicate, Uint64_append,
      fromBigEndian_replicate_zero, fpSetBytes, Uint64, hm, hz, -List.reduceReplicate]
  · simp [BytesToVk, zeroVk, exampleLines, slice_replicate, fromBigEndian_replicate_zero,
      fpSetBytes, frSetBytes, Uint64, List.take_replicate, -List.reduceReplicate]
  · rw [VkToBytes_eq zeroVk 0 0 0 ⟨0, 0⟩ ⟨0, 0⟩ ⟨0, 0⟩ rfl rfl rfl]
    simp [zeroVk, bigEndian_zero, -List.reduceReplicate]

end signatures

namespace signatures

theorem VkToBigInts_layout_witness :
    384 ≤ 384 ∧ ∃ i e b, VkToBigInts exampleVk = .ok (i, e) ∧ VkToBytes exampleVk = .ok b ∧
      i.length = 39 ∧ e.length = 39 ∧ specWriteBigEndian specVkWidths i = b ∧
      EmulatedVkToUints8 384 i = b ∧ e = i ∧ EmulatedVkToUints8 384 e = b := by
  obtain ⟨i, e, b, h1, h2, _, h4, h5, h6, h7, h8⟩ :=
    VkToBigInts_layout exampleVk 100 200 18446744073709551615 ⟨37, 38⟩ ⟨39, 40⟩ ⟨41, 42⟩
      rfl rfl rfl 384 (le_refl _)
  exact ⟨le_refl _, i, e, b, h1, h2, h4, h5, h6, h7, h8 (by decide)⟩

theorem BytesToVk_lossless_canonical_witness :
    (List.replicate 1664 0).length = 1664 ∧ IsBytes (List.replicate 1664 0) ∧
    CanonicalVkBytes (List.replicate 1664 0) ∧
    ∃ vk, BytesToVk exampleLines (List.replicate 1664 0) = .ok vk ∧
      VkToBytes vk = .ok (List.replicate 1664 0) := by
  have hc : CanonicalVkBytes (List.replicate 1664 0) := by
    constructor
    · intro k hk
      rw [slice_replicate 0 1664 _ _ (by omega), fromBigEndian_replicate_zero]
      decide
    · intro k hk
      rw [slice_replicate 0 1664 _ _ (by omega), fromBigEndian_replicate_zero]
      decide
  obtain ⟨vk, h1, _, _, _, _, h6, _⟩ :=
    BytesToVk_lossless_canonical exampleLines (List.replicate 1664 0)
      (List.length_replicate _ _) (isBytes_replicate_zero 1664)
  exact ⟨List.length_replicate _ _, isBytes_replicate_zero 1664, hc, vk, h1, h6 hc⟩

end signatures

namespace signatures

end signatures

namespace proving

theorem backend_fault_escapes_witness :
    ProveAssignment exampleFrontend exampleBackend exampleFaults exampleSingleMetadata
      exampleCircuit 5 = .crashed (.backend "slice bounds out of range") ∧
    (CircuitLoaderClient.LoadAndProve exampleFrontend exampleLoadEnv exampleBackend
      exampleFaults exampleLoader exampleSingleMetadata 1 5).1 =
      .crashed (.backend "slice bounds out of range") ∧
    ProveAssignment exampleFrontend exampleBackend exampleFaults exampleSingleMetadata
      exampleCircuit 2 =
      .returned (.error (.job (.external "verification failed"))) ∧
    (CircuitLoaderClient.LoadAndProve exampleFrontend exampleLoadEnv exampleBackend
      exampleFaults exampleLoader circuits.Secp256k1AccountMetadata 1 5).1 =
      .returned (.error (.recovered (.runtime .indexOutOfRange) "goroutine 1 [running]")) :=
  have h := backend_fault_escapes exampleFrontend exampleBackend exampleFaults
    exampleSingleMetadata exampleCircuit 5 5 0 5 (List.replicate 5 0) 1
    "slice bounds out of range" rfl rfl rfl rfl rfl rfl
  ⟨h.1, h.2.2.1 exampleLoadEnv exampleLoader _ 1 "circuitA" rfl rfl, rfl, rfl⟩

end proving

namespace signatures

theorem chunk_slots_witness :
    ∃ r, DataToBytes31Chunks (List.range 256) = .ok r ∧ r.b.length = 288 ∧ r.i.length = 9 ∧
      r.v = r.i ∧ (IsBytes (List.range 256) → r.e = r.i) ∧
      (∀ j < 8, slice r.b (32 * j) (32 * j + 32) =
          [0] ++ slice (List.range 256) (31 * j) (31 * j + 31) ∧
        fromBigEndian (slice r.b (32 * j) (32 * j + 32)) = r.i.getD j 0) ∧
      slice r.b 256 288 = [0] ++ slice (List.range 256) 248 256 ++ List.replicate 23 0 ∧
      fromBigEndian (slice r.b 256 265) = r.i.getD 8 0 ∧
      fromBigEndian (slice r.b 256 288) = r.i.getD 8 0 * 256 ^ 23 :=
  chunk_slots (List.range 256) (List.length_range 256)

set_option maxRecDepth 100000 in
/-- C21 fails as stated: for the payload of 255 zero bytes and a last byte 1, integer 8 is
1, while slot 8 of the buffer is `00 00 00 00 00 00 00 00 01` and 23 zero bytes, which
read as a big-endian integer is `256 ^ 23`. -/
theorem chunk_slot8_counterexample :
    (DataToBytes31Chunks (List.replicate 255 0 ++ [1])).map
        (fun r => (r.i.getD 8 0, slice r.b 256 288)) =
      .ok (1, [0, 0, 0, 0, 0, 0, 0, 0, 1] ++ List.replicate 23 0) ∧
    fromBigEndian ([0, 0, 0, 0, 0, 0, 0, 0, 1] ++ List.replicate 23 0) = 256 ^ 23 ∧
    256 ^ 23 ≠ 1 := by
  decide

end signatures

namespace signatures

set_option maxRecDepth 20000 in
theorem PaddedClientDataSuffix_fault_lengths_witness :
    PaddedClientDataSuffix (List.replicate 42 65) = .error .sliceBoundsOutOfRange ∧
    PaddedClientDataSuffix (List.replicate 240 65) = .error .sliceBoundsOutOfRange ∧
    (∃ res, PaddedClientDataSuffix (List.replicate 40 65) = .ok (res, 2)) ∧
    PaddedClientDataSuffix (List.replicate 242 65) = .error .indexOutOfRange :=
  ⟨(PaddedClientDataSuffix_fault_lengths (List.replicate 42 65)).1 (by decide) (by decide),
   (PaddedClientDataSuffix_fault_lengths (List.replicate 240 65)).1 (by decide) (by decide),
   (PaddedClientDataSuffix_fault_lengths (List.replicate 40 65)).2.1 (by decide) (by decide),
   (PaddedClientDataSuffix_fault_lengths (List.replicate 242 65)).2.2.1 (by decide)⟩

end signatures

namespace proving

theorem client_filenames_witness :
    circuits.exampleMultiMetadata.Filename 2 = .ok "tx2" ∧
    (CircuitLoaderClient.Load String exampleLoadEnv exampleLoader circuits.exampleMultiMetadata
      2).2.store.reads = ["tx2.vk", "tx2.pk", "tx2.ccs"] ∧
    (CircuitLoaderClient.LoadAndProve exampleFrontend exampleLoadEnv exampleBackend noFaults
      exampleLoader circuits.exampleMultiMetadata 2 3).2.store.reads = ["tx1.vk", "tx1.pk", "tx1.ccs"] ∧
    (CircuitLoaderClient.LoadAndProve exampleFrontend exampleLoadEnv exampleBackend noFaults
      exampleLoader circuits.exampleMultiMetadata 2 3).2.locks "tx2" = false ∧
    (CircuitLoaderClient.Load String exampleLoadEnv exampleLoader circuits.exampleMultiMetadata
      1).2.store.reads = ["tx1.vk", "tx1.pk", "tx1.ccs"] ∧
    (CircuitLoaderClient.LoadAndProve exampleFrontend exampleLoadEnv exampleBackend noFaults
      exampleLoader circuits.exampleMultiMetadata 1 3).1 =
      .returned (.error (.recovered (.runtime .indexOutOfRange) "goroutine 1 [running]")) := by
  have h := client_filenames exampleFrontend exampleLoadEnv exampleBackend noFaults
    exampleLoader circuits.exampleMultiMetadata 2 3 3 (List.replicate 3 0) rfl rfl
  have h1 := client_filenames exampleFrontend exampleLoadEnv exampleBackend noFaults
    exampleLoader circuits.exampleMultiMetadata 1 3 3 (List.replicate 3 0) rfl rfl
  refine ⟨rfl, ?_, ?_, ?_, ?_, (h1.2.2.2.2.1 rfl rfl (by decide)).2.1⟩
  · rw [h.1 "tx2" rfl]
    rfl
  · rw [h.2.1 "tx1" rfl]
    rfl
  · exact h.2.2.2.2.2.2 "tx2" "tx1" rfl rfl (by decide) rfl
  · rw [h1.1 "tx1" rfl]
    rfl

end proving

namespace signatures

set_option maxRecDepth 20000 in
theorem PaddedClientDataSuffix_marker_lost_witness :
    PaddedClientDataSuffix (List.replicate 41 65) =
      .ok (List.replicate 41 65 ++ [0, 0, 0, 0, 0, 0, 3, 192] ++ List.replicate 192 0, 2) ∧
    64 * 2 < 36 + 43 + 41 + 1 + 8 ∧
    PaddedClientDataSuffix (List.replicate 42 65) = .error .sliceBoundsOutOfRange ∧
    (∃ res count k m, PaddedClientDataSuffix (List.replicate 40 65) = .ok (res, count) ∧
      res.length = 241 ∧
      res = List.replicate 40 65 ++ [0x80] ++ List.replicate k 0 ++
        bigEndian 8 (8 * (36 + 43 + (List.replicate 40 65).length)) ++ List.replicate m 0 ∧
      36 + 43 + (List.replicate 40 65).length + 1 + k + 8 = 64 * count ∧ count ≤ 5) :=
  ⟨by decide, by decide,
   (PaddedClientDataSuffix_marker_lost (List.replicate 42 65) (by decide)).2.2.2 (by decide),
   (PaddedClientDataSuffix_marker_lost (List.replicate 40 65) (by decide)).2.1 (by decide)⟩

end signatures

namespace signatures

set_option maxRecDepth 20000 in
theorem secp256k1_validation_witness :
    ProveSignatureSecp256k1 exampleAdapterEnv 1 2 (List.replicate 64 1) "secp256k1" 0 =
      (.returned (.error .invalidSignatureLength), 0) ∧
    ProveSignatureSecp256k1 exampleAdapterEnv 1 2 (List.replicate 66 1) "secp256k1" 0 =
      (.returned (.error .invalidSignatureLength), 0) ∧
    ProveSignatureSecp256k1 exampleAdapterEnv 1 2 (List.replicate 64 1 ++ [29]) "secp256k1" 0 =
      (.returned (.error .invalidRecoveryId), 0) ∧
    ProveSignatureSecp256k1 exampleAdapterEnv 1 2 (List.replicate 64 1 ++ [0]) "secp256k1" 0 =
      (.returned (.error .invalidRecoveryId), 0) ∧
    ProveSignatureSecp256k1 exampleAdapterEnv 1 2 (List.replicate 64 1 ++ [1]) "secp256k1" 0 =
      (.returned (.error .invalidRecoveryId), 0) ∧
    ProveSignatureSecp256k1 exampleAdapterEnv 1 2 (List.replicate 64 1 ++ [27]) "secp256k1" 0 =
      proveRecovered exampleAdapterEnv 2 ((List.replicate 64 1 ++ [27]).set 64 0) 0 ∧
    ProveSignatureSecp256k1 exampleAdapterEnv 1 2 (List.replicate 64 1 ++ [28]) "secp256k1" 0 =
      proveRecovered exampleAdapterEnv 2 ((List.replicate 64 1 ++ [28]).set 64 1) 0 ∧
    ProveSignatureSecp256k1 exampleAdapterEnv 1 2 (List.replicate 64 1 ++ [27]) "secp256k1" 0 =
      (.panicked (.runtime .indexOutOfRange), 0) ∧
    ProveSignatureSecp256k1 strictAdapterEnv 1 2 (List.replicate 64 1 ++ [28]) "secp256k1" 0 =
      (.returned (.error (.external ("invalid message length", 1))), 0) ∧
    (ProveSignatureSecp256k1 exampleAdapterEnv 1 2 (List.replicate 64 1 ++ [27]) "secp256k1"
      0).1 ≠ .returned (.error .invalidSignatureLength) ∧
    (ProveSignatureSecp256k1 exampleAdapterEnv 1 2 (List.replicate 64 1 ++ [27]) "secp256k1"
      0).1 ≠ .returned (.error .invalidRecoveryId) :=
  ⟨(secp256k1_validation exampleAdapterEnv 1 2 (List.replicate 64 1) "secp256k1" 0).1
      (by decide),
   (secp256k1_validation exampleAdapterEnv 1 2 (List.replicate 66 1) "secp256k1" 0).1
      (by decide),
   (secp256k1_validation exampleAdapterEnv 1 2 (List.replicate 64 1 ++ [29]) "secp256k1"
      0).2.1 (by decide) (by decide) (by decide),
   (secp256k1_validation exampleAdapterEnv 1 2 (List.replicate 64 1 ++ [0]) "secp256k1"
      0).2.1 (by decide) (by decide) (by decide),
   (secp256k1_validation exampleAdapterEnv 1 2 (List.replicate 64 1 ++ [1]) "secp256k1"
      0).2.1 (by decide) (by decide) (by decide),
   (secp256k1_validation exampleAdapterEnv 1 2 (List.replicate 64 1 ++ [27]) "secp256k1"
      0).2.2.1 (by decide) (by decide),
   (secp256k1_validation exampleAdapterEnv 1 2 (List.replicate 64 1 ++ [28]) "secp256k1"
      0).2.2.2.1 (by decide) (by decide),
   ((secp256k1_validation exampleAdapterEnv 1 2 (List.replicate 64 1 ++ [27]) "secp256k1"
      0).2.2.2.2.1 (by decide) 0 (Or.inl ⟨by decide, rfl⟩)).2.1 _ rfl,
   ((secp256k1_validation strictAdapterEnv 1 2 (List.replicate 64 1 ++ [28]) "secp256k1"
      0).2.2.2.2.1 (by decide) 1 (Or.inr ⟨by decide, rfl⟩)).1 _ rfl,
   ((secp256k1_validation exampleAdapterEnv 1 2 (List.replicate 64 1 ++ [27]) "secp256k1"
      0).2.2.2.2.2 (by decide) (Or.inl (by decide))).1,
   ((secp256k1_validation exampleAdapterEnv 1 2 (List.replicate 64 1 ++ [27]) "secp256k1"
      0).2.2.2.2.2 (by decide) (Or.inl (by decide))).2⟩

set_option maxRecDepth 20000 in
theorem secp256k1_digest_witness :
    bigIntBytes 1 = [1] ∧ challengeBytes 1 = List.replicate 31 0 ++ [1] ∧
    bigEndian 32 1 = List.replicate 31 0 ++ [1] ∧
    ProveSignatureSecp256k1 strictAdapterEnv 7 1 (List.replicate 64 1 ++ [27]) "secp256k1" 0 =
      (.returned (.error (.external ("invalid message length", 1))), 0) ∧
    (bigIntBytes (2 ^ 248)).length = 32 :=
  ⟨rfl, by decide, by decide,
   (secp256k1_digest strictAdapterEnv 7 1 (List.replicate 64 1 ++ [27]) "secp256k1" 0
      (by decide) (by decide) (by decide) (Or.inl (by decide))).2.1 _ rfl,
   by decide⟩

end signatures

namespace proving

end proving
